import Mathlib

/-!
# signalhound: test-signal aggregation

A shallow embedding of `internal/testgrid/testgrid.go`, of the build-log scraper
`internal/prow/prow.go` with its regular-expression helper `internal/prow/helpers.go`, of the
API types of `api/v1alpha1/dashboard_types.go`, and of the parts of the reconciler
`internal/controller/dashboard_controller.go` and of the panel `internal/tui/panel.go` that
the statements are about.

Conventions of the embedding.

* A Go `string` is a Lean `String`; the library functions of package `strings` that the code
  calls are defined on the character list (`String.data`).  All separators and patterns the
  code passes are ASCII, so working on code points or on bytes gives the same result.
* A Go `int` / `int64` is an `Int`.  The only integers the code computes are counters and
  indices bounded by a slice length, so no wrap-around can occur.
* A Go slice is a `List`; a pointer that may be `nil` is an `Option`.
* A run-time panic (index out of range, nil dereference) is the result `none`.
* `fmt.Sprintf` with `%s` verbs only is string concatenation.
-/

namespace SignalHound

/-! ## The Go library functions used by the code -/

/-- Indexing `s[i]` of a Go slice with an `int` index: `none` is the out-of-range panic. -/
def goIndex {α : Type} (s : List α) (i : Int) : Option α :=
  if i < 0 then none else s.get? i.toNat

/-- The scanning loop of `strings.ReplaceAll` for a non-empty `old`: occurrences are found left
to right and do not overlap.  `skip` counts the characters of the occurrence just replaced
that are still to be stepped over. -/
def strings.replaceLoop (old new : List Char) : Nat → List Char → List Char
  | _, [] => []
  | skip + 1, _ :: cs => strings.replaceLoop old new skip cs
  | 0, c :: cs =>
    if old.isPrefixOf (c :: cs) then new ++ strings.replaceLoop old new (old.length - 1) cs
    else c :: strings.replaceLoop old new 0 cs

/-- Go `strings.ReplaceAll(s, old, new)`.  For an empty `old` Go inserts `new` before every
character and at the end. -/
def strings.ReplaceAll (s old new : String) : String :=
  if old.data = [] then ⟨new.data ++ s.data.flatMap (fun c => c :: new.data)⟩
  else ⟨strings.replaceLoop old.data new.data 0 s.data⟩

/-- Whether `sub` occurs in the character list at some position. -/
def strings.containsLoop (sub : List Char) : List Char → Bool
  | [] => sub.isPrefixOf []
  | c :: cs => sub.isPrefixOf (c :: cs) || strings.containsLoop sub cs

/-- Go `strings.Contains(s, substr)`. -/
def strings.Contains (s substr : String) : Bool :=
  strings.containsLoop substr.data s.data

/-- Go `strings.TrimPrefix(s, p)`: `s` without the leading `p`, or `s` itself when it does not
start with `p`. -/
def strings.TrimPrefix (s p : String) : String :=
  if p.data.isPrefixOf s.data then ⟨s.data.drop p.data.length⟩ else s

/-- The scanning loop of `strings.Split` for a non-empty separator; `cur` holds the characters
of the current piece in reverse. -/
def strings.splitLoop (sep : List Char) : Nat → List Char → List Char → List String
  | _, cur, [] => [⟨cur.reverse⟩]
  | skip + 1, cur, _ :: cs => strings.splitLoop sep skip cur cs
  | 0, cur, c :: cs =>
    if sep.isPrefixOf (c :: cs) then ⟨cur.reverse⟩ :: strings.splitLoop sep (sep.length - 1) [] cs
    else strings.splitLoop sep 0 (c :: cur) cs

/-- Go `strings.Split(s, sep)`.  For an empty separator Go returns the characters one by one. -/
def strings.Split (s sep : String) : List String :=
  if sep.data = [] then s.data.map (fun c => ⟨[c]⟩)
  else strings.splitLoop sep.data 0 [] s.data

/-! ## `api/v1alpha1/dashboard_types.go` -/

def PASSING_STATUS : String := "PASSING"

def FAILING_STATUS : String := "FAILING"

def FLAKY_STATUS : String := "FLAKY"

/-- TestResult contains details about an individual test run. -/
structure TestResult where
  TestName : String
  LatestTimestamp : Int
  FirstTimestamp : Int
  TriageURL : String
  ProwJobURL : String
  ErrorMessage : String
  deriving DecidableEq, Repr

/-- DashboardTab represents test results for a specific dashboard tab. -/
structure DashboardTab where
  TabName : String := ""
  TabURL : String := ""
  BoardHash : String := ""
  StateIcon : String := ""
  TabState : String := ""
  TestRuns : List TestResult := []
  deriving DecidableEq, Repr

/-- DashboardSummary represents summary information from a TestGrid dashboard.  The field
`DashboardTab` is a pointer in the source: `none` is `nil`. -/
structure DashboardSummary where
  LastRunTime : Int := 0
  LastUpdateTime : Int := 0
  LastGreenRun : String := ""
  OverallState : String := ""
  CurrentState : String := ""
  DashboardName : String := ""
  DashboardURL : String := ""
  DashboardTab : Option DashboardTab := none
  deriving DecidableEq, Repr

/-! ## `internal/prow/helpers.go` and the part of package `regexp` it uses -/

/-- The syntax of the regular expressions the code compiles: a literal character, `.` (any
character but a newline), `\w`, concatenation, the greedy `*`, a capture group with its
index (left parentheses counted from 1) and its name (empty for an unnamed group), `\d`,
`\s`, a negated class of one character such as `[^"]`, and the greedy `?`. -/
inductive Regex where
  | lit (c : Char)
  | anyNotNL
  | wordChar
  | seq (a b : Regex)
  | star (r : Regex)
  | group (index : Nat) (name : String) (r : Regex)
  | digit
  | space
  | notChar (c : Char)
  | opt (r : Regex)
  deriving Repr

/-- The class `\w` of Go regular expressions: `[0-9A-Za-z_]`. -/
def isWordChar (c : Char) : Bool :=
  c.isAlphanum || c = '_'

/-- The class `\s` of Go regular expressions: `[\t\n\f\r ]`. -/
def isSpaceChar (c : Char) : Bool :=
  c = '\t' || c = '\n' || c = Char.ofNat 12 || c = '\r' || c = ' '

/-- The state of a match in progress: the input still to read and the captures made so far
(the most recent first). -/
abbrev MatchState := List Char × List (Nat × String)

/-- The greedy repetition: one more iteration is preferred to stopping.  Every iteration has to
consume input, so `fuel` = length of the input is enough. -/
def Regex.starLoop (step : List Char → List (Nat × String) → List MatchState) :
    Nat → List Char → List (Nat × String) → List MatchState
  | 0, s, caps => [(s, caps)]
  | fuel + 1, s, caps =>
    ((step s caps).filter (fun r => r.1.length < s.length)).flatMap
        (fun r => Regex.starLoop step fuel r.1 r.2)
      ++ [(s, caps)]

/-- All the ways `re` matches at the start of `s`, most preferred first (the order in which a
backtracking matcher tries them, which is the leftmost-first rule of package `regexp`). -/
def Regex.run : Regex → List Char → List (Nat × String) → List MatchState
  | .lit c, s, caps =>
    match s with
    | x :: xs => if x = c then [(xs, caps)] else []
    | [] => []
  | .anyNotNL, s, caps =>
    match s with
    | x :: xs => if x = '\n' then [] else [(xs, caps)]
    | [] => []
  | .wordChar, s, caps =>
    match s with
    | x :: xs => if isWordChar x then [(xs, caps)] else []
    | [] => []
  | .seq a b, s, caps => (Regex.run a s caps).flatMap (fun r => Regex.run b r.1 r.2)
  | .star r, s, caps => Regex.starLoop (Regex.run r) s.length s caps
  | .group index _ r, s, caps =>
    (Regex.run r s caps).map
      (fun res => (res.1, (index, String.mk (s.take (s.length - res.1.length))) :: res.2))
  | .digit, s, caps =>
    match s with
    | x :: xs => if x.isDigit then [(xs, caps)] else []
    | [] => []
  | .space, s, caps =>
    match s with
    | x :: xs => if isSpaceChar x then [(xs, caps)] else []
    | [] => []
  | .notChar c, s, caps =>
    match s with
    | x :: xs => if x = c then [] else [(xs, caps)]
    | [] => []
  | .opt r, s, caps => Regex.run r s caps ++ [(s, caps)]

/-- The names of the capture groups, in the order of their left parentheses. -/
def Regex.groupNames : Regex → List String
  | .seq a b => Regex.groupNames a ++ Regex.groupNames b
  | .star r => Regex.groupNames r
  | .group _ name r => name :: Regex.groupNames r
  | .opt r => Regex.groupNames r
  | _ => []

/-- Go `(*Regexp).SubexpNames`: element 0 is the empty name of the whole expression. -/
def Regex.SubexpNames (re : Regex) : List String :=
  "" :: re.groupNames

/-- The slice `FindStringSubmatch` builds from a match: the matched text, then the text of
every group (empty for a group that took no part). -/
def Regex.submatches (re : Regex) (s : List Char) (res : MatchState) : List String :=
  String.mk (s.take (s.length - res.1.length)) ::
    (List.range re.groupNames.length).map (fun i => (res.2.lookup (i + 1)).getD "")

/-- The leftmost match: the first start position at which `re` matches, with its most
preferred match there. -/
def Regex.findLoop (re : Regex) : List Char → Option (List String)
  | [] => ((re.run [] []).head?).map (re.submatches [])
  | c :: cs =>
    match (re.run (c :: cs) []).head? with
    | some res => some (re.submatches (c :: cs) res)
    | none => Regex.findLoop re cs

/-- Go `(*Regexp).FindStringSubmatch`; the `nil` returned when nothing matches is `[]`. -/
def Regex.FindStringSubmatch (re : Regex) (s : String) : List String :=
  (re.findLoop s.data).getD []

/-- A sequence of literal characters followed by `next`. -/
def Regex.literal (s : String) (next : Regex) : Regex :=
  s.data.foldr (fun c r => Regex.seq (Regex.lit c) r) next

/-- The `for i, name := range r.SubexpNames()` loop of `GetRegexParameter`; `params` is the map
under construction, as an association list in which the first binding of a key is the
current one. -/
def GetRegexParameter.loop (m : List String) :
    List String → Nat → List (String × String) → Option (List (String × String))
  | [], _, params => some params
  | name :: names, i, params =>
    if i > 0 ∧ i ≤ m.length then
      match goIndex m i with
      | some v => GetRegexParameter.loop m names (i + 1) ((name, v) :: params)
      | none => none
    else GetRegexParameter.loop m names (i + 1) params

/-- The function `GetRegexParameter` of package `prow`.  `regEx` is the pattern as
`regexp.MustCompile` compiles it (the patterns passed are constants that compile). -/
def GetRegexParameter (regEx : Regex) (value : String) : Option (List (String × String)) :=
  let r := regEx
  let m := r.FindStringSubmatch value
  GetRegexParameter.loop m r.SubexpNames 0 []

/-- Reading `params[key]` from a Go map of strings: the empty string for a missing key. -/
def mapIndex (params : List (String × String)) (key : String) : String :=
  (params.lookup key).getD ""

/-! ## `internal/testgrid/testgrid.go`: data -/

def URL : String := "https://testgrid.k8s.io"

def e2eSuitePrefix : String := "Kubernetes e2e suite."

def kubetestPrefix : String := "kubetest"

/-- The pattern `testRegex`, that is
`e2eSuitePrefix` followed by `\[It\] \[(\w.*)\] (?<TEST>\w.*)`, compiled: the final `.` of
`e2eSuitePrefix` is the any-character operator of the pattern. -/
def testRegex : Regex :=
  Regex.literal "Kubernetes e2e suite" <| Regex.seq Regex.anyNotNL <|
    Regex.literal "[It] [" <|
      Regex.seq (Regex.group 1 "" (Regex.seq Regex.wordChar (Regex.star Regex.anyNotNL))) <|
        Regex.literal "] " <|
          Regex.group 2 "TEST" (Regex.seq Regex.wordChar (Regex.star Regex.anyNotNL))

structure Statuses where
  Count : Int := 0
  Value : Int := 0
  deriving DecidableEq, Repr

structure Test where
  Name : String := ""
  OriginalName : String := ""
  Messages : List String := []
  ShortTexts : List String := []
  Statuses : List Statuses := []
  Target : String := ""
  deriving DecidableEq, Repr

/-- TestGroup serializes the content from testgrid tab endpoint. -/
structure TestGroup where
  TestGroupName : String := ""
  Query : String := ""
  Status : String := ""
  Changelists : List String := []
  ColumnIds : List String := []
  CustomColumns : List (List String) := []
  ColumnHeaderNames : List String := []
  Groups : List String := []
  Tests : List Test := []
  RowIds : List String := []
  Timestamps : List Int := []
  StaleTestThreshold : Int := 0
  NumStaleTests : Int := 0
  Description : String := ""
  OverallStatus : Int := 0
  deriving DecidableEq, Repr

structure TestGrid where
  URL : String
  deriving DecidableEq, Repr

def NewTestGrid (url : String) : TestGrid := { URL := url }

/-- The map `DashboardMapper` (tab name to summary), given as the sequence of its entries in the
order in which the `range` loop visits them.  Go leaves that order unspecified, so every
ordering of the entries is a possible run.  Every value is a non-nil pointer to a summary of its
own, which is what `json.Unmarshal` builds from a JSON object of objects. -/
abbrev DashboardMapper := List (String × DashboardSummary)

/-! ## `internal/testgrid/testgrid.go`: functions -/

def cleanHTMLCharacters (str : String) : String :=
  strings.ReplaceAll str " " "%20"

/-- The function formatTestStatus creates a formatted string for a single test status.  The
source renders `time.Unix(timestamp/1000, 0)` with the verb `%s`, which prints the instant in
the time zone of the host; `timeString` is that rendering, as a function of the seconds since
the epoch.  Go integer division truncates toward zero. -/
def formatTestStatus (timeString : Int → String) (shortText : String) (timestamp : Int)
    (message : String) : String :=
  let timeFormatted := timeString (timestamp.tdiv 1000)
  "\t" ++ shortText ++ " " ++ timeFormatted ++ " " ++ message ++ "\n"

/-- The `for i, shortText := range te.ShortTexts` loop of `RenderStatuses`, from column `i` on,
with the loop variables `(output, failureCount, firstFailureIndex)` as state. -/
def Test.renderLoop (timeString : Int → String) (te : Test) (timestamps : List Int) :
    List String → Nat → String × Int × Int → Option (String × Int × Int)
  | [], _, st => some st
  | shortText :: rest, i, (output, failureCount, firstFailureIndex) =>
    if shortText = "" then
      Test.renderLoop timeString te timestamps rest (i + 1)
        (output, failureCount, firstFailureIndex)
    else
      let firstFailureIndex := if firstFailureIndex < 0 then (i : Int) else firstFailureIndex
      match goIndex timestamps i, goIndex te.Messages i with
      | some ts, some msg =>
        Test.renderLoop timeString te timestamps rest (i + 1)
          (output ++ formatTestStatus timeString shortText ts msg, failureCount + 1,
            firstFailureIndex)
      | _, _ => none

/-- RenderStatuses renders the statuses of a test into a string; it returns the text, the
failure count and the first failure index. -/
def Test.RenderStatuses (timeString : Int → String) (te : Test) (timestamps : List Int) :
    Option (String × Int × Int) :=
  Test.renderLoop timeString te timestamps te.ShortTexts 0 ("", 0, -1)

def hasStatus (boardStatus : String) : List String → Bool
  | [] => false
  | status :: statuses => if boardStatus = status then true else hasStatus boardStatus statuses

/-- The format `tabURL` applied to its four arguments. -/
def tabURL (url dashName tabName dashName2 : String) : String :=
  url ++ "/" ++ dashName ++ "/table?tab=" ++ tabName ++ "&exclude-non-failed-tests=&dashboard="
    ++ dashName2

/-- One iteration of the `range` loop of `filterDashboards`. -/
def filterDashboards.step (url : String) (filterStatus : List String)
    (summary : List DashboardSummary) (entry : String × DashboardSummary) :
    List DashboardSummary :=
  let tabName := entry.1
  let dashboardSummary := entry.2
  if hasStatus dashboardSummary.OverallState filterStatus then
    let dashboardSummary := { dashboardSummary with DashboardURL := url }
    let dashboardSummary :=
      match dashboardSummary.DashboardTab with
      | none =>
        let dashName := dashboardSummary.DashboardName
        { dashboardSummary with
          DashboardTab := some
            { TabURL := cleanHTMLCharacters (tabURL url dashName tabName dashName)
              TabName := tabName } }
      | some _ => dashboardSummary
    summary ++ [dashboardSummary]
  else summary

def filterDashboards (dashboardList : DashboardMapper) (url : String)
    (filterStatus : List String) : List DashboardSummary :=
  dashboardList.foldl (filterDashboards.step url filterStatus) []

/-- Lines 172-178 of `filterTabTests`: the test name used in the triage URL. -/
def normalizedTestName (name : String) : Option String := do
  let testName := name
  let testName ←
    if strings.Contains testName e2eSuitePrefix then
      (GetRegexParameter testRegex testName).map (fun params => mapIndex params "TEST")
    else some testName
  let testName :=
    if strings.Contains testName kubetestPrefix then
      strings.TrimPrefix (strings.TrimPrefix testName "kubetest2.") "kubetest."
    else testName
  some testName

/-- Lines 179-186 of `filterTabTests`: the `TestResult` appended for an included test. -/
def filterTabTests.result (testGroup : TestGroup) (jobName : List String) (test : Test)
    (testName errMessage : String) (firstFailure : Int) : Option TestResult := do
  let latest ← goIndex testGroup.Timestamps 0
  let first ← goIndex testGroup.Timestamps ((testGroup.Timestamps.length : Int) - 1)
  let changelist ← goIndex testGroup.Changelists firstFailure
  let job ← goIndex jobName ((jobName.length : Int) - 1)
  some
    { TestName := test.Name
      LatestTimestamp := latest
      FirstTimestamp := first
      ProwJobURL :=
        cleanHTMLCharacters ("https://prow.k8s.io/view/gs/" ++ testGroup.Query ++ "/" ++ changelist)
      TriageURL :=
        cleanHTMLCharacters
          ("https://storage.googleapis.com/k8s-triage/index.html?job=" ++ cleanHTMLCharacters job
            ++ "$&test=" ++ cleanHTMLCharacters testName)
      ErrorMessage := errMessage }

/-- The condition of the `if` of `filterTabTests`. -/
def filterTabTests.included (state : String) (minFailure minFlake failures : Int) : Bool :=
  (decide (failures ≥ minFailure) && decide (state = FAILING_STATUS)) ||
    (decide (failures ≥ minFlake) && decide (state = FLAKY_STATUS))

/-- The `for _, test := range testGroup.Tests` loop of `filterTabTests`, with the slice `tests`
built so far as state. -/
def filterTabTests.loop (timeString : Int → String) (testGroup : TestGroup) (state : String)
    (minFailure minFlake : Int) (jobName : List String) :
    List Test → List TestResult → Option (List TestResult)
  | [], tests => some tests
  | test :: rest, tests =>
    match test.RenderStatuses timeString testGroup.Timestamps with
    | none => none
    | some (errMessage, failures, firstFailure) =>
      if filterTabTests.included state minFailure minFlake failures then
        match normalizedTestName test.Name with
        | none => none
        | some testName =>
          match filterTabTests.result testGroup jobName test testName errMessage firstFailure with
          | none => none
          | some r =>
            filterTabTests.loop timeString testGroup state minFailure minFlake jobName rest
              (tests ++ [r])
      else
        filterTabTests.loop timeString testGroup state minFailure minFlake jobName rest tests

def filterTabTests (timeString : Int → String) (testGroup : TestGroup) (state : String)
    (minFailure minFlake : Int) : Option (List TestResult) :=
  let jobName := strings.Split testGroup.Query "/"
  filterTabTests.loop timeString testGroup state minFailure minFlake jobName testGroup.Tests []

/-- FetchTabTests returns the test group related to the tab of a dashboard.  `fetchTestGroup`
stands for the three fallible steps `http.Get`, `io.ReadAll` and `json.Unmarshal` on a URL: the
decoded test group, or the error of the step that failed.  The result is `none` for a panic,
`some (.error e)` for a returned error and `some (.ok tab)` for the returned
`summary.DashboardTab`, whose fields the function has overwritten. -/
def TestGrid.FetchTabTests (timeString : Int → String)
    (fetchTestGroup : String → Except String TestGroup) (_t : TestGrid)
    (summary : DashboardSummary) (minFailure minFlake : Int) :
    Option (Except String DashboardTab) :=
  match summary.DashboardTab with
  | none => none
  | some dashboardTab =>
    match fetchTestGroup dashboardTab.TabURL with
    | .error err => some (.error err)
    | .ok testGroup =>
      let aggregation := summary.DashboardName ++ "#" ++ dashboardTab.TabName
      let icon :=
        if summary.OverallState = FAILING_STATUS then ":large_red_square:"
        else ":large_purple_square:"
      match filterTabTests timeString testGroup summary.OverallState minFailure minFlake with
      | none => none
      | some testRuns =>
        some (.ok
          { dashboardTab with
            BoardHash := aggregation
            TabURL :=
              cleanHTMLCharacters
                ("https://testgrid.k8s.io/" ++ aggregation ++ "&exclude-non-failed-tests=")
            TestRuns := testRuns
            TabState := summary.OverallState
            StateIcon := icon })

/-! ## Definitions used in the statements -/

/-- A stand-in for the time rendering of the host, used in the concrete runs. -/
def sampleTime (sec : Int) : String := "T" ++ toString sec.toNat

/-- The text `RenderStatuses` is to produce for the columns `cols`: the formatted status of
every column whose short text is not empty, in the order of `cols`. -/
def renderedColumns (timeString : Int → String) (te : Test) (timestamps : List Int)
    (cols : List Nat) : String :=
  String.join
    ((cols.filter (fun i => decide (te.ShortTexts.getD i "" ≠ ""))).map
      (fun i => formatTestStatus timeString (te.ShortTexts.getD i "") (timestamps.getD i 0)
        (te.Messages.getD i "")))

/-- The failure count `RenderStatuses` returns for a test against `timestamps` (0 when the call
panics). -/
def Test.failureCount (timeString : Int → String) (te : Test) (timestamps : List Int) : Int :=
  match te.RenderStatuses timeString timestamps with
  | some (_, failures, _) => failures
  | none => 0

/-- The inclusion rule for a test of a group: state `FAILING` with at least `minFailure`
failures, or state `FLAKY` with at least `minFlake` failures. -/
def Test.isIncluded (timeString : Int → String) (testGroup : TestGroup) (state : String)
    (minFailure minFlake : Int) (test : Test) : Bool :=
  decide ((state = FAILING_STATUS
        ∧ minFailure ≤ test.failureCount timeString testGroup.Timestamps)
      ∨ (state = FLAKY_STATUS
        ∧ minFlake ≤ test.failureCount timeString testGroup.Timestamps))

/-- The relation between an included test and the `TestResult` that `filterTabTests` appends
for it: the result is built from what `RenderStatuses` returns for the test and from its
normalized name. -/
def filterTabTests.appended (timeString : Int → String) (testGroup : TestGroup) (test : Test)
    (r : TestResult) : Prop :=
  ∃ errMessage failures firstFailure testName,
    test.RenderStatuses timeString testGroup.Timestamps
        = some (errMessage, failures, firstFailure)
      ∧ normalizedTestName test.Name = some testName
      ∧ filterTabTests.result testGroup (strings.Split testGroup.Query "/") test testName
          errMessage firstFailure = some r

/-- A test group is aligned when the `ShortTexts` and `Messages` of every test and the
`Changelists` of the group have the length of `Timestamps`. -/
def TestGroup.aligned (testGroup : TestGroup) : Prop :=
  (∀ test ∈ testGroup.Tests, test.ShortTexts.length = testGroup.Timestamps.length)
    ∧ (∀ test ∈ testGroup.Tests, test.Messages.length = testGroup.Timestamps.length)
    ∧ testGroup.Changelists.length = testGroup.Timestamps.length

/-- The test group of `Test_FetchTable`. -/
def sampleGroup : TestGroup :=
  { TestGroupName := "cikubernetese2ecapzmasterwindows"
    Query := "kubernetes-ci-logs/logs/ci-kubernetes-e2e-capz-master-windows"
    Status := "Served from cache in 0.16 seconds"
    Timestamps := [1758999193000]
    Changelists := ["1972011571991285760"]
    Tests := [{ Name := "ci-kubernetes-build.Overall", ShortTexts := ["F"], Messages := ["F"] }] }

/-- The summary of `Test_FetchTable`. -/
def sampleSummary : DashboardSummary :=
  { OverallState := FLAKY_STATUS
    DashboardName := "sig-release-blocking"
    DashboardTab := some { TabName := "cikubernetesbuild", TabURL := "http://127.0.0.1" } }

/-- A group with one failing run of the test `kubetest.Up`. -/
def kubetestGroup : TestGroup :=
  { Query := "kubernetes-ci-logs/logs/ci-job"
    Timestamps := [1758999193000]
    Changelists := ["1972011571991285760"]
    Tests := [{ Name := "kubetest.Up", ShortTexts := ["F"], Messages := ["timeout"] }] }

/-- A group with one failing run of a test whose name has the e2e-suite marker but not the
shape of `testRegex`. -/
def unmatchedGroup : TestGroup :=
  { Query := "kubernetes-ci-logs/logs/ci-job"
    Timestamps := [1758999193000]
    Changelists := ["1972011571991285760"]
    Tests := [{ Name := "Kubernetes e2e suite.BeforeSuite", ShortTexts := ["F"],
                Messages := ["timeout"] }] }

/-- The test of the first case of `TestRenderStatuses`. -/
def sampleTest : Test :=
  { ShortTexts := ["", "", "F", "", "F"]
    Messages := ["", "", "kubetest --timeout triggered", "", "kubetest --timeout triggered"] }

/-- The timestamps of the first case of `TestRenderStatuses`. -/
def sampleTimestamps : List Int :=
  [1758974631000, 1758967371000, 1758960111000, 1758952851000, 1758945591000]


/-- The tab `FetchTabTests` returns for `sampleSummary` when the server answers with
`sampleGroup`, thresholds 1 and 1. -/
def sampleTab : DashboardTab :=
  { TabName := "cikubernetesbuild"
    TabURL :=
      "https://testgrid.k8s.io/sig-release-blocking#cikubernetesbuild&exclude-non-failed-tests="
    BoardHash := "sig-release-blocking#cikubernetesbuild"
    StateIcon := ":large_purple_square:"
    TabState := "FLAKY"
    TestRuns :=
      [{ TestName := "ci-kubernetes-build.Overall"
         LatestTimestamp := 1758999193000
         FirstTimestamp := 1758999193000
         TriageURL := "https://storage.googleapis.com/k8s-triage/index.html?job=ci-kubernetes-e2e-capz-master-windows$&test=ci-kubernetes-build.Overall"
         ProwJobURL := "https://prow.k8s.io/view/gs/kubernetes-ci-logs/logs/ci-kubernetes-e2e-capz-master-windows/1972011571991285760"
         ErrorMessage := "\tF T1758999193 F\n" }] }
/-- The normalized test name in the words of the specification: the raw name; replaced by the
`TEST` capture of `testRegex` (the empty string when nothing matches) when it contains
`Kubernetes e2e suite.`; then, when it contains `kubetest`, with a leading `kubetest2.` and
then a leading `kubetest.` removed. -/
def normalizedName (name : String) : String :=
  let n :=
    if strings.Contains name "Kubernetes e2e suite." then
      (testRegex.FindStringSubmatch name).getD 2 ""
    else name
  if strings.Contains n "kubetest" then
    strings.TrimPrefix (strings.TrimPrefix n "kubetest2.") "kubetest."
  else n

/-- A group of three columns in which the one test failed in the middle column only. -/
def gapGroup : TestGroup :=
  { Query := "kubernetes-ci-logs/logs/ci-job"
    Timestamps := [1758999193000, 1758992000000, 1758985000000]
    Changelists := ["1972011571991285760", "1971981372021772288", "1971951173058039808"]
    Tests := [{ Name := "kubetest.Up", ShortTexts := ["", "F", ""],
                Messages := ["", "timeout", ""] }] }

/-! ## `golang.org/x/net/html`, `net/url`: the parts `internal/prow/prow.go` uses -/

/-- The type of a node, `html.NodeType`. -/
inductive html.NodeType where
  | ErrorNode
  | TextNode
  | DocumentNode
  | ElementNode
  | CommentNode
  | DoctypeNode
  | RawNode
  deriving DecidableEq, Repr

/-- An attribute of an element, `html.Attribute`. -/
structure html.Attribute where
  Namespace : String := ""
  Key : String
  Val : String
  deriving DecidableEq, Repr

/-- A pointer to an `html.Node`: `nil`, or a node with its fields `Type` (here `Kind`),
`DataAtom`, `Data`, `Attr` and its pointers `FirstChild` and `NextSibling`.  The pointer
`Parent` is not stored: a traversal carries the `Data` of the parent along. -/
inductive html.Node where
  | nil
  | mk (Kind : html.NodeType) (DataAtom : Nat) (Data : String) (Attr : List html.Attribute)
      (FirstChild NextSibling : html.Node)
  deriving DecidableEq, Repr

/-- The field `Data` of a node that is not `nil`. -/
def html.Node.Data : html.Node → String
  | .nil => ""
  | .mk _ _ data _ _ _ => data

/-- The number of bytes of the UTF-8 encoding of a character. -/
def utf8Len (c : Char) : Nat :=
  if c.toNat < 128 then 1 else if c.toNat < 2048 then 2 else if c.toNat < 65536 then 3 else 4

/-- Go `len(s)` for a string: its number of bytes. -/
def goLen (s : String) : Nat :=
  (s.data.map utf8Len).sum

/-- The bytes of the UTF-8 encoding of a character. -/
def utf8Bytes (c : Char) : List Nat :=
  let n := c.toNat
  if n < 128 then [n]
  else if n < 2048 then [192 + n / 64, 128 + n % 64]
  else if n < 65536 then [224 + n / 4096, 128 + n / 64 % 64, 128 + n % 64]
  else [240 + n / 262144, 128 + n / 4096 % 64, 128 + n / 64 % 64, 128 + n % 64]

/-- The upper-case hexadecimal digit of a number below 16. -/
def hexDigit (n : Nat) : Char :=
  ("0123456789ABCDEF".data.getD n '0')

/-- Go `url.QueryEscape`: letters, digits and `-`, `_`, `.`, `~` are kept, a space becomes
`+`, and every other byte becomes `%` followed by its two hexadecimal digits. -/
def url.QueryEscape (s : String) : String :=
  ⟨s.data.flatMap (fun c =>
    if c.isAlphanum || c = '-' || c = '_' || c = '.' || c = '~' then [c]
    else if c = ' ' then ['+']
    else (utf8Bytes c).flatMap (fun b => ['%', hexDigit (b / 16), hexDigit (b % 16)]))⟩

/-! ## `internal/prow/prow.go` -/

def prow.URL : String := "https://prow.k8s.io"

/-- BuildLog holds the build log. -/
structure prow.BuildLog where
  Error : String := ""
  LensURL : String := ""
  deriving DecidableEq, Repr

/-- The body of the closure `crawler` of `extractBuildLogs` up to its loop over the children,
on a node that is not `nil`: the new values of `(chunks, errors)`.  `parent` is the `Data` of
`node.Parent`, `none` when that pointer is `nil`, in which case reading it panics. -/
def prow.extractBuildLogs.visit (parent : Option String) (kind : html.NodeType)
    (data : String) (st : Int × String) : Option (Int × String) :=
  let chunks := st.1
  let errors := st.2
  if kind = html.NodeType.TextNode ∧ data ≠ "" ∧ strings.Contains data "\n" = false
      ∧ goLen data > 10 then
    match parent with
    | none => none
    | some parentData =>
      if parentData = "span" ∧ chunks = 1 then some (chunks, errors ++ (data ++ "\n"))
      else if kind = html.NodeType.TextNode ∧ data = "expand_less" then
        some (chunks + 1, errors)
      else some (chunks, errors)
  else some (chunks, errors)

/-- The loop `for child := ...; child != nil; child = child.NextSibling` of `extractBuildLogs`
from the child `node` on: `crawler(node)`, then the same for the siblings that follow. -/
def prow.extractBuildLogs.crawlerLoop (parent : Option String) :
    html.Node → Int × String → Option (Int × String)
  | .nil, st => some st
  | .mk kind _ data _ firstChild nextSibling, st =>
    match prow.extractBuildLogs.visit parent kind data st with
    | none => none
    | some st1 =>
      match prow.extractBuildLogs.crawlerLoop (some data) firstChild st1 with
      | none => none
      | some st2 => prow.extractBuildLogs.crawlerLoop parent nextSibling st2

/-- The call `crawler(doc)` of `extractBuildLogs`, from the state `st`; the root has no parent,
and a `nil` root panics. -/
def prow.extractBuildLogs.crawler : html.Node → Int × String → Option (Int × String)
  | .nil, _ => none
  | .mk kind _ data _ firstChild _, st =>
    match prow.extractBuildLogs.visit none kind data st with
    | none => none
    | some st1 => prow.extractBuildLogs.crawlerLoop (some data) firstChild st1

/-- The function extractBuildLogs returns the buildlog serialization error logs from build log
glass pane.  `parsed` is what `html.Parse(body)` returns; the result is `none` for a panic. -/
def prow.extractBuildLogs (parsed : Except String html.Node) :
    Option (Except String prow.BuildLog) :=
  match parsed with
  | .error err => some (.error err)
  | .ok doc =>
    match prow.extractBuildLogs.crawler doc (0, "") with
    | none => none
    | some st => some (.ok { Error := st.2 })

def prow.getAttributeValue : List html.Attribute → String → String
  | [], _ => ""
  | attr :: attrs, name =>
    if attr.Key = name then attr.Val else prow.getAttributeValue attrs name

/-- The loop over the children of the closure `crawler` of `extractBuildLensURL` from the child
`node` on, with `(content, buildLen)` as state.  The `return` of the closure skips the
children of the node it is at. -/
def prow.extractBuildLensURL.crawlerLoop : html.Node → String × String → String × String
  | .nil, st => st
  | .mk kind dataAtom data attr firstChild nextSibling, st =>
    let content :=
      if data = "script" ∧ firstChild ≠ html.Node.nil
          ∧ strings.Contains firstChild.Data "lensArtifacts" = true then
        firstChild.Data
      else st.1
    if dataAtom = 195590 ∧ kind = html.NodeType.ElementNode
        ∧ prow.getAttributeValue attr "data-lens-name" = "buildlog" then
      prow.extractBuildLensURL.crawlerLoop nextSibling
        (content, prow.getAttributeValue attr "data-lens-index")
    else
      prow.extractBuildLensURL.crawlerLoop nextSibling
        (prow.extractBuildLensURL.crawlerLoop firstChild (content, st.2))

/-- The call `crawler(doc)` of `extractBuildLensURL`: the final `(content, buildLen)`; a `nil`
root panics. -/
def prow.extractBuildLensURL.crawler : html.Node → Option (String × String)
  | .nil => none
  | .mk kind dataAtom data attr firstChild _ =>
    some (prow.extractBuildLensURL.crawlerLoop
      (.mk kind dataAtom data attr firstChild .nil) ("", ""))

/-- One entry of the `lensArtifacts` object, `"\d+":\[(?:"[^"]+",?)*\]`. -/
def lensEntryRegex : Regex :=
  Regex.literal "\"" <| Regex.seq Regex.digit <| Regex.seq (Regex.star Regex.digit) <|
    Regex.literal "\":[" <|
      Regex.seq
        (Regex.star
          (Regex.literal "\"" <| Regex.seq (Regex.notChar '"') <|
            Regex.seq (Regex.star (Regex.notChar '"')) <|
              Regex.literal "\"" (Regex.opt (Regex.lit ','))))
        (Regex.lit ']')

/-- The first pattern of `extractBuildLensURL`, compiled: the text `var lensArtifacts = `, the
group `JSON` holding a brace, one entry, further entries each after `,\s*`, and a brace, then
`;`. -/
def lensArtifactsRegex : Regex :=
  Regex.literal "var lensArtifacts = " <|
    Regex.seq
      (Regex.group 1 "JSON"
        (Regex.literal "\x7b" <| Regex.seq lensEntryRegex <|
          Regex.seq
            (Regex.star (Regex.seq (Regex.lit ',') (Regex.seq (Regex.star Regex.space)
              lensEntryRegex)))
            (Regex.lit (Char.ofNat 125))))
      (Regex.lit ';')

/-- The second pattern of `extractBuildLensURL`, `var src = "(?<URL>[^"]+)"`, compiled. -/
def srcRegex : Regex :=
  Regex.literal "var src = \"" <|
    Regex.seq
      (Regex.group 1 "URL" (Regex.seq (Regex.notChar '"') (Regex.star (Regex.notChar '"'))))
      (Regex.lit '"')

/-- The request payload `extractBuildLensURL` formats from the encoded artifact list, the lens
index and the source URL. -/
def prow.lensPayload (artifactsList buildLen gsURL : String) : String :=
  "\x7b\"artifacts\": " ++ artifactsList ++ ",\"index\": " ++ buildLen ++ ",\"src\": \""
    ++ gsURL ++ "\"\x7d"

/-- The function extractBuildLensURL returns the final URL for next phase build lens logs
extraction.  `parsed` is what `html.Parse(body)` returns.  `jsonUnmarshal` is `json.Unmarshal`
into a `map[string][]string`, the map given by its entries, and `jsonMarshal` is
`json.Marshal` of a `[]string`, `none` being the nil slice a missing key gives.  The result is
`none` for a panic. -/
def prow.extractBuildLensURL
    (jsonUnmarshal : String → Except String (List (String × List String)))
    (jsonMarshal : Option (List String) → Except String String)
    (parsed : Except String html.Node) : Option (Except String String) :=
  match parsed with
  | .error err => some (.error err)
  | .ok doc =>
    match prow.extractBuildLensURL.crawler doc with
    | none => none
    | some (content, buildLen) =>
      match GetRegexParameter lensArtifactsRegex content with
      | none => none
      | some params =>
        let artifacts := mapIndex params "JSON"
        match jsonUnmarshal artifacts with
        | .error err => some (.error err)
        | .ok jsonData =>
          match jsonMarshal (jsonData.lookup buildLen) with
          | .error err => some (.error err)
          | .ok artifactsList =>
            match GetRegexParameter srcRegex content with
            | none => none
            | some params2 =>
              let gsURL := mapIndex params2 "URL"
              let data := prow.lensPayload artifactsList buildLen gsURL
              some (.ok (prow.URL ++ "/spyglass/lens/buildlog/iframe?req="
                ++ url.QueryEscape data))

/-! ## Definitions used in the statements on `internal/prow/prow.go` -/

/-- A visit of a traversal: the `Data` of the parent of the node (`none` for the root), the
type of the node and its `Data`. -/
abbrev Visit := Option String × html.NodeType × String

/-- The visits of the depth-first traversal of `node` and of the siblings that follow it, in
order: the node, its descendants, then the siblings. -/
def html.Node.visits (parent : Option String) : html.Node → List Visit
  | .nil => []
  | .mk kind _ data _ firstChild nextSibling =>
    (parent, kind, data)
      :: (html.Node.visits (some data) firstChild ++ html.Node.visits parent nextSibling)

/-- The visits of the depth-first traversal of a document from its root. -/
def html.Node.documentVisits : html.Node → List Visit
  | .nil => []
  | .mk kind _ data _ firstChild _ => (none, kind, data) :: html.Node.visits (some data) firstChild

/-- The state `(chunks, errors)` of `extractBuildLogs` after a sequence of visits. -/
def prow.extractBuildLogs.visitAll : List Visit → Int × String → Option (Int × String)
  | [], st => some st
  | v :: vs, st =>
    match prow.extractBuildLogs.visit v.1 v.2.1 v.2.2 st with
    | none => none
    | some st1 => prow.extractBuildLogs.visitAll vs st1

/-- A visit of a text node whose content is exactly the sentinel `expand_less`. -/
def Visit.isSentinel (v : Visit) : Bool :=
  decide (v.2.1 = html.NodeType.TextNode ∧ v.2.2 = "expand_less")

/-- Whether the tree of `node` and of the siblings that follow it has an iframe element (atom
195590) whose attribute `data-lens-name` is `buildlog`. -/
def html.Node.hasBuildlogIframe : html.Node → Bool
  | .nil => false
  | .mk kind dataAtom _ attr firstChild nextSibling =>
    decide (dataAtom = 195590 ∧ kind = html.NodeType.ElementNode
        ∧ prow.getAttributeValue attr "data-lens-name" = "buildlog")
      || html.Node.hasBuildlogIframe firstChild || html.Node.hasBuildlogIframe nextSibling

/-- The texts of the scripts of the tree of `node` and of the siblings that follow it that
hold the marker `lensArtifacts`, in depth-first order: the `Data` of the first child of every
node whose `Data` is `script`, when that child exists and its `Data` contains the marker. -/
def html.Node.markerScripts : html.Node → List String
  | .nil => []
  | .mk _ _ data _ firstChild nextSibling =>
    (if data = "script" ∧ firstChild ≠ html.Node.nil
          ∧ strings.Contains firstChild.Data "lensArtifacts" = true then
        [firstChild.Data]
      else [])
      ++ (html.Node.markerScripts firstChild ++ html.Node.markerScripts nextSibling)

/-- A text node, followed by the sibling `next`. -/
def html.text (data : String) (next : html.Node) : html.Node :=
  .mk .TextNode 0 data [] .nil next

/-- An element with its tag, atom, attributes and first child, followed by the sibling `next`.
Only the atom of `iframe`, 195590, is read by the code; the sample documents leave the atom of
the other elements 0. -/
def html.element (tag : String) (dataAtom : Nat) (attr : List html.Attribute)
    (firstChild next : html.Node) : html.Node :=
  .mk .ElementNode dataAtom tag attr firstChild next

/-- The document that `html.Parse` builds around the nodes `body`: a document node, the
element `html`, an empty `head` and the `body`. -/
def html.document (body : html.Node) : html.Node :=
  .mk .DocumentNode 0 "" [] (html.element "html" 0 [] (html.element "head" 0 [] .nil
    (html.element "body" 0 [] body .nil)) .nil) .nil

/-- A build-log page whose second sentinel is inside a `span`. -/
def sentinelInSpanDoc : html.Node :=
  html.document <|
    html.element "i" 0 [] (html.text "expand_less" .nil) <|
    html.element "span" 0 [] (html.text "expand_less" .nil) .nil

/-- A build-log page with a line of text after a second sentinel that is inside a `span`. -/
def textAfterSecondSentinelDoc : html.Node :=
  html.document <|
    html.element "i" 0 [] (html.text "expand_less" .nil) <|
    html.element "span" 0 [] (html.text "expand_less" .nil) <|
    html.element "span" 0 [] (html.text "error after the second sentinel" .nil) .nil

/-- A build-log page with, after the sentinel, a line of 8 characters and 12 bytes. -/
def shortLineDoc : html.Node :=
  html.document <|
    html.element "i" 0 [] (html.text "expand_less" .nil) <|
    html.element "span" 0 [] (html.text "✗ échoué" .nil) .nil

/-- A build-log page with one error panel: a line before the sentinel, two lines after it, a
second sentinel and a line after that. -/
def panelDoc : html.Node :=
  html.document <|
    html.element "span" 0 [] (html.text "text before the panel" .nil) <|
    html.element "i" 0 [] (html.text "expand_less" .nil) <|
    html.element "span" 0 [] (html.text "first error line" .nil) <|
    html.element "span" 0 [] (html.text "second error line" .nil) <|
    html.element "i" 0 [] (html.text "expand_less" .nil) <|
    html.element "span" 0 [] (html.text "text after the panel" .nil) .nil

/-- The script of a spyglass overview page. -/
def sampleScript : String :=
  "var lensArtifacts = \x7b\"0\":[\"build-log.txt\"]\x7d; var src = \"gs://kubernetes-ci-logs/logs/ci-job/1972011571991285760\";"

/-- A second script with the marker `lensArtifacts`, for another job. -/
def otherScript : String :=
  "var lensArtifacts = \x7b\"0\":[\"build-log.txt\"]\x7d; var src = \"gs://kubernetes-ci-logs/logs/other-job/1\";"

/-- The iframe of the build-log lens, with lens index 0. -/
def buildlogIframe (next : html.Node) : html.Node :=
  html.element "iframe" 195590
    [{ Key := "data-lens-index", Val := "0" }, { Key := "data-lens-name", Val := "buildlog" }]
    .nil next

/-- An overview page with one script and the build-log iframe. -/
def overviewDoc : html.Node :=
  html.document <|
    html.element "script" 0 [] (html.text sampleScript .nil) <| buildlogIframe .nil

/-- An overview page with two scripts that hold the marker, and the build-log iframe. -/
def twoScriptsDoc : html.Node :=
  html.document <|
    html.element "script" 0 [] (html.text sampleScript .nil) <|
    html.element "script" 0 [] (html.text otherScript .nil) <| buildlogIframe .nil

/-- An overview page with the script and no build-log iframe. -/
def noIframeDoc : html.Node :=
  html.document <| html.element "script" 0 [] (html.text sampleScript .nil) .nil

/-- An overview page whose script holds the marker `lensArtifacts` but not the shape of the
pattern, and the build-log iframe. -/
def nullArtifactsDoc : html.Node :=
  html.document <|
    html.element "script" 0 [] (html.text "var lensArtifacts = null;" .nil) <|
      buildlogIframe .nil

/-- A stand-in for `json.Unmarshal` in the concrete runs: it decodes the one object of the
sample scripts and rejects every other text, the empty one included. -/
def sampleUnmarshal (s : String) : Except String (List (String × List String)) :=
  if s = "\x7b\"0\":[\"build-log.txt\"]\x7d" then .ok [("0", ["build-log.txt"])]
  else .error "unexpected end of JSON input"

/-- A stand-in for `json.Marshal` of a `[]string` in the concrete runs: `null` for the nil
slice, the bracketed list of the quoted strings otherwise. -/
def sampleMarshal : Option (List String) → Except String String
  | none => .ok "null"
  | some l => .ok ("[" ++ ",".intercalate (l.map (fun s => "\"" ++ s ++ "\"")) ++ "]")


/-! ## `api/v1alpha1/dashboard_types.go`: the Dashboard object; package `time` -/

/-- An instant, `time.Time` (and `metav1.Time`, which wraps it): the number of nanoseconds
since the zero instant, January 1 of year 1, 00:00:00 UTC. -/
abbrev time.Time := Int

/-- Go `time.Duration`: a number of nanoseconds, an `int64`. -/
abbrev time.Duration := Int

def time.Minute : time.Duration := 60000000000

def time.maxDuration : time.Duration := 9223372036854775807

def time.minDuration : time.Duration := -9223372036854775808

/-- Go `t.Sub(u)`: the duration `t - u`, or the largest (smallest) duration when the difference
does not fit an `int64`. -/
def time.Time.Sub (t u : time.Time) : time.Duration :=
  let d := t - u
  if d > time.maxDuration then time.maxDuration
  else if d < time.minDuration then time.minDuration
  else d

/-- Go `time.Since(t)`, that is `time.Now().Sub(t)`; `now` is what `time.Now()` returns. -/
def time.Since (now t : time.Time) : time.Duration :=
  time.Time.Sub now t

/-- The method `IsZero` of `metav1.Time` on a value: whether it is the zero instant. -/
def metav1.Time.IsZero (t : time.Time) : Bool :=
  decide (t = 0)

/-- DashboardSpec defines the desired state of Dashboard. -/
structure DashboardSpec where
  DashboardTab : String := ""
  MinFailures : Int := 0
  MinFlakes : Int := 0
  deriving DecidableEq, Repr

/-- DashboardStatus defines the observed state of a testgrid Dashboard. -/
structure DashboardStatus where
  LastUpdate : time.Time := 0
  DashboardSummary : List DashboardSummary := []
  deriving DecidableEq, Repr

/-- Dashboard is the Schema for the dashboards API (the metadata is left out). -/
structure Dashboard where
  Spec : DashboardSpec := {}
  Status : DashboardStatus := {}
  deriving DecidableEq, Repr

/-! ## `internal/controller/dashboard_controller.go` -/

/-- A `client.ObjectKey`. -/
structure client.ObjectKey where
  Namespace : String
  Name : String
  deriving DecidableEq, Repr

/-- A `v1.ConfigMap`, with the fields `buildTestConfigMap` sets. -/
structure v1.ConfigMap where
  Name : String
  Namespace : String
  Data : List (String × String) := []
  deriving DecidableEq, Repr

/-- An error returned by the API client: its text, and whether `apierrors.IsNotFound` holds of
it. -/
structure client.Error where
  Message : String
  NotFound : Bool
  deriving DecidableEq, Repr

def apierrors.IsNotFound (err : client.Error) : Bool :=
  err.NotFound

/-- The API client embedded in `DashboardReconciler`, as the answers of the server to the
requests on ConfigMaps; `none` is the `nil` error. -/
structure client.Client where
  Get : client.ObjectKey → Option client.Error
  Create : v1.ConfigMap → Option client.Error
  Update : v1.ConfigMap → Option client.Error

/-- A write request sent to the API server. -/
inductive client.Request where
  | Create (obj : v1.ConfigMap)
  | Update (obj : v1.ConfigMap)
  deriving DecidableEq, Repr

/-- Line 87 of `Reconcile`: the call of `FetchTabTests` in the loop over the summaries, for the
summary `dashSummary`. -/
def DashboardReconciler.Reconcile.fetchTab (timeString : Int → String)
    (fetchTestGroup : String → Except String TestGroup) (grid : TestGrid)
    (dashboard : Dashboard) (dashSummary : DashboardSummary) :
    Option (Except String DashboardTab) :=
  grid.FetchTabTests timeString fetchTestGroup dashSummary dashboard.Spec.MinFlakes
    dashboard.Spec.MinFailures

def DashboardReconciler.doesExistsConfigmap (r : client.Client) (key : client.ObjectKey) :
    Bool :=
  match r.Get key with
  | some err => if apierrors.IsNotFound err then true else false
  | none => false

/-- The function createOrUpdateConfigmap creates or updates ConfigMaps for each dashboard tab.
The result is the write request sent to the server and the error returned (`none` is `nil`);
`fmt.Errorf` with `%w` renders the wrapped error by its text. -/
def DashboardReconciler.createOrUpdateConfigmap (r : client.Client)
    (configMapKey : client.ObjectKey) (configMap : v1.ConfigMap) :
    client.Request × Option String :=
  if !DashboardReconciler.doesExistsConfigmap r configMapKey then
    match r.Create configMap with
    | some err =>
      (.Create configMap,
        some ("failed to create ConfigMap " ++ configMapKey.Name ++ ": " ++ err.Message))
    | none => (.Create configMap, none)
  else
    match r.Update configMap with
    | some err =>
      (.Update configMap,
        some ("failed to update ConfigMap " ++ configMapKey.Name ++ ": " ++ err.Message))
    | none => (.Update configMap, none)

/-- Go `reflect.DeepEqual` on two values of type `[]DashboardSummary`: same length and equal
elements, the pointer `DashboardTab` being followed.  A `nil` slice and an empty one are both
the empty list here. -/
def reflect.DeepEqual (x y : List DashboardSummary) : Bool :=
  decide (x = y)

/-- The function shouldRefresh determines if it is time to refresh the dashboard data; `now` is
the instant `time.Now()` returns inside `time.Since`. -/
def DashboardReconciler.shouldRefresh (now : time.Time) (dashboardStatus : DashboardStatus)
    (summary : List DashboardSummary) : Bool :=
  if reflect.DeepEqual dashboardStatus.DashboardSummary summary then false
  else if metav1.Time.IsZero dashboardStatus.LastUpdate then true
  else
    let refreshInterval := 1 * time.Minute
    decide (time.Since now dashboardStatus.LastUpdate ≥ refreshInterval)

/-! ## `internal/tui/issue.go`, `internal/tui/panel.go` -/

structure IssueTemplate where
  BoardName : String := ""
  TabName : String := ""
  TestName : String := ""
  FirstFailure : String := ""
  LastFailure : String := ""
  TestGridURL : String := ""
  TriageURL : String := ""
  ProwURL : String := ""
  ErrMessage : String := ""
  Sig : String := ""
  deriving DecidableEq, Repr

/-- Lines 166-177 of `updateGitHubPanel`: the filled out issue template object; `none` is the
panic of an index out of range.  `timeClean` is the function of that name, the rendering of a
timestamp in UTC. -/
def updateGitHubPanel.issue (timeClean : Int → String) (tab : DashboardTab)
    (currentTest : TestResult) : Option IssueTemplate := do
  let splitBoard := strings.Split tab.BoardHash "#"
  let boardName ← goIndex splitBoard 0
  let tabName ← goIndex splitBoard 1
  some
    { BoardName := boardName
      TabName := tabName
      TestName := currentTest.TestName
      TestGridURL := tab.TabURL
      TriageURL := currentTest.TriageURL
      ProwURL := currentTest.ProwJobURL
      ErrMessage := currentTest.ErrorMessage
      FirstFailure := timeClean currentTest.FirstTimestamp
      LastFailure := timeClean currentTest.LatestTimestamp }

/-! ## Definitions used in the statements on the controller, the panel and the safety of the
filter -/

/-- A Dashboard object with the default thresholds of the schema: 2 failures, 3 flakes. -/
def defaultDashboard : Dashboard :=
  { Spec := { DashboardTab := "sig-release-blocking", MinFailures := 2, MinFlakes := 3 } }

/-- A summary in state `FAILING`. -/
def failingSummary : DashboardSummary :=
  { OverallState := FAILING_STATUS
    DashboardName := "sig-release-blocking"
    DashboardTab := some { TabName := "cikubernetesbuild", TabURL := "http://127.0.0.1" } }

/-- A group of five runs with the test of the first case of `TestRenderStatuses`, which has
two failures. -/
def twoFailuresGroup : TestGroup :=
  { Query := "kubernetes-ci-logs/logs/ci-job"
    Timestamps := sampleTimestamps
    Changelists := ["1972011571991285760", "1971981372021772288", "1971951173058039808",
      "1971920974094307328", "1971890775130574848"]
    Tests := [{ sampleTest with Name := "kubetest.Up" }] }

/-- An aligned group of one run with a test that has no failing run. -/
def noFailureGroup : TestGroup :=
  { Query := "kubernetes-ci-logs/logs/ci-job"
    Timestamps := [1758999193000]
    Changelists := ["1972011571991285760"]
    Tests := [{ Name := "kubetest.Up", ShortTexts := [""], Messages := [""] }] }

/-- The answers of an API server that holds ConfigMaps under the keys `store`: `Get` and
`Update` report not-found for a key that is absent, `Create` reports a conflict for a key
that is present. -/
def serverWith (store : List client.ObjectKey) : client.Client :=
  { Get := fun key =>
      if key ∈ store then none
      else some { Message := "configmaps \"" ++ key.Name ++ "\" not found", NotFound := true }
    Create := fun obj =>
      if ({ Namespace := obj.Namespace, Name := obj.Name } : client.ObjectKey) ∈ store then
        some { Message := "configmaps \"" ++ obj.Name ++ "\" already exists", NotFound := false }
      else none
    Update := fun obj =>
      if ({ Namespace := obj.Namespace, Name := obj.Name } : client.ObjectKey) ∈ store then none
      else some { Message := "configmaps \"" ++ obj.Name ++ "\" not found", NotFound := true } }

/-- The key of the ConfigMap of a tab. -/
def sampleKey : client.ObjectKey :=
  { Namespace := "default", Name := "sig-release-blocking-cikubernetesbuild" }

/-- A ConfigMap under `sampleKey`. -/
def sampleConfigMap : v1.ConfigMap :=
  { Name := "sig-release-blocking-cikubernetesbuild", Namespace := "default",
    Data := [("data", "e30=")] }

/-- A stand-in for `timeClean` in the concrete runs. -/
def sampleTimeClean (ts : Int) : String := "T" ++ toString (ts.tdiv 1000).toNat

/-- The number of nodes of the tree of `node` and of the siblings that follow it. -/
def html.Node.count : html.Node → Nat
  | .nil => 0
  | .mk _ _ _ _ firstChild nextSibling =>
    1 + html.Node.count firstChild + html.Node.count nextSibling

/-- The number of nodes of a document: its root and the descendants of the root. -/
def html.Node.documentCount : html.Node → Nat
  | .nil => 0
  | .mk _ _ _ _ firstChild _ => 1 + html.Node.count firstChild

/-- A build-log page without the sentinel: two lines of text in `span` elements. -/
def plainDoc : html.Node :=
  html.document <|
    html.element "span" 0 [] (html.text "first line of the log" .nil) <|
    html.element "span" 0 [] (html.text "second line of the log" .nil) .nil

/-! ## Lemmas on the library functions -/

theorem strings.replaceLoop_single (a : Char) (new s : List Char) :
    strings.replaceLoop [a] new 0 s = s.flatMap (fun c => if c = a then new else [c]) := by
  induction s with
  | nil => simp [strings.replaceLoop]
  | cons c cs ih =>
    by_cases h : c = a
    · subst h
      simp [strings.replaceLoop, ih]
    · have h2 : ¬ a = c := fun e => h e.symm
      simp [strings.replaceLoop, ih, h, h2]

theorem cleanHTMLCharacters_data (str : String) :
    (cleanHTMLCharacters str).data
      = str.data.flatMap (fun c => if c = ' ' then ['%', '2', '0'] else [c]) := by
  have h : (" " : String).data = [' '] := rfl
  have h2 : ("%20" : String).data = ['%', '2', '0'] := rfl
  simp [cleanHTMLCharacters, strings.ReplaceAll, h, h2, strings.replaceLoop_single]

theorem cleanHTMLCharacters_append (a b : String) :
    cleanHTMLCharacters (a ++ b) = cleanHTMLCharacters a ++ cleanHTMLCharacters b := by
  apply String.ext
  simp [cleanHTMLCharacters_data, String.data_append]

theorem cleanHTMLCharacters_no_space_aux (str : String) :
    ' ' ∉ (cleanHTMLCharacters str).data := by
  rw [cleanHTMLCharacters_data]
  intro h
  rw [List.mem_flatMap] at h
  obtain ⟨c, -, hc⟩ := h
  by_cases e : c = ' '
  · simp [e] at hc
  · simp only [e, if_false, List.mem_singleton] at hc
    exact e hc.symm

theorem hasStatus_iff (boardStatus : String) (statuses : List String) :
    hasStatus boardStatus statuses = true ↔ boardStatus ∈ statuses := by
  induction statuses with
  | nil => simp [hasStatus]
  | cons s ss ih =>
    by_cases h : boardStatus = s
    · simp [hasStatus, h]
    · simp [hasStatus, h, ih]

theorem filterDashboards.step_append (url : String) (filterStatus : List String)
    (summary : List DashboardSummary) (entry : String × DashboardSummary) :
    filterDashboards.step url filterStatus summary entry
      = summary ++ filterDashboards.step url filterStatus [] entry := by
  by_cases h : hasStatus entry.2.OverallState filterStatus = true
  · simp [filterDashboards.step, h]
  · simp [filterDashboards.step, h]

theorem filterDashboards.foldl_step (url : String) (filterStatus : List String)
    (dashboardList : DashboardMapper) (summary : List DashboardSummary) :
    dashboardList.foldl (filterDashboards.step url filterStatus) summary
      = summary ++ dashboardList.flatMap (filterDashboards.step url filterStatus []) := by
  induction dashboardList generalizing summary with
  | nil => simp
  | cons e es ih =>
    rw [List.foldl_cons, ih, filterDashboards.step_append, List.flatMap_cons, List.append_assoc]

theorem filterDashboards_flatMap (dashboardList : DashboardMapper) (url : String)
    (filterStatus : List String) :
    filterDashboards dashboardList url filterStatus
      = dashboardList.flatMap (filterDashboards.step url filterStatus []) := by
  simp [filterDashboards, filterDashboards.foldl_step]

/-! ## The dashboard summary filter -/

/-- C1: for every mapping (in any iteration order), base URL and filter, the summaries
`filterDashboards` returns are, one for one and in iteration order, the entries whose
`OverallState` is a member of the filter (each returned summary is its entry up to the two
fields the function fills in); no returned summary has a state outside the filter; an empty
filter yields an empty result. -/
theorem filterDashboards_exactly_matching (dashboardList : DashboardMapper) (url : String)
    (filterStatus : List String) :
    List.Forall₂
        (fun (entry : String × DashboardSummary) (s : DashboardSummary) =>
          { s with DashboardURL := entry.2.DashboardURL, DashboardTab := entry.2.DashboardTab }
            = entry.2)
        (dashboardList.filter (fun entry => decide (entry.2.OverallState ∈ filterStatus)))
        (filterDashboards dashboardList url filterStatus)
      ∧ (∀ s ∈ filterDashboards dashboardList url filterStatus, s.OverallState ∈ filterStatus)
      ∧ (filterDashboards dashboardList url filterStatus).length
          = dashboardList.countP (fun entry => decide (entry.2.OverallState ∈ filterStatus))
      ∧ filterDashboards dashboardList url [] = [] := by
  refine ⟨?_, ?_, ?_, ?_⟩
  · rw [filterDashboards_flatMap]
    induction dashboardList with
    | nil => simp
    | cons e es ih =>
      by_cases h : e.2.OverallState ∈ filterStatus
      · have hs : hasStatus e.2.OverallState filterStatus = true := (hasStatus_iff _ _).2 h
        rw [List.filter_cons_of_pos (by simpa using h), List.flatMap_cons]
        cases hT : e.2.DashboardTab with
        | none =>
          simp only [filterDashboards.step, hs, if_true, hT, List.nil_append, List.singleton_append]
          refine List.Forall₂.cons ?_ ih
          cases e with
          | mk k v => cases v; simp_all
        | some tab =>
          simp only [filterDashboards.step, hs, if_true, hT, List.nil_append, List.singleton_append]
          refine List.Forall₂.cons ?_ ih
          cases e with
          | mk k v => cases v; simp_all
      · have hs : ¬ hasStatus e.2.OverallState filterStatus = true :=
          fun c => h ((hasStatus_iff _ _).1 c)
        rw [List.filter_cons_of_neg (by simpa using h), List.flatMap_cons]
        simpa [filterDashboards.step, hs] using ih
  · intro s hs
    rw [filterDashboards_flatMap, List.mem_flatMap] at hs
    obtain ⟨e, -, he⟩ := hs
    by_cases h : hasStatus e.2.OverallState filterStatus = true
    · have hm := (hasStatus_iff _ _).1 h
      cases hT : e.2.DashboardTab <;>
        simp [filterDashboards.step, h, hT] at he <;> subst he <;> exact hm
    · simp [filterDashboards.step, h] at he
  · rw [filterDashboards_flatMap]
    induction dashboardList with
    | nil => simp
    | cons e es ih =>
      by_cases h : e.2.OverallState ∈ filterStatus
      · have hs : hasStatus e.2.OverallState filterStatus = true := (hasStatus_iff _ _).2 h
        rw [List.flatMap_cons, List.length_append, ih,
          List.countP_cons_of_pos _ _ (by simpa using h)]
        simp [filterDashboards.step, hs]
        omega
      · have hs : ¬ hasStatus e.2.OverallState filterStatus = true :=
          fun c => h ((hasStatus_iff _ _).1 c)
        rw [List.flatMap_cons, List.length_append, ih,
          List.countP_cons_of_neg _ _ (by simpa using h)]
        simp [filterDashboards.step, hs]
  · rw [filterDashboards_flatMap]
    simp [filterDashboards.step, hasStatus]

/-- C6: an entry `(tabName, summary)` whose state is in the filter and which has no tab
descriptor is returned with `DashboardURL` = the base URL, `DashboardTab.TabName` = `tabName`
and `DashboardTab.TabURL` = the text
`{base}/{dashboardName}/table?tab={tabName}&exclude-non-failed-tests=&dashboard={dashboardName}`
with every space replaced by `%20`; in particular `TabURL` contains the space-encoded tab
name. -/
theorem filterDashboards_synthesized_tab (dashboardList : DashboardMapper) (url : String)
    (filterStatus : List String) (tabName : String) (summary : DashboardSummary)
    (hmem : (tabName, summary) ∈ dashboardList)
    (hstate : summary.OverallState ∈ filterStatus)
    (htab : summary.DashboardTab = none) :
    ∃ s tab, s ∈ filterDashboards dashboardList url filterStatus
      ∧ { s with DashboardURL := summary.DashboardURL, DashboardTab := none } = summary
      ∧ s.DashboardURL = url
      ∧ s.DashboardTab = some tab
      ∧ tab.TabName = tabName
      ∧ tab.TabURL.data
          = (url ++ "/" ++ summary.DashboardName ++ "/table?tab=" ++ tabName
              ++ "&exclude-non-failed-tests=&dashboard=" ++ summary.DashboardName).data.flatMap
              (fun c => if c = ' ' then ['%', '2', '0'] else [c])
      ∧ (tabName.data.flatMap (fun c => if c = ' ' then ['%', '2', '0'] else [c]))
          <:+: tab.TabURL.data := by
  have hs : hasStatus summary.OverallState filterStatus = true := (hasStatus_iff _ _).2 hstate
  refine ⟨{ summary with
      DashboardURL := url
      DashboardTab := some
        { TabURL :=
            cleanHTMLCharacters (tabURL url summary.DashboardName tabName summary.DashboardName)
          TabName := tabName } },
    { TabURL :=
        cleanHTMLCharacters (tabURL url summary.DashboardName tabName summary.DashboardName)
      TabName := tabName }, ?_, ?_, rfl, rfl, rfl, ?_, ?_⟩
  · rw [filterDashboards_flatMap, List.mem_flatMap]
    refine ⟨(tabName, summary), hmem, ?_⟩
    simp [filterDashboards.step, hs, htab]
  · cases summary
    simp_all
  · simp only [cleanHTMLCharacters_data, tabURL]
  · simp only [cleanHTMLCharacters_data, tabURL, String.data_append, List.flatMap_append]
    exact (List.infix_append _ _ _).trans (List.prefix_append _ _).isInfix

/-- C6, at a concrete input: the entry of the test `Test_FetchSummary`, with a space in the tab
name. -/
theorem filterDashboards_synthesized_tab_witness :
    ∃ s tab, s ∈ filterDashboards
          [("kubernetes ci", { OverallState := "FLAKY", DashboardName := "sig-release-blocking" })]
          "http://base" ["FLAKY"]
      ∧ { s with DashboardURL := "", DashboardTab := none }
          = { OverallState := "FLAKY", DashboardName := "sig-release-blocking" }
      ∧ s.DashboardURL = "http://base"
      ∧ s.DashboardTab = some tab
      ∧ tab.TabName = "kubernetes ci"
      ∧ tab.TabURL.data
          = (("http://base" : String) ++ "/" ++ "sig-release-blocking" ++ "/table?tab="
              ++ "kubernetes ci" ++ "&exclude-non-failed-tests=&dashboard="
              ++ "sig-release-blocking").data.flatMap
              (fun c => if c = ' ' then ['%', '2', '0'] else [c])
      ∧ (("kubernetes ci" : String).data.flatMap
            (fun c => if c = ' ' then ['%', '2', '0'] else [c]))
          <:+: tab.TabURL.data :=
  filterDashboards_synthesized_tab
    [("kubernetes ci", { OverallState := "FLAKY", DashboardName := "sig-release-blocking" })]
    "http://base" ["FLAKY"] "kubernetes ci"
    { OverallState := "FLAKY", DashboardName := "sig-release-blocking" }
    (by simp) (by simp) rfl

/-- C7: `cleanHTMLCharacters` replaces every space of its input by `%20` and leaves every other
character unchanged, so its result has no space; hence for every base URL, dashboard name and
tab name the tab URL that `filterDashboards` synthesizes for an entry without tab descriptor
contains no literal space. -/
theorem synthesized_tab_url_has_no_space (url dashboardName tabName : String) :
    (∀ str : String,
        (cleanHTMLCharacters str).data
          = str.data.flatMap (fun c => if c = ' ' then ['%', '2', '0'] else [c])
        ∧ ' ' ∉ (cleanHTMLCharacters str).data)
      ∧ ∀ (state : String) (filterStatus : List String) (summary : DashboardSummary),
          summary.DashboardName = dashboardName → summary.OverallState = state →
          summary.DashboardTab = none → state ∈ filterStatus →
          ∃ s tab, filterDashboards [(tabName, summary)] url filterStatus = [s]
            ∧ s.DashboardTab = some tab
            ∧ tab.TabURL = cleanHTMLCharacters (tabURL url dashboardName tabName dashboardName)
            ∧ ' ' ∉ tab.TabURL.data := by
  refine ⟨fun str => ⟨cleanHTMLCharacters_data str, cleanHTMLCharacters_no_space_aux str⟩, ?_⟩
  intro state filterStatus summary hname hstate htab hin
  have hs : hasStatus summary.OverallState filterStatus = true :=
    (hasStatus_iff _ _).2 (hstate ▸ hin)
  refine ⟨{ summary with
      DashboardURL := url
      DashboardTab := some
        { TabURL := cleanHTMLCharacters (tabURL url dashboardName tabName dashboardName)
          TabName := tabName } },
    { TabURL := cleanHTMLCharacters (tabURL url dashboardName tabName dashboardName)
      TabName := tabName }, ?_, rfl, rfl, cleanHTMLCharacters_no_space_aux _⟩
  simp [filterDashboards, filterDashboards.step, hs, htab, hname]

/-! ## The status renderer -/

theorem goIndex_natCast {α : Type} (s : List α) (i : Nat) : goIndex s (i : Int) = s[i]? := by
  have h : ¬ ((i : Int) < 0) := by omega
  simp [goIndex, h]

theorem String.join_cons_eq (a : String) (l : List String) :
    String.join (a :: l) = a ++ String.join l := by
  have key : ∀ (l : List String) (acc : String),
      List.foldl (fun r s => r ++ s) acc l = acc ++ List.foldl (fun r s => r ++ s) "" l := by
    intro l
    induction l with
    | nil => intro acc; simp
    | cons b bs ih =>
      intro acc
      rw [List.foldl_cons, ih, List.foldl_cons, ih ("" ++ b)]
      simp [String.append_assoc]
  simp only [String.join, List.foldl_cons]
  rw [key]
  simp

theorem renderedColumns_cons (timeString : Int → String) (te : Test) (timestamps : List Int)
    (i : Nat) (cols : List Nat) :
    renderedColumns timeString te timestamps (i :: cols)
      = (if te.ShortTexts.getD i "" = "" then ""
          else formatTestStatus timeString (te.ShortTexts.getD i "") (timestamps.getD i 0)
            (te.Messages.getD i ""))
        ++ renderedColumns timeString te timestamps cols := by
  unfold renderedColumns
  by_cases h : te.ShortTexts.getD i "" = ""
  · have hp : decide (te.ShortTexts.getD i "" ≠ "") = false := by
      rw [decide_eq_false_iff_not]; exact fun c => c h
    simp only [List.filter_cons, hp, Bool.false_eq_true, if_false, if_pos h, String.empty_append]
  · have hp : decide (te.ShortTexts.getD i "" ≠ "") = true := by
      rw [decide_eq_true_eq]; exact h
    simp only [List.filter_cons, hp, if_true, if_neg h, List.map_cons, String.join_cons_eq]

/-- The loop of `RenderStatuses` from column `i` on, when the remaining columns are within
`timestamps` and `Messages`. -/
theorem Test.renderLoop_eq (timeString : Int → String) (te : Test) (timestamps : List Int) :
    ∀ (rest : List String) (i : Nat) (out : String) (n f : Int),
      te.ShortTexts.drop i = rest →
      i + rest.length ≤ timestamps.length →
      i + rest.length ≤ te.Messages.length →
      Test.renderLoop timeString te timestamps rest i (out, n, f)
        = some (out ++ renderedColumns timeString te timestamps (List.range' i rest.length),
            n + (rest.countP (fun s => decide (s ≠ "")) : Nat),
            if f < 0 then
              (match rest.findIdx? (fun s => decide (s ≠ "")) i with
                | some k => (k : Int)
                | none => f)
            else f) := by
  intro rest
  induction rest with
  | nil =>
    intro i out n f _ _ _
    have hj : String.join [] = "" := rfl
    simp [Test.renderLoop, renderedColumns, hj]
  | cons s rest ih =>
    intro i out n f hdrop hT hM
    have hlen : i < te.ShortTexts.length := by
      by_contra hc
      rw [List.drop_of_length_le (by omega)] at hdrop
      exact List.noConfusion hdrop
    have hget : te.ShortTexts.getD i "" = s := by
      have h1 : (te.ShortTexts.drop i).head? = some s := by rw [hdrop]; rfl
      rw [List.head?_drop] at h1
      rw [List.getD_eq_getElem?_getD, h1]
      rfl
    have hdrop2 : te.ShortTexts.drop (i + 1) = rest := by
      have h1 : (te.ShortTexts.drop i).tail = rest := by rw [hdrop]; rfl
      rw [List.tail_drop] at h1
      exact h1
    simp only [List.length_cons] at hT hM
    have ihh := fun out n f => ih (i + 1) out n f hdrop2 (by omega) (by omega)
    rw [List.length_cons, List.range'_succ, renderedColumns_cons, hget]
    by_cases hs : s = ""
    · subst hs
      rw [Test.renderLoop]
      simp only [if_true]
      rw [ihh]
      simp
    · have hti : i < timestamps.length := by omega
      have hmi : i < te.Messages.length := by omega
      rw [Test.renderLoop]
      simp only [hs, if_false, goIndex_natCast]
      have hts : timestamps[i]? = some timestamps[i] := List.getElem?_eq_getElem hti
      have hms : te.Messages[i]? = some te.Messages[i] := List.getElem?_eq_getElem hmi
      rw [hts, hms]
      simp only []
      rw [ihh]
      have e1 : timestamps.getD i 0 = timestamps[i] := by
        rw [List.getD_eq_getElem?_getD, hts]; rfl
      have e2 : te.Messages.getD i "" = te.Messages[i] := by
        rw [List.getD_eq_getElem?_getD, hms]; rfl
      rw [e1, e2]
      have hp : decide (s ≠ "") = true := by simpa using hs
      simp only [List.countP_cons, List.findIdx?_cons, hp, if_true]
      by_cases hf : f < 0
      · have hi : ¬ ((i : Int) < 0) := by omega
        simp [hf, hi, String.append_assoc]
        omega
      · simp [hf, String.append_assoc]
        omega

theorem Test.RenderStatuses_eq (timeString : Int → String) (te : Test) (timestamps : List Int)
    (hM : te.ShortTexts.length ≤ te.Messages.length)
    (hT : te.ShortTexts.length ≤ timestamps.length) :
    te.RenderStatuses timeString timestamps
      = some (renderedColumns timeString te timestamps (List.range te.ShortTexts.length),
          ((te.ShortTexts.countP (fun s => decide (s ≠ "")) : Nat) : Int),
          match te.ShortTexts.findIdx? (fun s => decide (s ≠ "")) with
            | some k => (k : Int)
            | none => -1) := by
  have h := Test.renderLoop_eq timeString te timestamps te.ShortTexts 0 "" 0 (-1)
    (by simp) (by omega) (by omega)
  rw [Test.RenderStatuses, h, List.range_eq_range']
  simp

theorem renderedColumns_all_empty (timeString : Int → String) (te : Test)
    (timestamps : List Int) (cols : List Nat) (hall : ∀ s ∈ te.ShortTexts, s = "") :
    renderedColumns timeString te timestamps cols = "" := by
  have hget : ∀ i, te.ShortTexts.getD i "" = "" := by
    intro i
    rw [List.getD_eq_getElem?_getD]
    cases h : te.ShortTexts[i]? with
    | none => rfl
    | some s => exact hall s (List.getElem?_mem h)
  induction cols with
  | nil => rfl
  | cons i cols ih => rw [renderedColumns_cons, ih, if_pos (hget i)]; rfl

/-- C3: when `Messages` and the timestamps are at least as long as `ShortTexts`,
`RenderStatuses` returns, as failure count the number of non-empty entries of `ShortTexts`,
and as first-failure index the position of the first non-empty entry, or `-1` when there is
none; when every entry is empty it returns the empty text, the count 0 and the index `-1`. -/
theorem RenderStatuses_count_and_first_index (timeString : Int → String) (te : Test)
    (timestamps : List Int)
    (hM : te.ShortTexts.length ≤ te.Messages.length)
    (hT : te.ShortTexts.length ≤ timestamps.length) :
    (∃ out, te.RenderStatuses timeString timestamps
        = some (out, ((te.ShortTexts.countP (fun s => decide (s ≠ "")) : Nat) : Int),
            match te.ShortTexts.findIdx? (fun s => decide (s ≠ "")) with
              | some k => (k : Int)
              | none => -1))
      ∧ ((∀ s ∈ te.ShortTexts, s = "") →
          te.RenderStatuses timeString timestamps = some ("", 0, -1)) := by
  refine ⟨⟨_, Test.RenderStatuses_eq timeString te timestamps hM hT⟩, ?_⟩
  intro hall
  rw [Test.RenderStatuses_eq timeString te timestamps hM hT,
    renderedColumns_all_empty timeString te timestamps _ hall]
  have hc : te.ShortTexts.countP (fun s => decide (s ≠ "")) = 0 := by
    rw [List.countP_eq_zero]
    intro s hs
    simp [hall s hs]
  have hf : te.ShortTexts.findIdx? (fun s => decide (s ≠ "")) = none := by
    rw [List.findIdx?_eq_none_iff]
    intro s hs
    simp [hall s hs]
  rw [hc, hf]
  rfl

/-- C3 at the first case of `TestRenderStatuses`: count 2, first-failure index 2. -/
theorem RenderStatuses_count_and_first_index_witness :
    (sampleTest.ShortTexts.length ≤ sampleTest.Messages.length
      ∧ sampleTest.ShortTexts.length ≤ sampleTimestamps.length)
    ∧ (∃ out, sampleTest.RenderStatuses sampleTime sampleTimestamps = some (out, 2, 2)) :=
  ⟨⟨by decide, by decide⟩,
    (RenderStatuses_count_and_first_index sampleTime sampleTest sampleTimestamps
      (by decide) (by decide)).1⟩

/-- C4: for a test with aligned `ShortTexts`, `Messages` and timestamps, the text
`RenderStatuses` returns is the concatenation, in increasing column order, of
`formatTestStatus(ShortTexts[i], timestamps[i], Messages[i])` over exactly the columns `i`
where `ShortTexts[i]` is not empty; it is the empty string when all of them are empty. -/
theorem RenderStatuses_text (timeString : Int → String) (te : Test) (timestamps : List Int)
    (hM : te.Messages.length = te.ShortTexts.length)
    (hT : timestamps.length = te.ShortTexts.length) :
    (∃ n f, te.RenderStatuses timeString timestamps
        = some
            (String.join
              (((List.range te.ShortTexts.length).filter
                  (fun i => decide (te.ShortTexts.getD i "" ≠ ""))).map
                (fun i => formatTestStatus timeString (te.ShortTexts.getD i "")
                  (timestamps.getD i 0) (te.Messages.getD i ""))),
              n, f))
      ∧ ((∀ s ∈ te.ShortTexts, s = "") →
          ∃ n f, te.RenderStatuses timeString timestamps = some ("", n, f)) := by
  have h := Test.RenderStatuses_eq timeString te timestamps (by omega) (by omega)
  refine ⟨⟨_, _, h⟩, ?_⟩
  intro hall
  rw [h, renderedColumns_all_empty timeString te timestamps _ hall]
  exact ⟨_, _, rfl⟩

/-- C4 at the first case of `TestRenderStatuses`: the text is the formatted status of column 2
followed by that of column 4. -/
theorem RenderStatuses_text_witness :
    (sampleTest.Messages.length = sampleTest.ShortTexts.length
      ∧ sampleTimestamps.length = sampleTest.ShortTexts.length)
    ∧ ∃ n f, sampleTest.RenderStatuses sampleTime sampleTimestamps
        = some
            (formatTestStatus sampleTime "F" 1758960111000 "kubetest --timeout triggered"
              ++ formatTestStatus sampleTime "F" 1758945591000 "kubetest --timeout triggered",
              n, f) :=
  ⟨⟨by decide, by decide⟩,
    (RenderStatuses_text sampleTime sampleTest sampleTimestamps (by decide) (by decide)).1⟩

/-! ## The name normalizer -/

theorem Regex.submatches_length (re : Regex) (s : List Char) (res : MatchState) :
    (re.submatches s res).length = re.groupNames.length + 1 := by
  simp [Regex.submatches]

theorem Regex.findLoop_length (re : Regex) :
    ∀ (s : List Char) (m : List String), re.findLoop s = some m →
      m.length = re.groupNames.length + 1 := by
  intro s
  induction s with
  | nil =>
    intro m h
    simp only [Regex.findLoop, Option.map_eq_some'] at h
    obtain ⟨res, -, rfl⟩ := h
    exact Regex.submatches_length re [] res
  | cons c cs ih =>
    intro m h
    rw [Regex.findLoop] at h
    cases hr : (re.run (c :: cs) []).head? with
    | none => rw [hr] at h; exact ih m h
    | some res =>
      rw [hr] at h
      simp only [Option.some.injEq] at h
      subst h
      exact Regex.submatches_length re (c :: cs) res

theorem testRegex_groupNames : testRegex.groupNames = ["", "TEST"] := by decide

/-- What `FindStringSubmatch` returns for `testRegex`: nothing, or the match and its two
groups. -/
theorem testRegex_FindStringSubmatch (value : String) :
    testRegex.FindStringSubmatch value = []
      ∨ ∃ whole g test, testRegex.FindStringSubmatch value = [whole, g, test] := by
  unfold Regex.FindStringSubmatch
  cases h : testRegex.findLoop value.data with
  | none => left; rfl
  | some m =>
    right
    have hl := Regex.findLoop_length testRegex value.data m h
    rw [testRegex_groupNames] at hl
    match m, hl with
    | [a, b, c], _ => exact ⟨a, b, c, rfl⟩

/-- `GetRegexParameter` on `testRegex` does not panic, and the entry `TEST` of the map it
returns is the second group of the match, or the empty string when nothing matches. -/
theorem GetRegexParameter_testRegex (value : String) :
    ∃ params, GetRegexParameter testRegex value = some params
      ∧ mapIndex params "TEST" = (testRegex.FindStringSubmatch value).getD 2 "" := by
  have hn : testRegex.SubexpNames = ["", "", "TEST"] := by
    rw [Regex.SubexpNames, testRegex_groupNames]
  unfold GetRegexParameter
  simp only [hn]
  rcases testRegex_FindStringSubmatch value with h | ⟨a, b, c, h⟩
  · rw [h]
    exact ⟨[], by simp [GetRegexParameter.loop], rfl⟩
  · rw [h]
    refine ⟨[("TEST", c), ("", b)], ?_, ?_⟩
    · have h1 : goIndex [a, b, c] (1 : Int) = some b := rfl
      have h2 : goIndex [a, b, c] (2 : Int) = some c := rfl
      simp only [GetRegexParameter.loop, List.length_cons, List.length_nil]
      simp [h1, h2]
    · simp [mapIndex, List.lookup]

theorem normalizedTestName_total (name : String) : ∃ n, normalizedTestName name = some n := by
  obtain ⟨params, hp, -⟩ := GetRegexParameter_testRegex name
  unfold normalizedTestName
  by_cases h : strings.Contains name e2eSuitePrefix = true
  · simp [h, hp]
  · simp [h]

/-! ## The tab test filter -/

theorem filterTabTests.included_eq (timeString : Int → String) (testGroup : TestGroup)
    (state : String) (minFailure minFlake : Int) (test : Test) (errMessage : String)
    (failures firstFailure : Int)
    (h : test.RenderStatuses timeString testGroup.Timestamps
      = some (errMessage, failures, firstFailure)) :
    filterTabTests.included state minFailure minFlake failures
      = test.isIncluded timeString testGroup state minFailure minFlake := by
  have hc : test.failureCount timeString testGroup.Timestamps = failures := by
    simp [Test.failureCount, h]
  rw [Test.isIncluded, hc, filterTabTests.included, Bool.eq_iff_iff]
  simp only [Bool.or_eq_true, Bool.and_eq_true, decide_eq_true_eq, ge_iff_le]
  tauto

/-- What the loop of `filterTabTests` returns, when it returns: the results already built,
followed by one result for every included test of `rest`, in order. -/
theorem filterTabTests.loop_spec (timeString : Int → String) (testGroup : TestGroup)
    (state : String) (minFailure minFlake : Int) :
    ∀ (rest : List Test) (acc tests : List TestResult),
      filterTabTests.loop timeString testGroup state minFailure minFlake
          (strings.Split testGroup.Query "/") rest acc = some tests →
      ∃ new, tests = acc ++ new
        ∧ List.Forall₂ (filterTabTests.appended timeString testGroup)
            (rest.filter (Test.isIncluded timeString testGroup state minFailure minFlake))
            new := by
  intro rest
  induction rest with
  | nil =>
    intro acc tests h
    simp only [filterTabTests.loop, Option.some.injEq] at h
    exact ⟨[], by simp [h], by simp⟩
  | cons test rest ih =>
    intro acc tests h
    rw [filterTabTests.loop] at h
    cases hr : test.RenderStatuses timeString testGroup.Timestamps with
    | none => rw [hr] at h; exact Option.noConfusion h
    | some res =>
      obtain ⟨errMessage, failures, firstFailure⟩ := res
      rw [hr] at h
      simp only [] at h
      rw [filterTabTests.included_eq timeString testGroup state minFailure minFlake test
        errMessage failures firstFailure hr] at h
      by_cases hin : test.isIncluded timeString testGroup state minFailure minFlake = true
      · rw [if_pos hin] at h
        cases hn : normalizedTestName test.Name with
        | none => rw [hn] at h; exact Option.noConfusion h
        | some testName =>
          rw [hn] at h
          simp only [] at h
          cases hres : filterTabTests.result testGroup (strings.Split testGroup.Query "/") test
              testName errMessage firstFailure with
          | none => rw [hres] at h; exact Option.noConfusion h
          | some r =>
            rw [hres] at h
            simp only [] at h
            obtain ⟨new, hnew, hall⟩ := ih _ _ h
            refine ⟨r :: new, by simp [hnew], ?_⟩
            rw [List.filter_cons_of_pos hin]
            exact List.Forall₂.cons ⟨errMessage, failures, firstFailure, testName, hr, hn, hres⟩
              hall
      · rw [if_neg hin] at h
        obtain ⟨new, hnew, hall⟩ := ih _ _ h
        refine ⟨new, hnew, ?_⟩
        rw [List.filter_cons_of_neg hin]
        exact hall

theorem filterTabTests_spec (timeString : Int → String) (testGroup : TestGroup)
    (state : String) (minFailure minFlake : Int) (tests : List TestResult)
    (h : filterTabTests timeString testGroup state minFailure minFlake = some tests) :
    List.Forall₂ (filterTabTests.appended timeString testGroup)
      (testGroup.Tests.filter (Test.isIncluded timeString testGroup state minFailure minFlake))
      tests := by
  obtain ⟨new, hnew, hall⟩ :=
    filterTabTests.loop_spec timeString testGroup state minFailure minFlake _ _ _ h
  rw [hnew]
  simpa using hall

/-- The fields of the `TestResult` appended for a test. -/
theorem filterTabTests.appended_fields (timeString : Int → String) (testGroup : TestGroup)
    (test : Test) (r : TestResult) (h : filterTabTests.appended timeString testGroup test r) :
    ∃ errMessage failures firstFailure testName latest first changelist job,
      test.RenderStatuses timeString testGroup.Timestamps
          = some (errMessage, failures, firstFailure)
        ∧ normalizedTestName test.Name = some testName
        ∧ goIndex testGroup.Timestamps 0 = some latest
        ∧ goIndex testGroup.Timestamps ((testGroup.Timestamps.length : Int) - 1) = some first
        ∧ goIndex testGroup.Changelists firstFailure = some changelist
        ∧ goIndex (strings.Split testGroup.Query "/")
            (((strings.Split testGroup.Query "/").length : Int) - 1) = some job
        ∧ r = { TestName := test.Name
                LatestTimestamp := latest
                FirstTimestamp := first
                ProwJobURL :=
                  cleanHTMLCharacters
                    ("https://prow.k8s.io/view/gs/" ++ testGroup.Query ++ "/" ++ changelist)
                TriageURL :=
                  cleanHTMLCharacters
                    ("https://storage.googleapis.com/k8s-triage/index.html?job="
                      ++ cleanHTMLCharacters job ++ "$&test=" ++ cleanHTMLCharacters testName)
                ErrorMessage := errMessage } := by
  obtain ⟨errMessage, failures, firstFailure, testName, hr, hn, hres⟩ := h
  refine ⟨errMessage, failures, firstFailure, testName, ?_⟩
  unfold filterTabTests.result at hres
  cases h1 : goIndex testGroup.Timestamps 0 with
  | none => simp [h1] at hres
  | some latest =>
    cases h2 : goIndex testGroup.Timestamps ((testGroup.Timestamps.length : Int) - 1) with
    | none => simp [h1, h2] at hres
    | some first =>
      cases h3 : goIndex testGroup.Changelists firstFailure with
      | none => simp [h1, h2, h3] at hres
      | some changelist =>
        cases h4 : goIndex (strings.Split testGroup.Query "/")
            (((strings.Split testGroup.Query "/").length : Int) - 1) with
        | none => simp [h1, h2, h3, h4] at hres
        | some job =>
          simp [h1, h2, h3, h4] at hres
          exact ⟨latest, first, changelist, job, hr, hn, rfl, rfl, rfl, rfl, hres.symm⟩

theorem goIndex_isSome {α : Type} (s : List α) (i : Int) (h0 : 0 ≤ i) (h1 : i < s.length) :
    ∃ x, goIndex s i = some x := by
  lift i to ℕ using h0
  have h2 : i < s.length := by exact_mod_cast h1
  exact ⟨s[i], by rw [goIndex_natCast, List.getElem?_eq_getElem h2]⟩

theorem strings.splitLoop_ne_nil (sep : List Char) :
    ∀ (s : List Char) (skip : Nat) (cur : List Char), strings.splitLoop sep skip cur s ≠ [] := by
  intro s
  induction s with
  | nil => intro skip cur; simp [strings.splitLoop]
  | cons c cs ih =>
    intro skip cur
    cases skip with
    | zero =>
      rw [strings.splitLoop]
      split
      · simp
      · exact ih _ _
    | succ k =>
      rw [strings.splitLoop]
      exact ih _ _

/-- The split on `"/"` of any string, the empty one included, has at least one element. -/
theorem strings.Split_slash_ne_nil (s : String) : strings.Split s "/" ≠ [] := by
  have h : ("/" : String).data ≠ [] := by decide
  simp only [strings.Split, h, if_false]
  exact strings.splitLoop_ne_nil _ _ _ _

theorem List.findIdx?_of_countP_pos {α : Type} (p : α → Bool) :
    ∀ (l : List α) (i : Nat), 0 < l.countP p →
      ∃ k, l.findIdx? p i = some k ∧ i ≤ k ∧ k < i + l.length := by
  intro l
  induction l with
  | nil => intro i h; simp at h
  | cons a l ih =>
    intro i h
    by_cases hp : p a = true
    · exact ⟨i, by rw [List.findIdx?_cons, if_pos hp], le_refl _, by simp⟩
    · have h2 : 0 < l.countP p := by
        simpa [List.countP_cons, hp] using h
      obtain ⟨k, hk, hk1, hk2⟩ := ih (i + 1) h2
      refine ⟨k, by rw [List.findIdx?_cons, if_neg hp]; exact hk, by omega, ?_⟩
      simp only [List.length_cons]
      omega

/-- On an aligned group with thresholds of at least 1 the loop of `filterTabTests` returns:
no index is out of range. -/
theorem filterTabTests.loop_total (timeString : Int → String) (testGroup : TestGroup)
    (state : String) (minFailure minFlake : Int) (hal : testGroup.aligned)
    (hF : 1 ≤ minFailure) (hK : 1 ≤ minFlake) :
    ∀ (rest : List Test), (∀ t ∈ rest, t ∈ testGroup.Tests) → ∀ acc : List TestResult,
      ∃ tests, filterTabTests.loop timeString testGroup state minFailure minFlake
        (strings.Split testGroup.Query "/") rest acc = some tests := by
  obtain ⟨hS, hM, hC⟩ := hal
  intro rest
  induction rest with
  | nil => intro _ acc; exact ⟨acc, rfl⟩
  | cons test rest ih =>
    intro hmem acc
    have ht : test ∈ testGroup.Tests := hmem test (List.mem_cons_self _ _)
    have ih2 := ih (fun t h => hmem t (List.mem_cons_of_mem _ h))
    have hr := Test.RenderStatuses_eq timeString test testGroup.Timestamps
      (by rw [hS test ht, hM test ht]) (by rw [hS test ht])
    rw [filterTabTests.loop, hr]
    simp only []
    by_cases hin : filterTabTests.included state minFailure minFlake
        ((test.ShortTexts.countP (fun s => decide (s ≠ "")) : Nat) : Int) = true
    · rw [if_pos hin]
      have hpos : 0 < test.ShortTexts.countP (fun s => decide (s ≠ "")) := by
        simp only [filterTabTests.included, Bool.or_eq_true, Bool.and_eq_true,
          decide_eq_true_eq, ge_iff_le] at hin
        omega
      obtain ⟨k, hk, -, hk2⟩ := List.findIdx?_of_countP_pos _ test.ShortTexts 0 hpos
      rw [hk]
      simp only []
      obtain ⟨testName, hn⟩ := normalizedTestName_total test.Name
      rw [hn]
      simp only []
      have hlen : k < testGroup.Timestamps.length := by rw [← hS test ht]; omega
      obtain ⟨latest, h1⟩ := goIndex_isSome testGroup.Timestamps 0 (le_refl _) (by omega)
      obtain ⟨first, h2⟩ := goIndex_isSome testGroup.Timestamps
        ((testGroup.Timestamps.length : Int) - 1) (by omega) (by omega)
      obtain ⟨changelist, h3⟩ := goIndex_isSome testGroup.Changelists (k : Int) (by omega)
        (by rw [hC]; omega)
      have hj : 0 < (strings.Split testGroup.Query "/").length :=
        List.length_pos.2 (strings.Split_slash_ne_nil _)
      obtain ⟨job, h4⟩ := goIndex_isSome (strings.Split testGroup.Query "/")
        (((strings.Split testGroup.Query "/").length : Int) - 1) (by omega) (by omega)
      simp only [filterTabTests.result, h1, h2, h3, h4, Option.bind_eq_bind, Option.some_bind,
        bind, Option.bind]
      exact ih2 _
    · rw [if_neg hin]
      exact ih2 _

theorem filterTabTests_total (timeString : Int → String) (testGroup : TestGroup)
    (state : String) (minFailure minFlake : Int) (hal : testGroup.aligned)
    (hF : 1 ≤ minFailure) (hK : 1 ≤ minFlake) :
    ∃ tests, filterTabTests timeString testGroup state minFailure minFlake = some tests :=
  filterTabTests.loop_total timeString testGroup state minFailure minFlake hal hF hK
    testGroup.Tests (fun _ h => h) []

theorem FAILING_ne_FLAKY : FAILING_STATUS ≠ FLAKY_STATUS := by decide

theorem Test.isIncluded_iff (timeString : Int → String) (testGroup : TestGroup)
    (state : String) (minFailure minFlake : Int) (test : Test) :
    test.isIncluded timeString testGroup state minFailure minFlake = true
      ↔ ((state = FAILING_STATUS
            ∧ test.failureCount timeString testGroup.Timestamps ≥ minFailure)
          ∨ (state = FLAKY_STATUS
            ∧ test.failureCount timeString testGroup.Timestamps ≥ minFlake)) := by
  simp [Test.isIncluded]

/-- C2: on a test group whose `ShortTexts`, `Messages` and `Changelists` have the length of
`Timestamps`, with thresholds of at least 1, `filterTabTests` returns, and its results are,
one for one and in order, the results appended for the tests that satisfy the inclusion rule:
state `FAILING` and failure count at least `minFailure`, or state `FLAKY` and failure count at
least `minFlake`, the failure count being the one `RenderStatuses` returns.  A test with
exactly `minFailure` failures under `FAILING` satisfies the rule and one with
`minFailure - 1` does not; the same holds for `minFlake` under `FLAKY`. -/
theorem filterTabTests_included_iff (timeString : Int → String) (testGroup : TestGroup)
    (state : String) (minFailure minFlake : Int)
    (hS : ∀ test ∈ testGroup.Tests, test.ShortTexts.length = testGroup.Timestamps.length)
    (hM : ∀ test ∈ testGroup.Tests, test.Messages.length = testGroup.Timestamps.length)
    (hC : testGroup.Changelists.length = testGroup.Timestamps.length)
    (hF : 1 ≤ minFailure) (hK : 1 ≤ minFlake) :
    ∃ tests, filterTabTests timeString testGroup state minFailure minFlake = some tests
      ∧ List.Forall₂ (filterTabTests.appended timeString testGroup)
          (testGroup.Tests.filter
            (fun test => decide
              ((state = FAILING_STATUS
                  ∧ test.failureCount timeString testGroup.Timestamps ≥ minFailure)
                ∨ (state = FLAKY_STATUS
                  ∧ test.failureCount timeString testGroup.Timestamps ≥ minFlake))))
          tests
      ∧ (∀ test ∈ testGroup.Tests, ∃ out f,
          test.RenderStatuses timeString testGroup.Timestamps
            = some (out, test.failureCount timeString testGroup.Timestamps, f))
      ∧ (∀ test : Test, state = FAILING_STATUS →
          (test.failureCount timeString testGroup.Timestamps = minFailure →
              test.isIncluded timeString testGroup state minFailure minFlake = true)
            ∧ (test.failureCount timeString testGroup.Timestamps = minFailure - 1 →
              test.isIncluded timeString testGroup state minFailure minFlake = false))
      ∧ (∀ test : Test, state = FLAKY_STATUS →
          (test.failureCount timeString testGroup.Timestamps = minFlake →
              test.isIncluded timeString testGroup state minFailure minFlake = true)
            ∧ (test.failureCount timeString testGroup.Timestamps = minFlake - 1 →
              test.isIncluded timeString testGroup state minFailure minFlake = false)) := by
  obtain ⟨tests, ht⟩ :=
    filterTabTests_total timeString testGroup state minFailure minFlake ⟨hS, hM, hC⟩ hF hK
  refine ⟨tests, ht, ?_, ?_, ?_, ?_⟩
  · have h := filterTabTests_spec timeString testGroup state minFailure minFlake tests ht
    have e : Test.isIncluded timeString testGroup state minFailure minFlake
        = (fun test => decide
              ((state = FAILING_STATUS
                  ∧ test.failureCount timeString testGroup.Timestamps ≥ minFailure)
                ∨ (state = FLAKY_STATUS
                  ∧ test.failureCount timeString testGroup.Timestamps ≥ minFlake))) := rfl
    rw [e] at h
    exact h
  · intro test hmem
    have hr := Test.RenderStatuses_eq timeString test testGroup.Timestamps
      (by rw [hS test hmem, hM test hmem]) (by rw [hS test hmem])
    have hc : test.failureCount timeString testGroup.Timestamps
        = ((test.ShortTexts.countP (fun s => decide (s ≠ "")) : Nat) : Int) := by
      rw [Test.failureCount, hr]
    rw [hc]
    exact ⟨_, _, hr⟩
  · intro test hst
    subst hst
    constructor
    · intro hc
      rw [Test.isIncluded_iff]
      exact Or.inl ⟨rfl, by omega⟩
    · intro hc
      rw [← Bool.not_eq_true, Test.isIncluded_iff]
      rintro (⟨-, h⟩ | ⟨h, -⟩)
      · omega
      · exact FAILING_ne_FLAKY h
  · intro test hst
    subst hst
    constructor
    · intro hc
      rw [Test.isIncluded_iff]
      exact Or.inr ⟨rfl, by omega⟩
    · intro hc
      rw [← Bool.not_eq_true, Test.isIncluded_iff]
      rintro (⟨h, -⟩ | ⟨-, h⟩)
      · exact FAILING_ne_FLAKY h.symm
      · omega

set_option maxRecDepth 100000 in
/-- C2 at the test group of `Test_FetchTable`, state `FLAKY`, thresholds 1 and 1: the one test
has one failure and is returned. -/
theorem filterTabTests_included_iff_witness :
    ((∀ test ∈ sampleGroup.Tests, test.ShortTexts.length = sampleGroup.Timestamps.length)
      ∧ (∀ test ∈ sampleGroup.Tests, test.Messages.length = sampleGroup.Timestamps.length)
      ∧ sampleGroup.Changelists.length = sampleGroup.Timestamps.length
      ∧ (1 : Int) ≤ 1)
    ∧ ∃ tests, filterTabTests sampleTime sampleGroup FLAKY_STATUS 1 1 = some tests
        ∧ tests.length = 1 :=
  ⟨⟨by decide, by decide, by decide, by decide⟩,
    (filterTabTests_included_iff sampleTime sampleGroup FLAKY_STATUS 1 1
      (by decide) (by decide) (by decide) (by decide) (by decide)).elim
      (fun tests h => ⟨tests, h.1, by
        have h2 := h.2.1.length_eq
        rw [← h2]
        decide⟩)⟩

set_option maxRecDepth 100000 in
/-- C5: whenever `filterTabTests` returns, its results are in one-to-one, order-preserving
correspondence with the included tests of the group, and the `ErrorMessage` of each result is
the text `RenderStatuses` produces for its test against the `Timestamps` of the group; on an
aligned group with thresholds of at least 1 it does return; on the group of `Test_FetchTable`
under `FLAKY` with thresholds 1 and 1 it returns exactly one result, whose name contains
`Overall` and whose error text contains `F`. -/
theorem filterTabTests_one_result_per_included_test (timeString : Int → String)
    (testGroup : TestGroup) (state : String) (minFailure minFlake : Int) :
    (∀ tests, filterTabTests timeString testGroup state minFailure minFlake = some tests →
        tests.length
            = (testGroup.Tests.filter
                (Test.isIncluded timeString testGroup state minFailure minFlake)).length
          ∧ List.Forall₂
              (fun test r => ∃ n f,
                test.RenderStatuses timeString testGroup.Timestamps
                  = some (r.ErrorMessage, n, f))
              (testGroup.Tests.filter
                (Test.isIncluded timeString testGroup state minFailure minFlake))
              tests)
      ∧ (testGroup.aligned → 1 ≤ minFailure → 1 ≤ minFlake →
          ∃ tests, filterTabTests timeString testGroup state minFailure minFlake = some tests)
      ∧ (∃ r, filterTabTests timeString sampleGroup FLAKY_STATUS 1 1 = some [r]
          ∧ strings.Contains r.TestName "Overall" = true
          ∧ strings.Contains r.ErrorMessage "F" = true) := by
  refine ⟨?_, filterTabTests_total timeString testGroup state minFailure minFlake, ?_⟩
  · intro tests h
    have hall := filterTabTests_spec timeString testGroup state minFailure minFlake tests h
    refine ⟨hall.length_eq.symm, ?_⟩
    refine hall.imp ?_
    intro test r hr
    obtain ⟨errMessage, failures, firstFailure, testName, _, _, _, _, h1, _, _, _, _, _, h7⟩ :=
      filterTabTests.appended_fields timeString testGroup test r hr
    refine ⟨failures, firstFailure, ?_⟩
    rw [h1, h7]
  · exact ⟨{ TestName := "ci-kubernetes-build.Overall"
             LatestTimestamp := 1758999193000
             FirstTimestamp := 1758999193000
             TriageURL := "https://storage.googleapis.com/k8s-triage/index.html?job=ci-kubernetes-e2e-capz-master-windows$&test=ci-kubernetes-build.Overall"
             ProwJobURL := "https://prow.k8s.io/view/gs/kubernetes-ci-logs/logs/ci-kubernetes-e2e-capz-master-windows/1972011571991285760"
             ErrorMessage := formatTestStatus timeString "F" 1758999193000 "F" },
      rfl, rfl, rfl⟩

/-- C8: when `FetchTabTests` succeeds, the `StateIcon` of the tab it returns is
`:large_red_square:` if the `OverallState` of the summary is `FAILING` and
`:large_purple_square:` for every other state, and its `TabState` is that `OverallState`. -/
theorem FetchTabTests_icon_and_state (timeString : Int → String)
    (fetchTestGroup : String → Except String TestGroup) (t : TestGrid)
    (summary : DashboardSummary) (minFailure minFlake : Int) (tab : DashboardTab)
    (h : t.FetchTabTests timeString fetchTestGroup summary minFailure minFlake
      = some (.ok tab)) :
    (summary.OverallState = FAILING_STATUS → tab.StateIcon = ":large_red_square:")
      ∧ (summary.OverallState ≠ FAILING_STATUS → tab.StateIcon = ":large_purple_square:")
      ∧ tab.TabState = summary.OverallState := by
  unfold TestGrid.FetchTabTests at h
  cases hT : summary.DashboardTab with
  | none => rw [hT] at h; exact Option.noConfusion h
  | some dashboardTab =>
    rw [hT] at h
    simp only [] at h
    cases hG : fetchTestGroup dashboardTab.TabURL with
    | error err => rw [hG] at h; simp at h
    | ok testGroup =>
      rw [hG] at h
      simp only [] at h
      cases hR : filterTabTests timeString testGroup summary.OverallState minFailure minFlake with
      | none => rw [hR] at h; exact Option.noConfusion h
      | some testRuns =>
        rw [hR] at h
        simp only [Option.some.injEq, Except.ok.injEq] at h
        subst h
        refine ⟨fun hs => by simp [hs], fun hs => by simp [hs], rfl⟩

set_option maxRecDepth 100000 in
/-- C8 at the run of `Test_FetchTable`: the summary is `FLAKY`, the call succeeds and the icon is
the purple square. -/
theorem FetchTabTests_icon_and_state_witness :
    TestGrid.FetchTabTests sampleTime (fun _ => .ok sampleGroup) (NewTestGrid "http://127.0.0.1")
        sampleSummary 1 1 = some (.ok sampleTab)
      ∧ sampleSummary.OverallState ≠ FAILING_STATUS
      ∧ sampleTab.StateIcon = ":large_purple_square:"
      ∧ sampleTab.TabState = sampleSummary.OverallState :=
  ⟨rfl, by decide,
    (FetchTabTests_icon_and_state sampleTime (fun _ => .ok sampleGroup)
      (NewTestGrid "http://127.0.0.1") sampleSummary 1 1 sampleTab rfl).2.1 (by decide),
    (FetchTabTests_icon_and_state sampleTime (fun _ => .ok sampleGroup)
      (NewTestGrid "http://127.0.0.1") sampleSummary 1 1 sampleTab rfl).2.2⟩

set_option maxRecDepth 100000 in
/-- C9 fails on the code: the test `kubetest.Up`, with one failure under `FAILING` and
thresholds 1 and 1, is included; its normalized name is `Up`, but the `TestName` of its result
is the raw name `kubetest.Up`. -/
theorem TestName_is_not_normalized :
    normalizedTestName "kubetest.Up" = some "Up"
      ∧ ∃ r, filterTabTests sampleTime kubetestGroup FAILING_STATUS 1 1 = some [r]
          ∧ r.TestName = "kubetest.Up"
          ∧ r.TestName ≠ "Up" := by
  refine ⟨by decide, ?_⟩
  exact ⟨{ TestName := "kubetest.Up"
           LatestTimestamp := 1758999193000
           FirstTimestamp := 1758999193000
           TriageURL := "https://storage.googleapis.com/k8s-triage/index.html?job=ci-job$&test=Up"
           ProwJobURL := "https://prow.k8s.io/view/gs/kubernetes-ci-logs/logs/ci-job/1972011571991285760"
           ErrorMessage := "\tF T1758999193 timeout\n" },
    by decide, by decide, by decide⟩

/-- C9 as amended: whenever `filterTabTests` returns, the `TestName` of the result of every
included test is the raw name of the test; the normalized name is computed (the normalization
does not fail) but is not stored in `TestName`. -/
theorem TestName_is_raw_name (timeString : Int → String) (testGroup : TestGroup)
    (state : String) (minFailure minFlake : Int) (tests : List TestResult)
    (h : filterTabTests timeString testGroup state minFailure minFlake = some tests) :
    List.Forall₂ (fun test r => r.TestName = test.Name)
      (testGroup.Tests.filter (Test.isIncluded timeString testGroup state minFailure minFlake))
      tests := by
  have hall := filterTabTests_spec timeString testGroup state minFailure minFlake tests h
  refine hall.imp ?_
  intro test r hr
  obtain ⟨_, _, _, _, _, _, _, _, _, _, _, _, _, _, h7⟩ :=
    filterTabTests.appended_fields timeString testGroup test r hr
  rw [h7]

set_option maxRecDepth 100000 in
/-- C9 as amended, at the group with the test `kubetest.Up`. -/
theorem TestName_is_raw_name_witness :
    ∃ tests, filterTabTests sampleTime kubetestGroup FAILING_STATUS 1 1 = some tests
      ∧ List.Forall₂ (fun test r => r.TestName = test.Name)
          (kubetestGroup.Tests.filter
            (Test.isIncluded sampleTime kubetestGroup FAILING_STATUS 1 1))
          tests :=
  ⟨[{ TestName := "kubetest.Up"
      LatestTimestamp := 1758999193000
      FirstTimestamp := 1758999193000
      TriageURL := "https://storage.googleapis.com/k8s-triage/index.html?job=ci-job$&test=Up"
      ProwJobURL := "https://prow.k8s.io/view/gs/kubernetes-ci-logs/logs/ci-job/1972011571991285760"
      ErrorMessage := "\tF T1758999193 timeout\n" }],
    by decide, TestName_is_raw_name sampleTime kubetestGroup FAILING_STATUS 1 1 _ (by decide)⟩

theorem goIndex_last {α : Type} (s : List α) :
    goIndex s ((s.length : Int) - 1) = s.getLast? := by
  cases s with
  | nil => rfl
  | cons a l =>
    have e : (((a :: l).length : Nat) : Int) - 1 = ((l.length : Nat) : Int) := by
      simp
    rw [e, goIndex_natCast, List.getLast?_eq_getElem?]
    simp

theorem normalizedTestName_unmatched (name : String)
    (hc : strings.Contains name e2eSuitePrefix = true)
    (hm : testRegex.FindStringSubmatch name = []) :
    normalizedTestName name = some "" := by
  obtain ⟨params, hp, hv⟩ := GetRegexParameter_testRegex name
  rw [hm] at hv
  have hv2 : mapIndex params "TEST" = "" := hv
  have hk : strings.Contains "" kubetestPrefix = false := by decide
  unfold normalizedTestName
  simp [hc, hp, hv2, hk]

set_option maxRecDepth 100000 in
/-- C10 fails on the code: the test `Kubernetes e2e suite.BeforeSuite` has the e2e-suite
marker and does not match the pattern; with one failure under `FAILING` it is included, and
the name in its triage URL is empty, not the raw name. -/
theorem unmatched_name_is_dropped_from_TriageURL :
    strings.Contains "Kubernetes e2e suite.BeforeSuite" e2eSuitePrefix = true
      ∧ testRegex.FindStringSubmatch "Kubernetes e2e suite.BeforeSuite" = []
      ∧ ∃ r, filterTabTests sampleTime unmatchedGroup FAILING_STATUS 1 1 = some [r]
          ∧ r.TriageURL
              = "https://storage.googleapis.com/k8s-triage/index.html?job=ci-job$&test="
          ∧ r.TriageURL
              ≠ cleanHTMLCharacters
                  ("https://storage.googleapis.com/k8s-triage/index.html?job=ci-job$&test="
                    ++ cleanHTMLCharacters "Kubernetes e2e suite.BeforeSuite") := by
  refine ⟨by decide, by decide, ?_⟩
  exact ⟨{ TestName := "Kubernetes e2e suite.BeforeSuite"
           LatestTimestamp := 1758999193000
           FirstTimestamp := 1758999193000
           TriageURL := "https://storage.googleapis.com/k8s-triage/index.html?job=ci-job$&test="
           ProwJobURL := "https://prow.k8s.io/view/gs/kubernetes-ci-logs/logs/ci-job/1972011571991285760"
           ErrorMessage := "\tF T1758999193 timeout\n" },
    by decide, by decide, by decide⟩

/-- C10 as amended: the normalization never fails; for every included test whose raw name has
the e2e-suite marker but does not match the extraction pattern, the result is still returned
with the raw name as `TestName`, and the name in its triage URL is the empty string: the URL
ends with `$&test=` after the last segment of the `Query`. -/
theorem unmatched_name_gives_empty_triage_name (timeString : Int → String)
    (testGroup : TestGroup) (state : String) (minFailure minFlake : Int)
    (tests : List TestResult)
    (h : filterTabTests timeString testGroup state minFailure minFlake = some tests) :
    (∀ name : String, ∃ n, normalizedTestName name = some n)
      ∧ List.Forall₂
          (fun test r =>
            strings.Contains test.Name e2eSuitePrefix = true →
            testRegex.FindStringSubmatch test.Name = [] →
              normalizedTestName test.Name = some ""
                ∧ r.TestName = test.Name
                ∧ ∃ job, (strings.Split testGroup.Query "/").getLast? = some job
                    ∧ r.TriageURL
                        = cleanHTMLCharacters
                            ("https://storage.googleapis.com/k8s-triage/index.html?job="
                              ++ cleanHTMLCharacters job ++ "$&test="))
          (testGroup.Tests.filter
            (Test.isIncluded timeString testGroup state minFailure minFlake))
          tests := by
  refine ⟨normalizedTestName_total, ?_⟩
  have hall := filterTabTests_spec timeString testGroup state minFailure minFlake tests h
  refine hall.imp ?_
  intro test r hr hc hm
  obtain ⟨_, _, _, testName, _, _, _, job, _, h2, _, _, _, h6, h7⟩ :=
    filterTabTests.appended_fields timeString testGroup test r hr
  have hn := normalizedTestName_unmatched test.Name hc hm
  rw [hn] at h2
  simp only [Option.some.injEq] at h2
  subst h2
  rw [goIndex_last] at h6
  refine ⟨hn, by rw [h7], job, h6, ?_⟩
  have he : cleanHTMLCharacters "" = "" := by decide
  rw [h7, he, String.append_empty]

set_option maxRecDepth 100000 in
/-- C10 as amended, at the group with the test `Kubernetes e2e suite.BeforeSuite`. -/
theorem unmatched_name_gives_empty_triage_name_witness :
    ∃ r, filterTabTests sampleTime unmatchedGroup FAILING_STATUS 1 1 = some [r]
      ∧ List.Forall₂
          (fun test r =>
            strings.Contains test.Name e2eSuitePrefix = true →
            testRegex.FindStringSubmatch test.Name = [] →
              normalizedTestName test.Name = some ""
                ∧ r.TestName = test.Name
                ∧ ∃ job, (strings.Split unmatchedGroup.Query "/").getLast? = some job
                    ∧ r.TriageURL
                        = cleanHTMLCharacters
                            ("https://storage.googleapis.com/k8s-triage/index.html?job="
                              ++ cleanHTMLCharacters job ++ "$&test="))
          (unmatchedGroup.Tests.filter
            (Test.isIncluded sampleTime unmatchedGroup FAILING_STATUS 1 1))
          [r] :=
  ⟨{ TestName := "Kubernetes e2e suite.BeforeSuite"
     LatestTimestamp := 1758999193000
     FirstTimestamp := 1758999193000
     TriageURL := "https://storage.googleapis.com/k8s-triage/index.html?job=ci-job$&test="
     ProwJobURL := "https://prow.k8s.io/view/gs/kubernetes-ci-logs/logs/ci-job/1972011571991285760"
     ErrorMessage := "\tF T1758999193 timeout\n" },
    by decide,
    (unmatched_name_gives_empty_triage_name sampleTime unmatchedGroup FAILING_STATUS 1 1 _
      (by decide)).2⟩


/-! ## The URLs and timestamps of a test result -/

theorem cleanHTMLCharacters_idem (str : String) :
    cleanHTMLCharacters (cleanHTMLCharacters str) = cleanHTMLCharacters str := by
  apply String.ext
  rw [cleanHTMLCharacters_data, cleanHTMLCharacters_data]
  induction str.data with
  | nil => rfl
  | cons c cs ih =>
    rw [List.flatMap_cons, List.flatMap_append, ih]
    by_cases h : c = ' '
    · subst h; rfl
    · simp [h]

theorem normalizedTestName_eq (name : String) :
    normalizedTestName name = some (normalizedName name) := by
  obtain ⟨params, hp, hv⟩ := GetRegexParameter_testRegex name
  unfold normalizedTestName normalizedName
  by_cases h : strings.Contains name e2eSuitePrefix = true
  · have h2 : strings.Contains name "Kubernetes e2e suite." = true := h
    simp [h, h2, hp, hv, kubetestPrefix]
  · have h2 : ¬ strings.Contains name "Kubernetes e2e suite." = true := h
    simp [h, h2, kubetestPrefix]

theorem List.forall₂_mem_left {α β : Type} {R : α → β → Prop} :
    ∀ {l₁ : List α} {l₂ : List β}, List.Forall₂ R l₁ l₂ →
      List.Forall₂ (fun a b => a ∈ l₁ ∧ R a b) l₁ l₂ := by
  intro l₁ l₂ h
  induction h with
  | nil => exact List.Forall₂.nil
  | cons hab _ ih =>
    exact List.Forall₂.cons ⟨List.mem_cons_self _ _, hab⟩
      (ih.imp (fun _ _ hm => ⟨List.mem_cons_of_mem _ hm.1, hm.2⟩))

theorem goIndex_zero {α : Type} (s : List α) : goIndex s 0 = s.head? := by
  cases s <;> rfl

/-- C11: whenever `filterTabTests` returns, the `TriageURL` of the result of every included
test is the text
`https://storage.googleapis.com/k8s-triage/index.html?job={J}$&test={N}` with every space
replaced by `%20`, `J` being the last `/`-separated segment of the `Query` of the group and `N`
the normalized test name; a name with neither marker is its own normalized name; on an aligned
group with thresholds of at least 1 the function does return. -/
theorem TriageURL_eq (timeString : Int → String) (testGroup : TestGroup) (state : String)
    (minFailure minFlake : Int) :
    (∀ tests, filterTabTests timeString testGroup state minFailure minFlake = some tests →
        List.Forall₂
          (fun test r => ∃ J, (strings.Split testGroup.Query "/").getLast? = some J
            ∧ r.TriageURL.data
                = ("https://storage.googleapis.com/k8s-triage/index.html?job=" ++ J
                    ++ "$&test=" ++ normalizedName test.Name).data.flatMap
                    (fun c => if c = ' ' then ['%', '2', '0'] else [c]))
          (testGroup.Tests.filter
            (Test.isIncluded timeString testGroup state minFailure minFlake))
          tests)
      ∧ (∀ name : String, strings.Contains name "Kubernetes e2e suite." = false →
          strings.Contains name "kubetest" = false → normalizedName name = name)
      ∧ (testGroup.aligned → 1 ≤ minFailure → 1 ≤ minFlake →
          ∃ tests, filterTabTests timeString testGroup state minFailure minFlake
            = some tests) := by
  refine ⟨?_, ?_, filterTabTests_total timeString testGroup state minFailure minFlake⟩
  · intro tests h
    have hall := filterTabTests_spec timeString testGroup state minFailure minFlake tests h
    refine hall.imp ?_
    intro test r hr
    obtain ⟨_, _, _, testName, _, _, _, job, _, h2, _, _, _, h6, h7⟩ :=
      filterTabTests.appended_fields timeString testGroup test r hr
    rw [normalizedTestName_eq] at h2
    simp only [Option.some.injEq] at h2
    subst h2
    rw [goIndex_last] at h6
    refine ⟨job, h6, ?_⟩
    rw [h7, ← cleanHTMLCharacters_data]
    simp only [cleanHTMLCharacters_append, cleanHTMLCharacters_idem]
  · intro name h1 h2
    simp [normalizedName, h1, h2]

set_option maxRecDepth 100000 in
/-- C11 at the group with the test `kubetest.Up`: the job is `ci-job`, the normalized name
`Up`. -/
theorem TriageURL_eq_witness :
    ∃ r, filterTabTests sampleTime kubetestGroup FAILING_STATUS 1 1 = some [r]
      ∧ r.TriageURL = "https://storage.googleapis.com/k8s-triage/index.html?job=ci-job$&test=Up"
      ∧ List.Forall₂
          (fun test r => ∃ J, (strings.Split kubetestGroup.Query "/").getLast? = some J
            ∧ r.TriageURL.data
                = ("https://storage.googleapis.com/k8s-triage/index.html?job=" ++ J
                    ++ "$&test=" ++ normalizedName test.Name).data.flatMap
                    (fun c => if c = ' ' then ['%', '2', '0'] else [c]))
          (kubetestGroup.Tests.filter
            (Test.isIncluded sampleTime kubetestGroup FAILING_STATUS 1 1))
          [r] :=
  ⟨{ TestName := "kubetest.Up"
     LatestTimestamp := 1758999193000
     FirstTimestamp := 1758999193000
     TriageURL := "https://storage.googleapis.com/k8s-triage/index.html?job=ci-job$&test=Up"
     ProwJobURL := "https://prow.k8s.io/view/gs/kubernetes-ci-logs/logs/ci-job/1972011571991285760"
     ErrorMessage := "\tF T1758999193 timeout\n" },
    by decide, rfl,
    (TriageURL_eq sampleTime kubetestGroup FAILING_STATUS 1 1).1 _ (by decide)⟩

/-- C12: on an aligned test group, whenever `filterTabTests` returns, the `ProwJobURL` of the
result of every included test is the text `https://prow.k8s.io/view/gs/{Query}/{C}` with every
space replaced by `%20`, `C` being the entry of `Changelists` at the position of the first
non-empty entry of the `ShortTexts` of the test; with thresholds of at least 1 the function
does return. -/
theorem ProwJobURL_eq (timeString : Int → String) (testGroup : TestGroup) (state : String)
    (minFailure minFlake : Int)
    (hS : ∀ test ∈ testGroup.Tests, test.ShortTexts.length = testGroup.Timestamps.length)
    (hM : ∀ test ∈ testGroup.Tests, test.Messages.length = testGroup.Timestamps.length)
    (hC : testGroup.Changelists.length = testGroup.Timestamps.length) :
    (∀ tests, filterTabTests timeString testGroup state minFailure minFlake = some tests →
        List.Forall₂
          (fun test r => ∃ k C,
            test.ShortTexts.findIdx? (fun s => decide (s ≠ "")) = some k
              ∧ testGroup.Changelists[k]? = some C
              ∧ r.ProwJobURL.data
                  = ("https://prow.k8s.io/view/gs/" ++ testGroup.Query ++ "/" ++ C).data.flatMap
                      (fun c => if c = ' ' then ['%', '2', '0'] else [c]))
          (testGroup.Tests.filter
            (Test.isIncluded timeString testGroup state minFailure minFlake))
          tests)
      ∧ (1 ≤ minFailure → 1 ≤ minFlake →
          ∃ tests, filterTabTests timeString testGroup state minFailure minFlake
            = some tests) := by
  refine ⟨?_, filterTabTests_total timeString testGroup state minFailure minFlake
    ⟨hS, hM, hC⟩⟩
  intro tests h
  have hall := List.forall₂_mem_left
    (filterTabTests_spec timeString testGroup state minFailure minFlake tests h)
  refine hall.imp ?_
  rintro test r ⟨hmem, hr⟩
  have ht : test ∈ testGroup.Tests := List.mem_of_mem_filter hmem
  obtain ⟨_, _, firstFailure, _, _, _, changelist, _, h1, _, _, _, h5, _, h7⟩ :=
    filterTabTests.appended_fields timeString testGroup test r hr
  rw [Test.RenderStatuses_eq timeString test testGroup.Timestamps
    (by rw [hS test ht, hM test ht]) (by rw [hS test ht])] at h1
  simp only [Option.some.injEq, Prod.mk.injEq] at h1
  obtain ⟨-, -, hf⟩ := h1
  cases hk : test.ShortTexts.findIdx? (fun s => decide (s ≠ "")) with
  | none =>
    rw [hk] at hf
    rw [← hf] at h5
    exact absurd h5 (by simp [goIndex])
  | some k =>
    rw [hk] at hf
    rw [← hf, goIndex_natCast] at h5
    refine ⟨k, changelist, rfl, h5, ?_⟩
    rw [h7, cleanHTMLCharacters_data]

set_option maxRecDepth 100000 in
/-- C12 at a group of three columns whose test failed in the middle one: the job URL ends
with the middle changelist. -/
theorem ProwJobURL_eq_witness :
    ((∀ test ∈ gapGroup.Tests, test.ShortTexts.length = gapGroup.Timestamps.length)
      ∧ (∀ test ∈ gapGroup.Tests, test.Messages.length = gapGroup.Timestamps.length)
      ∧ gapGroup.Changelists.length = gapGroup.Timestamps.length)
    ∧ ∃ r, filterTabTests sampleTime gapGroup FAILING_STATUS 1 1 = some [r]
        ∧ r.ProwJobURL
            = "https://prow.k8s.io/view/gs/kubernetes-ci-logs/logs/ci-job/1971981372021772288"
        ∧ List.Forall₂
            (fun test r => ∃ k C,
              test.ShortTexts.findIdx? (fun s => decide (s ≠ "")) = some k
                ∧ gapGroup.Changelists[k]? = some C
                ∧ r.ProwJobURL.data
                    = ("https://prow.k8s.io/view/gs/" ++ gapGroup.Query ++ "/" ++ C).data.flatMap
                        (fun c => if c = ' ' then ['%', '2', '0'] else [c]))
            (gapGroup.Tests.filter (Test.isIncluded sampleTime gapGroup FAILING_STATUS 1 1))
            [r] :=
  ⟨⟨by decide, by decide, by decide⟩,
    { TestName := "kubetest.Up"
      LatestTimestamp := 1758999193000
      FirstTimestamp := 1758985000000
      TriageURL := "https://storage.googleapis.com/k8s-triage/index.html?job=ci-job$&test=Up"
      ProwJobURL := "https://prow.k8s.io/view/gs/kubernetes-ci-logs/logs/ci-job/1971981372021772288"
      ErrorMessage := "\tF T1758992000 timeout\n" },
    by decide, rfl,
    (ProwJobURL_eq sampleTime gapGroup FAILING_STATUS 1 1 (by decide) (by decide)
      (by decide)).1 _ (by decide)⟩

set_option maxRecDepth 100000 in
/-- C13 on the code: for the grid `NewTestGrid "http://127.0.0.1"` and the summary of
`Test_FetchTable`, `FetchTabTests` succeeds and sets `BoardHash` to
`sig-release-blocking#cikubernetesbuild`, but the rewritten tab URL starts with the literal
`https://testgrid.k8s.io`, not with the base URL of the grid. -/
theorem FetchTabTests_ignores_the_grid_URL :
    (NewTestGrid "http://127.0.0.1").URL = "http://127.0.0.1"
      ∧ ∃ tab, TestGrid.FetchTabTests sampleTime (fun _ => .ok sampleGroup)
            (NewTestGrid "http://127.0.0.1") sampleSummary 1 1 = some (.ok tab)
          ∧ tab.BoardHash = "sig-release-blocking#cikubernetesbuild"
          ∧ tab.TabURL
              = "https://testgrid.k8s.io/sig-release-blocking#cikubernetesbuild&exclude-non-failed-tests="
          ∧ tab.TabURL
              ≠ cleanHTMLCharacters
                  ((NewTestGrid "http://127.0.0.1").URL ++ "/" ++ "sig-release-blocking" ++ "#"
                    ++ "cikubernetesbuild" ++ "&exclude-non-failed-tests=") :=
  ⟨rfl, sampleTab, rfl, rfl, rfl, by decide⟩

set_option maxRecDepth 100000 in
/-- C14 on the code: in a group of three columns whose test failed in the middle column only,
the most recent and the oldest failing run of the test are both the middle column, and the
`ProwJobURL` of the result is read at that column; but `LatestTimestamp` is the timestamp of
the first column and `FirstTimestamp` that of the last column, and the issue template of
`updateGitHubPanel` shows these two as `LastFailure` and `FirstFailure`: both are runs the
test passed. -/
theorem timestamps_are_not_those_of_the_failing_runs :
    ∃ test r, gapGroup.Tests = [test]
      ∧ filterTabTests sampleTime gapGroup FAILING_STATUS 1 1 = some [r]
      ∧ test.ShortTexts = ["", "F", ""]
      ∧ gapGroup.Timestamps[1]? = some 1758992000000
      ∧ gapGroup.Changelists[1]? = some "1971981372021772288"
      ∧ r.ProwJobURL
          = "https://prow.k8s.io/view/gs/kubernetes-ci-logs/logs/ci-job/1971981372021772288"
      ∧ r.ErrorMessage = "\tF T1758992000 timeout\n"
      ∧ r.LatestTimestamp = 1758999193000
      ∧ r.FirstTimestamp = 1758985000000
      ∧ r.LatestTimestamp ≠ 1758992000000
      ∧ r.FirstTimestamp ≠ 1758992000000
      ∧ ∃ issue,
          updateGitHubPanel.issue sampleTimeClean
              { BoardHash := "sig-release-blocking#cikubernetesbuild" } r = some issue
            ∧ issue.LastFailure = "T1758999193"
            ∧ issue.FirstFailure = "T1758985000" :=
  ⟨{ Name := "kubetest.Up", ShortTexts := ["", "F", ""], Messages := ["", "timeout", ""] },
    { TestName := "kubetest.Up"
      LatestTimestamp := 1758999193000
      FirstTimestamp := 1758985000000
      TriageURL := "https://storage.googleapis.com/k8s-triage/index.html?job=ci-job$&test=Up"
      ProwJobURL := "https://prow.k8s.io/view/gs/kubernetes-ci-logs/logs/ci-job/1971981372021772288"
      ErrorMessage := "\tF T1758992000 timeout\n" },
    rfl, by decide, rfl, rfl, rfl, rfl, rfl, rfl, rfl, by decide, by decide,
    ⟨{ BoardName := "sig-release-blocking"
       TabName := "cikubernetesbuild"
       TestName := "kubetest.Up"
       FirstFailure := "T1758985000"
       LastFailure := "T1758999193"
       TestGridURL := ""
       TriageURL := "https://storage.googleapis.com/k8s-triage/index.html?job=ci-job$&test=Up"
       ProwURL := "https://prow.k8s.io/view/gs/kubernetes-ci-logs/logs/ci-job/1971981372021772288"
       ErrMessage := "\tF T1758992000 timeout\n" },
      by decide, rfl, rfl⟩⟩

/-- Whenever `filterTabTests` returns, the `LatestTimestamp` of every result is the first
entry of the `Timestamps` of the group (its most recent column) and the `FirstTimestamp` is
the last entry (its oldest column), whatever the columns in which the test failed; the issue
template of `updateGitHubPanel`, when it is built, shows the renderings of these two entries
as `LastFailure` and `FirstFailure`. -/
theorem timestamps_are_the_group_bounds (timeString : Int → String) (testGroup : TestGroup)
    (state : String) (minFailure minFlake : Int) (tests : List TestResult)
    (h : filterTabTests timeString testGroup state minFailure minFlake = some tests) :
    List.Forall₂
      (fun _ r => testGroup.Timestamps.head? = some r.LatestTimestamp
        ∧ testGroup.Timestamps.getLast? = some r.FirstTimestamp
        ∧ ∀ (timeClean : Int → String) (tab : DashboardTab) (issue : IssueTemplate),
            updateGitHubPanel.issue timeClean tab r = some issue →
            testGroup.Timestamps.head?.map timeClean = some issue.LastFailure
              ∧ testGroup.Timestamps.getLast?.map timeClean = some issue.FirstFailure)
      (testGroup.Tests.filter (Test.isIncluded timeString testGroup state minFailure minFlake))
      tests := by
  have hall := filterTabTests_spec timeString testGroup state minFailure minFlake tests h
  refine hall.imp ?_
  intro test r hr
  obtain ⟨_, _, _, _, latest, first, _, _, _, _, h3, h4, _, _, h7⟩ :=
    filterTabTests.appended_fields timeString testGroup test r hr
  rw [goIndex_zero] at h3
  rw [goIndex_last] at h4
  rw [h7]
  refine ⟨h3, h4, ?_⟩
  intro timeClean tab issue hi
  rw [h3, h4]
  simp only [updateGitHubPanel.issue, Option.bind_eq_bind, bind] at hi
  cases h0 : goIndex (strings.Split tab.BoardHash "#") 0 with
  | none => rw [h0] at hi; exact Option.noConfusion hi
  | some boardName =>
    rw [h0] at hi
    cases h1 : goIndex (strings.Split tab.BoardHash "#") 1 with
    | none => rw [h1] at hi; exact Option.noConfusion hi
    | some tabName =>
      rw [h1] at hi
      simp only [Option.bind, Option.some.injEq] at hi
      subst hi
      exact ⟨rfl, rfl⟩

set_option maxRecDepth 100000 in
/-- The bounds of the group of three columns whose test failed in the middle one. -/
theorem timestamps_are_the_group_bounds_witness :
    ∃ r, filterTabTests sampleTime gapGroup FAILING_STATUS 1 1 = some [r]
      ∧ List.Forall₂
          (fun _ r => gapGroup.Timestamps.head? = some r.LatestTimestamp
            ∧ gapGroup.Timestamps.getLast? = some r.FirstTimestamp
            ∧ ∀ (timeClean : Int → String) (tab : DashboardTab) (issue : IssueTemplate),
                updateGitHubPanel.issue timeClean tab r = some issue →
                gapGroup.Timestamps.head?.map timeClean = some issue.LastFailure
                  ∧ gapGroup.Timestamps.getLast?.map timeClean = some issue.FirstFailure)
          (gapGroup.Tests.filter (Test.isIncluded sampleTime gapGroup FAILING_STATUS 1 1))
          [r] :=
  ⟨{ TestName := "kubetest.Up"
     LatestTimestamp := 1758999193000
     FirstTimestamp := 1758985000000
     TriageURL := "https://storage.googleapis.com/k8s-triage/index.html?job=ci-job$&test=Up"
     ProwJobURL := "https://prow.k8s.io/view/gs/kubernetes-ci-logs/logs/ci-job/1971981372021772288"
     ErrorMessage := "\tF T1758992000 timeout\n" },
    by decide,
    timestamps_are_the_group_bounds sampleTime gapGroup FAILING_STATUS 1 1 _ (by decide)⟩

/-! ## The build-log scraper: extraction of the error text -/

theorem prow.extractBuildLogs.visitAll_append (a b : List Visit) (st : Int × String) :
    prow.extractBuildLogs.visitAll (a ++ b) st
      = (prow.extractBuildLogs.visitAll a st).bind (prow.extractBuildLogs.visitAll b) := by
  induction a generalizing st with
  | nil => rfl
  | cons v vs ih =>
    simp only [List.cons_append, prow.extractBuildLogs.visitAll]
    cases prow.extractBuildLogs.visit v.1 v.2.1 v.2.2 st with
    | none => rfl
    | some st1 => exact ih st1

theorem prow.extractBuildLogs.crawlerLoop_eq_visitAll :
    ∀ (node : html.Node) (parent : Option String) (st : Int × String),
      prow.extractBuildLogs.crawlerLoop parent node st
        = prow.extractBuildLogs.visitAll (html.Node.visits parent node) st := by
  intro node
  induction node with
  | nil => intro parent st; rfl
  | mk kind dataAtom data attr firstChild nextSibling ih1 ih2 =>
    intro parent st
    simp only [prow.extractBuildLogs.crawlerLoop, html.Node.visits,
      prow.extractBuildLogs.visitAll]
    cases prow.extractBuildLogs.visit parent kind data st with
    | none => rfl
    | some st1 =>
      simp only []
      rw [prow.extractBuildLogs.visitAll_append, ih1]
      cases prow.extractBuildLogs.visitAll (html.Node.visits (some data) firstChild) st1 with
      | none => rfl
      | some st2 => exact ih2 parent st2

theorem prow.extractBuildLogs.crawler_eq_visitAll (kind : html.NodeType) (dataAtom : Nat)
    (data : String) (attr : List html.Attribute) (firstChild nextSibling : html.Node)
    (st : Int × String) :
    prow.extractBuildLogs.crawler (.mk kind dataAtom data attr firstChild nextSibling) st
      = prow.extractBuildLogs.visitAll
          (html.Node.documentVisits (.mk kind dataAtom data attr firstChild nextSibling))
          st := by
  simp only [prow.extractBuildLogs.crawler, html.Node.documentVisits,
    prow.extractBuildLogs.visitAll]
  cases prow.extractBuildLogs.visit none kind data st with
  | none => rfl
  | some st1 => exact prow.extractBuildLogs.crawlerLoop_eq_visitAll _ _ _

/-- What one visit does to `(chunks, errors)` when the node has a parent. -/
theorem prow.extractBuildLogs.visit_some (parent : String) (kind : html.NodeType)
    (data : String) (chunks : Int) (errors : String) :
    prow.extractBuildLogs.visit (some parent) kind data (chunks, errors)
      = some
          (if kind = html.NodeType.TextNode ∧ data ≠ "" ∧ strings.Contains data "\n" = false
                ∧ goLen data > 10 ∧ ¬ (parent = "span" ∧ chunks = 1)
                ∧ data = "expand_less" then chunks + 1
            else chunks,
            errors ++
              (if kind = html.NodeType.TextNode ∧ data ≠ "" ∧ strings.Contains data "\n" = false
                  ∧ goLen data > 10 ∧ parent = "span" ∧ chunks = 1 then data ++ "\n"
                else "")) := by
  unfold prow.extractBuildLogs.visit
  by_cases h1 : kind = html.NodeType.TextNode ∧ data ≠ "" ∧ strings.Contains data "\n" = false
      ∧ goLen data > 10
  · obtain ⟨ha, hb, hc, hd⟩ := h1
    by_cases h2 : parent = "span" ∧ chunks = 1
    · simp [ha, hb, hc, hd, h2]
    · by_cases h3 : data = "expand_less"
      · subst h3
        have hb' : ("expand_less" : String) ≠ "" := by decide
        simp [ha, hb', hc, hd, h2]
      · simp [ha, hb, hc, hd, h2, h3]
  · have h1' : ¬ (kind = html.NodeType.TextNode ∧ data ≠ "" ∧ strings.Contains data "\n" = false
        ∧ goLen data > 10 ∧ parent = "span" ∧ chunks = 1) :=
      fun h => h1 ⟨h.1, h.2.1, h.2.2.1, h.2.2.2.1⟩
    have h1'' : ¬ (kind = html.NodeType.TextNode ∧ data ≠ "" ∧ strings.Contains data "\n" = false
        ∧ goLen data > 10 ∧ ¬ (parent = "span" ∧ chunks = 1) ∧ data = "expand_less") :=
      fun h => h1 ⟨h.1, h.2.1, h.2.2.1, h.2.2.2.1⟩
    rw [if_neg h1, if_neg h1', if_neg h1'']
    simp

theorem html.Node.visits_parent_some :
    ∀ (node : html.Node) (parent : String) (v : Visit),
      v ∈ html.Node.visits (some parent) node → ∃ p, v.1 = some p := by
  intro node
  induction node with
  | nil => intro parent v h; simp [html.Node.visits] at h
  | mk kind dataAtom data attr firstChild nextSibling ih1 ih2 =>
    intro parent v h
    simp only [html.Node.visits, List.mem_cons, List.mem_append] at h
    rcases h with h | h | h
    · exact ⟨parent, by rw [h]⟩
    · exact ih1 data v h
    · exact ih2 parent v h

set_option maxRecDepth 100000 in
/-- C15 fails on the code: in a page whose second sentinel is inside a `span`, that sentinel is
met while the counter is 1; it is appended to the error text and the counter stays 1. -/
theorem sentinel_in_span_is_captured_not_counted :
    (html.Node.documentVisits sentinelInSpanDoc).filter Visit.isSentinel
        = [(some "i", html.NodeType.TextNode, "expand_less"),
            (some "span", html.NodeType.TextNode, "expand_less")]
      ∧ prow.extractBuildLogs.crawler sentinelInSpanDoc (0, "") = some (1, "expand_less\n")
      ∧ prow.extractBuildLogs (.ok sentinelInSpanDoc)
          = some (.ok { Error := "expand_less\n" }) :=
  ⟨by decide, by decide, rfl⟩

/-- C15 as amended: a text node whose content is exactly `expand_less` and which has a parent
(every node below the root of a document has one) increments the counter by one, unless its
parent is a `span` and the counter is 1 when it is visited; in that case the counter is
unchanged and the text of the node, followed by a newline, is appended to the error text. -/
theorem sentinel_increments_unless_captured (parent : String) (chunks : Int)
    (errors : String) :
    prow.extractBuildLogs.visit (some parent) html.NodeType.TextNode "expand_less"
        (chunks, errors)
      = some
          (if parent = "span" ∧ chunks = 1 then (chunks, errors ++ "expand_less\n")
            else (chunks + 1, errors))
      ∧ ∀ (kind : html.NodeType) (dataAtom : Nat) (data : String)
          (attr : List html.Attribute) (firstChild nextSibling : html.Node),
          (∀ st, prow.extractBuildLogs.crawler
                (.mk kind dataAtom data attr firstChild nextSibling) st
              = prow.extractBuildLogs.visitAll
                  ((none, kind, data) :: html.Node.visits (some data) firstChild) st)
            ∧ ∀ v ∈ html.Node.visits (some data) firstChild, ∃ p, v.1 = some p := by
  refine ⟨?_, ?_⟩
  · rw [prow.extractBuildLogs.visit_some]
    have h1 : strings.Contains "expand_less" "\n" = false := by decide
    have h2 : goLen "expand_less" > 10 := by decide
    have h3 : ("expand_less" : String) ≠ "" := by decide
    by_cases h : parent = "span" ∧ chunks = 1
    · simp [h1, h2, h]
    · simp [h1, h2, h]
  · intro kind dataAtom data attr firstChild nextSibling
    exact ⟨fun st => prow.extractBuildLogs.crawler_eq_visitAll _ _ _ _ _ _ st,
      fun v hv => html.Node.visits_parent_some firstChild data v hv⟩

/-- One visit at counter 0 leaves the state unchanged unless the node is a sentinel. -/
theorem prow.extractBuildLogs.visit_zero (v : Visit) (errors : String) (st : Int × String)
    (h : prow.extractBuildLogs.visit v.1 v.2.1 v.2.2 (0, errors) = some st)
    (hs : v.isSentinel = false) : st = (0, errors) := by
  obtain ⟨parent, kind, data⟩ := v
  cases parent with
  | none =>
    simp only [prow.extractBuildLogs.visit] at h
    split at h
    · exact Option.noConfusion h
    · exact (Option.some.inj h).symm
  | some p =>
    simp only [prow.extractBuildLogs.visit_some, Option.some.injEq] at h
    have hs' : ¬ (kind = html.NodeType.TextNode ∧ data = "expand_less") := by
      simpa [Visit.isSentinel] using hs
    have e1 : ¬ (kind = html.NodeType.TextNode ∧ data ≠ "" ∧ strings.Contains data "\n" = false
        ∧ goLen data > 10 ∧ ¬ (p = "span" ∧ (0 : Int) = 1) ∧ data = "expand_less") :=
      fun c => hs' ⟨c.1, c.2.2.2.2.2⟩
    have e2 : ¬ (kind = html.NodeType.TextNode ∧ data ≠ "" ∧ strings.Contains data "\n" = false
        ∧ goLen data > 10 ∧ p = "span" ∧ (0 : Int) = 1) :=
      fun c => absurd c.2.2.2.2.2 (by decide)
    rw [if_neg e1, if_neg e2, String.append_empty] at h
    exact h.symm

theorem prow.extractBuildLogs.visitAll_before_first_sentinel :
    ∀ (vs : List Visit) (errors : String) (st : Int × String),
      prow.extractBuildLogs.visitAll vs (0, errors) = some st →
      (∀ v ∈ vs, v.isSentinel = false) → st = (0, errors) := by
  intro vs
  induction vs with
  | nil => intro errors st h _; exact (Option.some.inj h).symm
  | cons v vs ih =>
    intro errors st h hs
    rw [prow.extractBuildLogs.visitAll] at h
    cases hv : prow.extractBuildLogs.visit v.1 v.2.1 v.2.2 (0, errors) with
    | none => rw [hv] at h; exact Option.noConfusion h
    | some st1 =>
      rw [hv] at h
      have e := prow.extractBuildLogs.visit_zero v errors st1 hv (hs v (List.mem_cons_self _ _))
      subst e
      exact ih errors st h (fun w hw => hs w (List.mem_cons_of_mem _ hw))

/-- One visit at a counter of 2 or more appends nothing and does not lower the counter. -/
theorem prow.extractBuildLogs.visit_ge_two (v : Visit) (chunks : Int) (errors : String)
    (st : Int × String) (hc : 2 ≤ chunks)
    (h : prow.extractBuildLogs.visit v.1 v.2.1 v.2.2 (chunks, errors) = some st) :
    2 ≤ st.1 ∧ st.2 = errors := by
  obtain ⟨parent, kind, data⟩ := v
  cases parent with
  | none =>
    simp only [prow.extractBuildLogs.visit] at h
    split at h
    · exact Option.noConfusion h
    · rw [← Option.some.inj h]; exact ⟨hc, rfl⟩
  | some p =>
    simp only [prow.extractBuildLogs.visit_some, Option.some.injEq] at h
    have e2 : ¬ (kind = html.NodeType.TextNode ∧ data ≠ "" ∧ strings.Contains data "\n" = false
        ∧ goLen data > 10 ∧ p = "span" ∧ chunks = 1) :=
      fun c => by have := c.2.2.2.2.2; omega
    rw [if_neg e2, String.append_empty] at h
    rw [← h]
    refine ⟨?_, rfl⟩
    simp only []
    split <;> omega

theorem prow.extractBuildLogs.visitAll_after_counter_two :
    ∀ (vs : List Visit) (chunks : Int) (errors : String) (st : Int × String),
      2 ≤ chunks → prow.extractBuildLogs.visitAll vs (chunks, errors) = some st →
      2 ≤ st.1 ∧ st.2 = errors := by
  intro vs
  induction vs with
  | nil => intro chunks errors st hc h; rw [← Option.some.inj h]; exact ⟨hc, rfl⟩
  | cons v vs ih =>
    intro chunks errors st hc h
    rw [prow.extractBuildLogs.visitAll] at h
    cases hv : prow.extractBuildLogs.visit v.1 v.2.1 v.2.2 (chunks, errors) with
    | none => rw [hv] at h; exact Option.noConfusion h
    | some st1 =>
      rw [hv] at h
      obtain ⟨h1, h2⟩ := prow.extractBuildLogs.visit_ge_two v chunks errors st1 hc hv
      obtain ⟨c1, e1⟩ := st1
      simp only [] at h1 h2
      subst h2
      exact ih c1 e1 st h1 h

set_option maxRecDepth 100000 in
/-- C16 fails on the code: in this page the second sentinel text node is inside a `span`; the
line of text visited after it is captured all the same. -/
theorem text_after_second_sentinel_is_captured :
    (html.Node.documentVisits textAfterSecondSentinelDoc).map (fun v => v.2.2)
        = ["", "html", "head", "body", "i", "expand_less", "span", "expand_less", "span",
            "error after the second sentinel"]
      ∧ prow.extractBuildLogs (.ok textAfterSecondSentinelDoc)
          = some (.ok { Error := "expand_less\nerror after the second sentinel\n" }) :=
  ⟨by decide, rfl⟩

/-- C16 as amended: text is captured only while the counter is 1.  For every document and
every point of its depth-first traversal (the visits `pre` done, the visits `post` to come):
if `pre` holds no sentinel text node, nothing has been captured at that point and the counter
is 0; if the counter has reached 2 at that point, the visits to come capture nothing. -/
theorem capture_only_while_counter_is_one (doc : html.Node) (pre post : List Visit)
    (result : Int × String)
    (hsplit : html.Node.documentVisits doc = pre ++ post)
    (hres : prow.extractBuildLogs.crawler doc (0, "") = some result) :
    ∃ mid, prow.extractBuildLogs.visitAll pre (0, "") = some mid
      ∧ prow.extractBuildLogs.visitAll post mid = some result
      ∧ ((∀ v ∈ pre, v.isSentinel = false) → mid = (0, ""))
      ∧ (2 ≤ mid.1 → result.2 = mid.2) := by
  cases doc with
  | nil => exact Option.noConfusion hres
  | mk kind dataAtom data attr firstChild nextSibling =>
    rw [prow.extractBuildLogs.crawler_eq_visitAll, hsplit,
      prow.extractBuildLogs.visitAll_append] at hres
    cases hm : prow.extractBuildLogs.visitAll pre (0, "") with
    | none => rw [hm] at hres; exact Option.noConfusion hres
    | some mid =>
      rw [hm] at hres
      refine ⟨mid, rfl, hres, ?_, ?_⟩
      · exact prow.extractBuildLogs.visitAll_before_first_sentinel pre "" mid hm
      · intro h2
        exact (prow.extractBuildLogs.visitAll_after_counter_two post mid.1 mid.2 result h2
          hres).2

set_option maxRecDepth 100000 in
/-- C16 as amended, at a page with one panel, cut before the first sentinel: nothing is
captured before it. -/
theorem capture_only_while_counter_is_one_witness :
    html.Node.documentVisits panelDoc
        = (html.Node.documentVisits panelDoc).take 6 ++ (html.Node.documentVisits panelDoc).drop 6
      ∧ (∀ v ∈ (html.Node.documentVisits panelDoc).take 6, v.isSentinel = false)
      ∧ prow.extractBuildLogs.crawler panelDoc (0, "")
          = some (2, "first error line\nsecond error line\n")
      ∧ ∃ mid, prow.extractBuildLogs.visitAll ((html.Node.documentVisits panelDoc).take 6)
            (0, "") = some mid
          ∧ prow.extractBuildLogs.visitAll ((html.Node.documentVisits panelDoc).drop 6) mid
            = some (2, "first error line\nsecond error line\n")
          ∧ ((∀ v ∈ (html.Node.documentVisits panelDoc).take 6, v.isSentinel = false) →
              mid = (0, ""))
          ∧ (2 ≤ mid.1 → (2, "first error line\nsecond error line\n").2 = mid.2) :=
  ⟨by decide, by decide, by decide,
    capture_only_while_counter_is_one panelDoc
      ((html.Node.documentVisits panelDoc).take 6) ((html.Node.documentVisits panelDoc).drop 6)
      (2, "first error line\nsecond error line\n") (by decide) (by decide)⟩

/-- Below a parent the traversal of `extractBuildLogs` does not panic. -/
theorem prow.extractBuildLogs.crawlerLoop_total :
    ∀ (node : html.Node) (parent : String) (st : Int × String),
      ∃ result, prow.extractBuildLogs.crawlerLoop (some parent) node st = some result := by
  intro node
  induction node with
  | nil => intro parent st; exact ⟨st, rfl⟩
  | mk kind dataAtom data attr firstChild nextSibling ih1 ih2 =>
    intro parent st
    obtain ⟨chunks, errors⟩ := st
    rw [prow.extractBuildLogs.crawlerLoop, prow.extractBuildLogs.visit_some]
    simp only []
    obtain ⟨st2, h2⟩ := ih1 data
      (if kind = html.NodeType.TextNode ∧ data ≠ "" ∧ strings.Contains data "\n" = false
            ∧ goLen data > 10 ∧ ¬ (parent = "span" ∧ chunks = 1)
            ∧ data = "expand_less" then chunks + 1
        else chunks,
        errors ++
          (if kind = html.NodeType.TextNode ∧ data ≠ "" ∧ strings.Contains data "\n" = false
              ∧ goLen data > 10 ∧ parent = "span" ∧ chunks = 1 then data ++ "\n"
            else ""))
    rw [h2]
    exact ih2 parent st2


set_option maxRecDepth 100000 in
/-- C17 fails on the code: the line `✗ échoué` has 8 characters, not more than 10, but 12
bytes; in a `span`, after the sentinel, it is captured. -/
theorem short_line_of_many_bytes_is_captured :
    "✗ échoué".length = 8
      ∧ goLen "✗ échoué" = 12
      ∧ (html.Node.documentVisits shortLineDoc).map (fun v => v.2.2)
          = ["", "html", "head", "body", "i", "expand_less", "span", "✗ échoué"]
      ∧ prow.extractBuildLogs (.ok shortLineDoc) = some (.ok { Error := "✗ échoué\n" }) :=
  ⟨by decide, by decide, by decide, rfl⟩

/-- C17 as amended: the traversal visits the nodes in depth-first order, and a visited node
with a parent contributes to the error text if and only if it is a text node that is not
empty, contains no newline, is longer than 10 bytes (the `len` of Go), has a parent whose
`Data` is `span`, and is visited while the counter is 1; a contributing node appends exactly
its text followed by one newline, every other node appends nothing; the root of a document
(a document node, without parent) appends nothing, and the traversal of a document returns. -/
theorem contributes_iff (doc : html.Node) :
    (∀ st result, prow.extractBuildLogs.crawler doc st = some result →
        prow.extractBuildLogs.visitAll (html.Node.documentVisits doc) st = some result)
      ∧ (∀ (parent : String) (kind : html.NodeType) (data : String) (chunks : Int)
          (errors : String),
          ∃ chunks1, prow.extractBuildLogs.visit (some parent) kind data (chunks, errors)
            = some (chunks1,
                errors ++
                  (if kind = html.NodeType.TextNode ∧ data ≠ ""
                      ∧ strings.Contains data "\n" = false ∧ goLen data > 10
                      ∧ parent = "span" ∧ chunks = 1 then data ++ "\n"
                    else "")))
      ∧ (∀ (data : String) (st : Int × String),
          prow.extractBuildLogs.visit none html.NodeType.DocumentNode data st = some st)
      ∧ (∀ (dataAtom : Nat) (data : String) (attr : List html.Attribute)
          (firstChild nextSibling : html.Node) (st : Int × String),
          ∃ result, prow.extractBuildLogs.crawler
            (.mk html.NodeType.DocumentNode dataAtom data attr firstChild nextSibling) st
              = some result) := by
  refine ⟨?_, ?_, ?_, ?_⟩
  · intro st result h
    cases doc with
    | nil => exact Option.noConfusion h
    | mk kind dataAtom data attr firstChild nextSibling =>
      rw [← prow.extractBuildLogs.crawler_eq_visitAll]
      exact h
  · intro parent kind data chunks errors
    exact ⟨_, prow.extractBuildLogs.visit_some parent kind data chunks errors⟩
  · intro data st
    simp [prow.extractBuildLogs.visit]
  · intro dataAtom data attr firstChild nextSibling st
    have h : prow.extractBuildLogs.visit none html.NodeType.DocumentNode data st = some st := by
      simp [prow.extractBuildLogs.visit]
    rw [prow.extractBuildLogs.crawler, h]
    exact prow.extractBuildLogs.crawlerLoop_total firstChild data st

set_option maxRecDepth 100000 in
/-- C17 as amended, at a page with one panel: the two lines between the sentinels are
captured, in order. -/
theorem contributes_iff_witness :
    prow.extractBuildLogs.crawler panelDoc (0, "")
        = some (2, "first error line\nsecond error line\n")
      ∧ prow.extractBuildLogs.visitAll (html.Node.documentVisits panelDoc) (0, "")
        = some (2, "first error line\nsecond error line\n") :=
  ⟨by decide, (contributes_iff panelDoc).1 _ _ (by decide)⟩

/-! ## The build-log scraper: resolution of the viewer URL -/

theorem Regex.FindStringSubmatch_length (re : Regex) (value : String) :
    re.FindStringSubmatch value = []
      ∨ (re.FindStringSubmatch value).length = re.groupNames.length + 1 := by
  unfold Regex.FindStringSubmatch
  cases h : re.findLoop value.data with
  | none => left; rfl
  | some m => right; exact Regex.findLoop_length re value.data m h

/-- For a pattern with one capture group, `GetRegexParameter` does not panic, and the entry of
the map under the name of the group is the text of the group, or the empty string when
nothing matches. -/
theorem GetRegexParameter_single (re : Regex) (name value : String)
    (hg : re.groupNames = [name]) :
    ∃ params, GetRegexParameter re value = some params
      ∧ mapIndex params name = (re.FindStringSubmatch value).getD 1 "" := by
  have hn : re.SubexpNames = ["", name] := by rw [Regex.SubexpNames, hg]
  unfold GetRegexParameter
  simp only [hn]
  rcases Regex.FindStringSubmatch_length re value with h | h
  · rw [h]
    exact ⟨[], by simp [GetRegexParameter.loop], rfl⟩
  · rw [hg] at h
    match hm : re.FindStringSubmatch value, h with
    | [a, b], _ =>
      refine ⟨[(name, b)], ?_, ?_⟩
      · have h1 : goIndex [a, b] (1 : Int) = some b := rfl
        simp only [GetRegexParameter.loop, List.length_cons, List.length_nil]
        simp [h1]
      · simp [mapIndex, List.lookup]

theorem lensArtifactsRegex_groupNames : lensArtifactsRegex.groupNames = ["JSON"] := by decide

theorem srcRegex_groupNames : srcRegex.groupNames = ["URL"] := by decide

/-- The steps of `extractBuildLensURL` after the traversal. -/
theorem prow.extractBuildLensURL_eq
    (jsonUnmarshal : String → Except String (List (String × List String)))
    (jsonMarshal : Option (List String) → Except String String)
    (doc : html.Node) (content buildLen : String)
    (hc : prow.extractBuildLensURL.crawler doc = some (content, buildLen)) :
    prow.extractBuildLensURL jsonUnmarshal jsonMarshal (.ok doc)
      = match jsonUnmarshal ((lensArtifactsRegex.FindStringSubmatch content).getD 1 "") with
        | .error err => some (.error err)
        | .ok jsonData =>
          match jsonMarshal (jsonData.lookup buildLen) with
          | .error err => some (.error err)
          | .ok artifactsList =>
            some (.ok (prow.URL ++ "/spyglass/lens/buildlog/iframe?req="
              ++ url.QueryEscape
                  (prow.lensPayload artifactsList buildLen
                    ((srcRegex.FindStringSubmatch content).getD 1 "")))) := by
  obtain ⟨p1, hp1, hv1⟩ :=
    GetRegexParameter_single lensArtifactsRegex "JSON" content lensArtifactsRegex_groupNames
  obtain ⟨p2, hp2, hv2⟩ := GetRegexParameter_single srcRegex "URL" content srcRegex_groupNames
  simp only [prow.extractBuildLensURL, hc, hp1, hp2, hv1, hv2]

set_option maxRecDepth 100000 in
/-- C18 on the code: in an overview page with two scripts that hold the marker
`lensArtifacts`, the script text the traversal keeps is that of the second one, and the viewer
URL is built from the `src` of the second script. -/
theorem later_script_replaces_the_first :
    ((html.Node.documentVisits twoScriptsDoc).map (fun v => v.2.2)).filter
        (fun data => strings.Contains data "lensArtifacts")
        = [sampleScript, otherScript]
      ∧ sampleScript ≠ otherScript
      ∧ prow.extractBuildLensURL.crawler twoScriptsDoc = some (otherScript, "0")
      ∧ prow.extractBuildLensURL sampleUnmarshal sampleMarshal (.ok twoScriptsDoc)
          = some (.ok "https://prow.k8s.io/spyglass/lens/buildlog/iframe?req=%7B%22artifacts%22%3A+%5B%22build-log.txt%22%5D%2C%22index%22%3A+0%2C%22src%22%3A+%22gs%3A%2F%2Fkubernetes-ci-logs%2Flogs%2Fother-job%2F1%22%7D") :=
  ⟨by decide, by decide, by decide, rfl⟩

/-- C19: when `extractBuildLensURL` succeeds, with `S` the script text and `I` the lens index
the traversal found, the URL it returns is
`https://prow.k8s.io/spyglass/lens/buildlog/iframe?req=` followed by the query-escaping of the
payload with the fields `artifacts`, `index` and `src`, whose values are `A`, `I` and `U`: `A`
is the JSON encoding of the list that the decoded `lensArtifacts` object of `S` maps `I` to,
and `U` the `src` URL captured from `S`. -/
theorem viewer_URL_eq
    (jsonUnmarshal : String → Except String (List (String × List String)))
    (jsonMarshal : Option (List String) → Except String String)
    (parsed : Except String html.Node) (viewerURL : String)
    (h : prow.extractBuildLensURL jsonUnmarshal jsonMarshal parsed = some (.ok viewerURL)) :
    ∃ doc S I jsonData A,
      parsed = .ok doc
        ∧ prow.extractBuildLensURL.crawler doc = some (S, I)
        ∧ jsonUnmarshal ((lensArtifactsRegex.FindStringSubmatch S).getD 1 "") = .ok jsonData
        ∧ jsonMarshal (jsonData.lookup I) = .ok A
        ∧ viewerURL
            = "https://prow.k8s.io/spyglass/lens/buildlog/iframe?req="
              ++ url.QueryEscape
                  ("\x7b\"artifacts\": " ++ A ++ ",\"index\": " ++ I ++ ",\"src\": \""
                    ++ (srcRegex.FindStringSubmatch S).getD 1 "" ++ "\"\x7d") := by
  cases parsed with
  | error err => simp [prow.extractBuildLensURL] at h
  | ok doc =>
    cases hc : prow.extractBuildLensURL.crawler doc with
    | none => simp [prow.extractBuildLensURL, hc] at h
    | some st =>
      obtain ⟨S, I⟩ := st
      rw [prow.extractBuildLensURL_eq jsonUnmarshal jsonMarshal doc S I hc] at h
      cases hU : jsonUnmarshal ((lensArtifactsRegex.FindStringSubmatch S).getD 1 "") with
      | error err => rw [hU] at h; simp at h
      | ok jsonData =>
        rw [hU] at h
        simp only [] at h
        cases hM : jsonMarshal (jsonData.lookup I) with
        | error err => rw [hM] at h; simp at h
        | ok A =>
          rw [hM] at h
          simp only [Option.some.injEq, Except.ok.injEq] at h
          refine ⟨doc, S, I, jsonData, A, rfl, hc, hU, hM, ?_⟩
          rw [← h]
          rfl

set_option maxRecDepth 100000 in
/-- C19 at an overview page with one script and the build-log iframe of index 0. -/
theorem viewer_URL_eq_witness :
    prow.extractBuildLensURL sampleUnmarshal sampleMarshal (.ok overviewDoc)
        = some (.ok "https://prow.k8s.io/spyglass/lens/buildlog/iframe?req=%7B%22artifacts%22%3A+%5B%22build-log.txt%22%5D%2C%22index%22%3A+0%2C%22src%22%3A+%22gs%3A%2F%2Fkubernetes-ci-logs%2Flogs%2Fci-job%2F1972011571991285760%22%7D")
      ∧ ∃ doc S I jsonData A,
          (Except.ok overviewDoc : Except String html.Node) = Except.ok doc
            ∧ prow.extractBuildLensURL.crawler doc = some (S, I)
            ∧ sampleUnmarshal ((lensArtifactsRegex.FindStringSubmatch S).getD 1 "")
                = .ok jsonData
            ∧ sampleMarshal (jsonData.lookup I) = .ok A
            ∧ "https://prow.k8s.io/spyglass/lens/buildlog/iframe?req=%7B%22artifacts%22%3A+%5B%22build-log.txt%22%5D%2C%22index%22%3A+0%2C%22src%22%3A+%22gs%3A%2F%2Fkubernetes-ci-logs%2Flogs%2Fci-job%2F1972011571991285760%22%7D"
                = "https://prow.k8s.io/spyglass/lens/buildlog/iframe?req="
                  ++ url.QueryEscape
                      ("\x7b\"artifacts\": " ++ A ++ ",\"index\": " ++ I ++ ",\"src\": \""
                        ++ (srcRegex.FindStringSubmatch S).getD 1 "" ++ "\"\x7d") :=
  ⟨rfl, viewer_URL_eq sampleUnmarshal sampleMarshal (.ok overviewDoc) _ rfl⟩

/-- Without a build-log iframe the traversal of `extractBuildLensURL` leaves the lens index
as it was. -/
theorem prow.extractBuildLensURL.crawlerLoop_no_iframe :
    ∀ (node : html.Node) (st : String × String), node.hasBuildlogIframe = false →
      (prow.extractBuildLensURL.crawlerLoop node st).2 = st.2 := by
  intro node
  induction node with
  | nil => intro st _; rfl
  | mk kind dataAtom data attr firstChild nextSibling ih1 ih2 =>
    intro st h
    simp only [html.Node.hasBuildlogIframe, Bool.or_eq_false_iff, decide_eq_false_iff_not] at h
    obtain ⟨⟨h1, h2⟩, h3⟩ := h
    rw [prow.extractBuildLensURL.crawlerLoop]
    simp only [if_neg h1]
    rw [ih2 _ h3, ih1 _ h2]

theorem prow.extractBuildLensURL.crawler_no_iframe (doc : html.Node) (S I : String)
    (hc : prow.extractBuildLensURL.crawler doc = some (S, I))
    (hno : doc.hasBuildlogIframe = false) : I = "" := by
  cases doc with
  | nil => exact Option.noConfusion hc
  | mk kind dataAtom data attr firstChild nextSibling =>
    simp only [html.Node.hasBuildlogIframe, Bool.or_eq_false_iff, decide_eq_false_iff_not]
      at hno
    obtain ⟨⟨h1, h2⟩, -⟩ := hno
    have hroot : (html.Node.mk kind dataAtom data attr firstChild .nil).hasBuildlogIframe
        = false := by
      simp only [html.Node.hasBuildlogIframe, Bool.or_eq_false_iff, decide_eq_false_iff_not]
      exact ⟨⟨h1, h2⟩, trivial⟩
    have h := prow.extractBuildLensURL.crawlerLoop_no_iframe _ ("", "") hroot
    simp only [prow.extractBuildLensURL.crawler, Option.some.injEq] at hc
    rw [hc] at h
    exact h

set_option maxRecDepth 100000 in
/-- C20 fails on the code: for an overview page with a well-formed `lensArtifacts` script and
no build-log iframe, `extractBuildLensURL` returns no error but a viewer URL, whose payload
has an empty `index` and `null` for `artifacts`. -/
theorem missing_iframe_is_not_an_error :
    noIframeDoc.hasBuildlogIframe = false
      ∧ prow.extractBuildLensURL.crawler noIframeDoc = some (sampleScript, "")
      ∧ prow.extractBuildLensURL sampleUnmarshal sampleMarshal (.ok noIframeDoc)
          = some (.ok "https://prow.k8s.io/spyglass/lens/buildlog/iframe?req=%7B%22artifacts%22%3A+null%2C%22index%22%3A+%2C%22src%22%3A+%22gs%3A%2F%2Fkubernetes-ci-logs%2Flogs%2Fci-job%2F1972011571991285760%22%7D") :=
  ⟨by decide, by decide, rfl⟩

/-- The script text the traversal of `extractBuildLensURL` ends with is the one it started
with or the text of a script of the tree that holds the marker. -/
theorem prow.extractBuildLensURL.crawlerLoop_content :
    ∀ (node : html.Node) (st : String × String),
      (prow.extractBuildLensURL.crawlerLoop node st).1 = st.1
        ∨ (prow.extractBuildLensURL.crawlerLoop node st).1 ∈ node.markerScripts := by
  intro node
  induction node with
  | nil => intro st; exact Or.inl rfl
  | mk kind dataAtom data attr firstChild nextSibling ih1 ih2 =>
    intro st
    rw [prow.extractBuildLensURL.crawlerLoop, html.Node.markerScripts]
    by_cases hs : data = "script" ∧ firstChild ≠ html.Node.nil
        ∧ strings.Contains firstChild.Data "lensArtifacts" = true
    · simp only [if_pos hs]
      split
      · rcases ih2 (firstChild.Data, prow.getAttributeValue attr "data-lens-index")
          with h | h
        · right; rw [h]; simp
        · right; simp [h]
      · rcases ih2 (prow.extractBuildLensURL.crawlerLoop firstChild (firstChild.Data, st.2))
          with h | h
        · rcases ih1 (firstChild.Data, st.2) with h' | h'
          · right; rw [h, h']; simp
          · right; rw [h]; simp [h']
        · right; simp [h]
    · simp only [if_neg hs]
      split
      · rcases ih2 (st.1, prow.getAttributeValue attr "data-lens-index") with h | h
        · left; rw [h]
        · right; simp [h]
      · rcases ih2 (prow.extractBuildLensURL.crawlerLoop firstChild (st.1, st.2))
          with h | h
        · rcases ih1 (st.1, st.2) with h' | h'
          · left; rw [h, h']
          · right; rw [h]; simp [h']
        · right; simp [h]

/-- The script text `extractBuildLensURL` works on is empty or the text of a script of the
document that holds the marker. -/
theorem prow.extractBuildLensURL.crawler_content (doc : html.Node) (S I : String)
    (hc : prow.extractBuildLensURL.crawler doc = some (S, I)) :
    S = "" ∨ S ∈ doc.markerScripts := by
  cases doc with
  | nil => exact Option.noConfusion hc
  | mk kind dataAtom data attr firstChild nextSibling =>
    simp only [prow.extractBuildLensURL.crawler, Option.some.injEq] at hc
    have h := prow.extractBuildLensURL.crawlerLoop_content
      (.mk kind dataAtom data attr firstChild .nil) ("", "")
    rw [hc] at h
    rcases h with h | h
    · exact Or.inl h
    · right
      simp only [html.Node.markerScripts, List.append_nil, List.mem_append] at h ⊢
      rcases h with h | h
      · exact Or.inl h
      · exact Or.inr (Or.inl h)

/-- C20 as amended: `extractBuildLensURL` returns an error only when `html.Parse`, the JSON
decoding of the `lensArtifacts` capture or the JSON encoding of the selected list returns one.
When decoding the empty text fails, the function fails on every page whose kept script text
is empty or does not match the `lensArtifacts` pattern, the capture being empty then; so it
fails on every page none of whose scripts holding the marker matches the pattern, a page
without such a script included.  A missing build-log iframe is not detected: for a document
without such an iframe the lens index is the empty string, and when the capture of its script
decodes and the list under the empty key encodes, the function returns the viewer URL built
with the empty index. -/
theorem lens_URL_errors
    (jsonUnmarshal : String → Except String (List (String × List String)))
    (jsonMarshal : Option (List String) → Except String String) :
    (∀ parsed err,
        prow.extractBuildLensURL jsonUnmarshal jsonMarshal parsed = some (.error err) →
          parsed = .error err
            ∨ ∃ doc S I, parsed = .ok doc ∧ prow.extractBuildLensURL.crawler doc = some (S, I)
                ∧ (jsonUnmarshal ((lensArtifactsRegex.FindStringSubmatch S).getD 1 "")
                      = .error err
                    ∨ ∃ jsonData,
                        jsonUnmarshal ((lensArtifactsRegex.FindStringSubmatch S).getD 1 "")
                          = .ok jsonData
                        ∧ jsonMarshal (jsonData.lookup I) = .error err))
      ∧ (∀ doc I err, prow.extractBuildLensURL.crawler doc = some ("", I) →
          jsonUnmarshal "" = .error err →
          prow.extractBuildLensURL jsonUnmarshal jsonMarshal (.ok doc) = some (.error err))
      ∧ (∀ doc S I err, prow.extractBuildLensURL.crawler doc = some (S, I) →
          lensArtifactsRegex.FindStringSubmatch S = [] →
          jsonUnmarshal "" = .error err →
          prow.extractBuildLensURL jsonUnmarshal jsonMarshal (.ok doc) = some (.error err))
      ∧ (∀ doc err, doc ≠ html.Node.nil →
          (∀ script ∈ doc.markerScripts, lensArtifactsRegex.FindStringSubmatch script = []) →
          jsonUnmarshal "" = .error err →
          prow.extractBuildLensURL jsonUnmarshal jsonMarshal (.ok doc) = some (.error err))
      ∧ (∀ doc S I jsonData A, prow.extractBuildLensURL.crawler doc = some (S, I) →
          doc.hasBuildlogIframe = false →
          jsonUnmarshal ((lensArtifactsRegex.FindStringSubmatch S).getD 1 "") = .ok jsonData →
          jsonMarshal (jsonData.lookup "") = .ok A →
          I = ""
            ∧ prow.extractBuildLensURL jsonUnmarshal jsonMarshal (.ok doc)
                = some (.ok ("https://prow.k8s.io/spyglass/lens/buildlog/iframe?req="
                    ++ url.QueryEscape
                        ("\x7b\"artifacts\": " ++ A ++ ",\"index\": " ++ "" ++ ",\"src\": \""
                          ++ (srcRegex.FindStringSubmatch S).getD 1 "" ++ "\"\x7d")))) := by
  have hempty : lensArtifactsRegex.FindStringSubmatch "" = [] := by decide
  have hnomatch : ∀ doc S I err, prow.extractBuildLensURL.crawler doc = some (S, I) →
      lensArtifactsRegex.FindStringSubmatch S = [] →
      jsonUnmarshal "" = .error err →
      prow.extractBuildLensURL jsonUnmarshal jsonMarshal (.ok doc) = some (.error err) := by
    intro doc S I err hc hS hU
    have he : (lensArtifactsRegex.FindStringSubmatch S).getD 1 "" = "" := by rw [hS]; rfl
    rw [prow.extractBuildLensURL_eq jsonUnmarshal jsonMarshal doc S I hc, he, hU]
  refine ⟨?_, ?_, hnomatch, ?_, ?_⟩
  · intro parsed err h
    cases parsed with
    | error e =>
      simp only [prow.extractBuildLensURL, Option.some.injEq, Except.error.injEq] at h
      left; rw [h]
    | ok doc =>
      right
      cases hc : prow.extractBuildLensURL.crawler doc with
      | none => simp [prow.extractBuildLensURL, hc] at h
      | some st =>
        obtain ⟨S, I⟩ := st
        rw [prow.extractBuildLensURL_eq jsonUnmarshal jsonMarshal doc S I hc] at h
        refine ⟨doc, S, I, rfl, hc, ?_⟩
        cases hU : jsonUnmarshal ((lensArtifactsRegex.FindStringSubmatch S).getD 1 "") with
        | error e =>
          rw [hU] at h
          simp only [Option.some.injEq, Except.error.injEq] at h
          left; rw [h]
        | ok jsonData =>
          rw [hU] at h
          simp only [] at h
          right
          refine ⟨jsonData, rfl, ?_⟩
          cases hM : jsonMarshal (jsonData.lookup I) with
          | error e =>
            rw [hM] at h
            simp only [Option.some.injEq, Except.error.injEq] at h
            rw [h]
          | ok A => rw [hM] at h; simp at h
  · intro doc I err hc hU
    exact hnomatch doc "" I err hc hempty hU
  · intro doc err hdoc hall hU
    cases hc : prow.extractBuildLensURL.crawler doc with
    | none =>
      cases doc with
      | nil => exact absurd rfl hdoc
      | mk kind dataAtom data attr firstChild nextSibling =>
        simp [prow.extractBuildLensURL.crawler] at hc
    | some st =>
      obtain ⟨S, I⟩ := st
      rcases prow.extractBuildLensURL.crawler_content doc S I hc with h | h
      · subst h
        exact hnomatch doc "" I err hc hempty hU
      · exact hnomatch doc S I err hc (hall S h) hU
  · intro doc S I jsonData A hc hno hU hM
    have hI := prow.extractBuildLensURL.crawler_no_iframe doc S I hc hno
    subst hI
    refine ⟨rfl, ?_⟩
    rw [prow.extractBuildLensURL_eq jsonUnmarshal jsonMarshal doc S "" hc, hU]
    simp only []
    rw [hM]
    rfl

set_option maxRecDepth 100000 in
/-- C20 as amended, at a page with no script at all, at a page whose script holds the marker
without the shape of the pattern (and has the build-log iframe), and at an overview page with
the script and no build-log iframe. -/
theorem lens_URL_errors_witness :
    prow.extractBuildLensURL sampleUnmarshal sampleMarshal (.ok (html.document .nil))
        = some (.error "unexpected end of JSON input")
      ∧ (nullArtifactsDoc.markerScripts = ["var lensArtifacts = null;"]
        ∧ nullArtifactsDoc.hasBuildlogIframe = true
        ∧ prow.extractBuildLensURL sampleUnmarshal sampleMarshal (.ok nullArtifactsDoc)
            = some (.error "unexpected end of JSON input"))
      ∧ ("" = ""
        ∧ prow.extractBuildLensURL sampleUnmarshal sampleMarshal (.ok noIframeDoc)
            = some (.ok ("https://prow.k8s.io/spyglass/lens/buildlog/iframe?req="
                ++ url.QueryEscape
                    ("\x7b\"artifacts\": " ++ "null" ++ ",\"index\": " ++ "" ++ ",\"src\": \""
                      ++ (srcRegex.FindStringSubmatch sampleScript).getD 1 "" ++ "\"\x7d")))) :=
  ⟨(lens_URL_errors sampleUnmarshal sampleMarshal).2.1 (html.document .nil) "" _
      (by decide) rfl,
    ⟨by decide, by decide,
      (lens_URL_errors sampleUnmarshal sampleMarshal).2.2.2.1 nullArtifactsDoc _ (by decide)
        (by decide) rfl⟩,
    (lens_URL_errors sampleUnmarshal sampleMarshal).2.2.2.2 noIframeDoc sampleScript ""
      [("0", ["build-log.txt"])] "null" (by decide) (by decide) rfl rfl⟩


/-! ## The reconciler -/

set_option maxRecDepth 100000 in
/-- C21 on the code: `Reconcile` passes `Spec.MinFlakes` where `FetchTabTests` takes
`minFailure` and `Spec.MinFailures` where it takes `minFlake`.  For a Dashboard object with the
default thresholds (2 failures, 3 flakes), a tab in state `FAILING` and a test with two failing
runs, the call of `Reconcile` returns a tab without test runs, whereas the call with
`minFailure = Spec.MinFailures` and `minFlake = Spec.MinFlakes` returns the test. -/
theorem Reconcile_swaps_the_thresholds :
    (∀ (timeString : Int → String) (fetchTestGroup : String → Except String TestGroup)
        (grid : TestGrid) (dashboard : Dashboard) (dashSummary : DashboardSummary),
        DashboardReconciler.Reconcile.fetchTab timeString fetchTestGroup grid dashboard
            dashSummary
          = grid.FetchTabTests timeString fetchTestGroup dashSummary dashboard.Spec.MinFlakes
              dashboard.Spec.MinFailures)
      ∧ defaultDashboard.Spec.MinFailures = 2
      ∧ defaultDashboard.Spec.MinFlakes = 3
      ∧ failingSummary.OverallState = FAILING_STATUS
      ∧ (twoFailuresGroup.Tests.map
            (fun test => test.failureCount sampleTime twoFailuresGroup.Timestamps)) = [2]
      ∧ (∃ tab, DashboardReconciler.Reconcile.fetchTab sampleTime
            (fun _ => .ok twoFailuresGroup) (NewTestGrid URL) defaultDashboard failingSummary
              = some (.ok tab)
          ∧ tab.TestRuns = [])
      ∧ (∃ tab, (NewTestGrid URL).FetchTabTests sampleTime (fun _ => .ok twoFailuresGroup)
            failingSummary defaultDashboard.Spec.MinFailures defaultDashboard.Spec.MinFlakes
              = some (.ok tab)
          ∧ tab.TestRuns.map (fun r => r.TestName) = ["kubetest.Up"]) :=
  ⟨fun _ _ _ _ _ => rfl, by decide, by decide, by decide, by decide, ⟨_, rfl, by decide⟩,
    ⟨_, rfl, by decide⟩⟩

/-- C22 on the code: `doesExistsConfigmap` returns true exactly when the lookup fails with a
not-found error, that is when the ConfigMap does not exist; so `createOrUpdateConfigmap`
sends `Update` when the lookup reports not-found and `Create` when the lookup succeeds.
Against a server without the ConfigMap the call sends `Update` and returns its not-found
error; against a server that holds it the call sends `Create` and returns the conflict. -/
theorem createOrUpdateConfigmap_is_inverted (r : client.Client)
    (configMapKey : client.ObjectKey) (configMap : v1.ConfigMap) :
    (DashboardReconciler.doesExistsConfigmap r configMapKey = true
        ↔ ∃ err, r.Get configMapKey = some err ∧ apierrors.IsNotFound err = true)
      ∧ (r.Get configMapKey = none →
          (DashboardReconciler.createOrUpdateConfigmap r configMapKey configMap).1
            = .Create configMap)
      ∧ (∀ err, r.Get configMapKey = some err → apierrors.IsNotFound err = true →
          (DashboardReconciler.createOrUpdateConfigmap r configMapKey configMap).1
            = .Update configMap)
      ∧ DashboardReconciler.createOrUpdateConfigmap (serverWith []) sampleKey sampleConfigMap
          = (.Update sampleConfigMap,
              some "failed to update ConfigMap sig-release-blocking-cikubernetesbuild: configmaps \"sig-release-blocking-cikubernetesbuild\" not found")
      ∧ DashboardReconciler.createOrUpdateConfigmap (serverWith [sampleKey]) sampleKey
            sampleConfigMap
          = (.Create sampleConfigMap,
              some "failed to create ConfigMap sig-release-blocking-cikubernetesbuild: configmaps \"sig-release-blocking-cikubernetesbuild\" already exists") := by
  refine ⟨?_, ?_, ?_, by decide, by decide⟩
  · unfold DashboardReconciler.doesExistsConfigmap
    cases h : r.Get configMapKey with
    | none => simp
    | some err => cases hn : apierrors.IsNotFound err <;> simp [hn]
  · intro h
    have hd : DashboardReconciler.doesExistsConfigmap r configMapKey = false := by
      simp [DashboardReconciler.doesExistsConfigmap, h]
    unfold DashboardReconciler.createOrUpdateConfigmap
    rw [hd]
    cases r.Create configMap <;> rfl
  · intro err h hn
    have hd : DashboardReconciler.doesExistsConfigmap r configMapKey = true := by
      simp [DashboardReconciler.doesExistsConfigmap, h, hn]
    unfold DashboardReconciler.createOrUpdateConfigmap
    rw [hd]
    cases r.Update configMap <;> rfl

/-- C23: `shouldRefresh` returns false whenever the stored summaries are deeply equal to the
new ones; when they are not, it returns true if the stored `LastUpdate` is the zero instant,
and otherwise it returns true if and only if at least one minute (60 000 000 000 ns) lies
between `LastUpdate` and the current time. -/
theorem shouldRefresh_spec (now : time.Time) (dashboardStatus : DashboardStatus)
    (summary : List DashboardSummary) :
    (reflect.DeepEqual dashboardStatus.DashboardSummary summary = true →
        DashboardReconciler.shouldRefresh now dashboardStatus summary = false)
      ∧ (reflect.DeepEqual dashboardStatus.DashboardSummary summary = false →
          dashboardStatus.LastUpdate = 0 →
          DashboardReconciler.shouldRefresh now dashboardStatus summary = true)
      ∧ (reflect.DeepEqual dashboardStatus.DashboardSummary summary = false →
          dashboardStatus.LastUpdate ≠ 0 →
          (DashboardReconciler.shouldRefresh now dashboardStatus summary = true
            ↔ now - dashboardStatus.LastUpdate ≥ 60 * 1000000000)) := by
  refine ⟨?_, ?_, ?_⟩
  · intro h
    simp [DashboardReconciler.shouldRefresh, h]
  · intro h hz
    simp [DashboardReconciler.shouldRefresh, h, metav1.Time.IsZero, hz]
  · intro h hz
    have key : ∀ a b : Int,
        ((if a - b > 9223372036854775807 then (9223372036854775807 : Int)
          else if a - b < -9223372036854775808 then -9223372036854775808
          else a - b) ≥ 1 * 60000000000) ↔ a - b ≥ 60 * 1000000000 := by
      intro a b
      constructor
      · intro hge
        split at hge
        · omega
        · split at hge <;> omega
      · intro hge
        split
        · omega
        · split <;> omega
    simp only [DashboardReconciler.shouldRefresh, h, metav1.Time.IsZero, hz, decide_False,
      Bool.false_eq_true, if_false, decide_eq_true_eq, time.Since, time.Time.Sub, time.Minute,
      time.maxDuration, time.minDuration]
    exact key now dashboardStatus.LastUpdate

/-- C23 at a status last updated two minutes before the current time, and at one updated
thirty seconds before it. -/
theorem shouldRefresh_spec_witness :
    DashboardReconciler.shouldRefresh 63900000120000000000
        { LastUpdate := 63900000000000000000, DashboardSummary := [] } [failingSummary] = true
      ∧ DashboardReconciler.shouldRefresh 63900000030000000000
          { LastUpdate := 63900000000000000000, DashboardSummary := [] } [failingSummary]
            = false
      ∧ DashboardReconciler.shouldRefresh 63900000120000000000
          { LastUpdate := 63900000000000000000, DashboardSummary := [failingSummary] }
          [failingSummary] = false :=
  ⟨((shouldRefresh_spec 63900000120000000000
        { LastUpdate := 63900000000000000000, DashboardSummary := [] } [failingSummary]).2.2
      (by decide) (by decide)).2 (by decide),
    by decide, by decide⟩

/-! ## The tab test filter: indices in range -/

/-- C24: on a test group in which the `ShortTexts` and `Messages` of every test and the
`Changelists` of the group have the length of `Timestamps`, for every state and all thresholds
of at least 1, `filterTabTests` returns (no index is out of range); `RenderStatuses` returns
for every test of the group, and whenever the test is included its first-failure index is a
valid position of `Changelists`, `Timestamps` is not empty, so that its first and last entries
exist; the split on `"/"` of every `Query`, the empty one included, has a last element. -/
theorem filterTabTests_indices_in_range (timeString : Int → String) (testGroup : TestGroup)
    (state : String) (minFailure minFlake : Int) (hal : testGroup.aligned)
    (hF : 1 ≤ minFailure) (hK : 1 ≤ minFlake) :
    (∃ tests, filterTabTests timeString testGroup state minFailure minFlake = some tests)
      ∧ (∀ test ∈ testGroup.Tests, ∃ errMessage failures firstFailure,
          test.RenderStatuses timeString testGroup.Timestamps
              = some (errMessage, failures, firstFailure)
            ∧ (filterTabTests.included state minFailure minFlake failures = true →
                0 ≤ firstFailure
                  ∧ firstFailure < (testGroup.Changelists.length : Int)
                  ∧ (∃ changelist, goIndex testGroup.Changelists firstFailure = some changelist)
                  ∧ testGroup.Timestamps ≠ []
                  ∧ (∃ latest, goIndex testGroup.Timestamps 0 = some latest)
                  ∧ (∃ first, goIndex testGroup.Timestamps
                      ((testGroup.Timestamps.length : Int) - 1) = some first)))
      ∧ (∀ query : String, ∃ job,
          goIndex (strings.Split query "/") (((strings.Split query "/").length : Int) - 1)
            = some job)
      ∧ strings.Split "" "/" = [""] := by
  refine ⟨filterTabTests_total timeString testGroup state minFailure minFlake hal hF hK,
    ?_, ?_, by decide⟩
  · obtain ⟨hS, hM, hC⟩ := hal
    intro test ht
    have hr := Test.RenderStatuses_eq timeString test testGroup.Timestamps
      (by rw [hS test ht, hM test ht]) (by rw [hS test ht])
    refine ⟨_, _, _, hr, ?_⟩
    intro hin
    have hpos : 0 < test.ShortTexts.countP (fun s => decide (s ≠ "")) := by
      simp only [filterTabTests.included, Bool.or_eq_true, Bool.and_eq_true,
        decide_eq_true_eq, ge_iff_le] at hin
      omega
    obtain ⟨k, hk, -, hk2⟩ := List.findIdx?_of_countP_pos _ test.ShortTexts 0 hpos
    rw [hk]
    simp only []
    have hlen : k < testGroup.Timestamps.length := by rw [← hS test ht]; omega
    have hne : testGroup.Timestamps ≠ [] := by
      intro h0
      rw [h0] at hlen
      exact Nat.not_lt_zero _ hlen
    exact ⟨by omega, by rw [hC]; omega,
      goIndex_isSome testGroup.Changelists (k : Int) (by omega) (by rw [hC]; omega), hne,
      goIndex_isSome testGroup.Timestamps 0 (le_refl _) (by omega),
      goIndex_isSome testGroup.Timestamps ((testGroup.Timestamps.length : Int) - 1)
        (by omega) (by omega)⟩
  · intro query
    have hj : 0 < (strings.Split query "/").length :=
      List.length_pos.2 (strings.Split_slash_ne_nil _)
    exact goIndex_isSome _ _ (by omega) (by omega)

set_option maxRecDepth 100000 in
/-- C24 at the test group of `Test_FetchTable`, under `FLAKY` with thresholds 1 and 1. -/
theorem filterTabTests_indices_in_range_witness :
    (sampleGroup.aligned ∧ (1 : Int) ≤ 1)
      ∧ ∃ tests, filterTabTests sampleTime sampleGroup FLAKY_STATUS 1 1 = some tests :=
  ⟨⟨⟨by decide, by decide, by decide⟩, by decide⟩,
    (filterTabTests_indices_in_range sampleTime sampleGroup FLAKY_STATUS 1 1
      ⟨by decide, by decide, by decide⟩ (by decide) (by decide)).1⟩

theorem Test.renderLoop_all_empty (timeString : Int → String) (te : Test)
    (timestamps : List Int) :
    ∀ (rest : List String) (i : Nat) (st : String × Int × Int), (∀ s ∈ rest, s = "") →
      Test.renderLoop timeString te timestamps rest i st = some st := by
  intro rest
  induction rest with
  | nil => intro i st _; rfl
  | cons s rest ih =>
    intro i st hall
    obtain ⟨output, failureCount, firstFailureIndex⟩ := st
    have hs : s = "" := hall s (List.mem_cons_self _ _)
    rw [Test.renderLoop, if_pos hs]
    exact ih (i + 1) _ (fun t ht => hall t (List.mem_cons_of_mem _ ht))

/-- A test without a failing run that is included makes the loop of `filterTabTests` panic,
on the index `-1` of `Changelists`, unless the loop has panicked before. -/
theorem filterTabTests.loop_none (timeString : Int → String) (testGroup : TestGroup)
    (state : String) (minFailure minFlake : Int) (jobName : List String) (test : Test)
    (hall : ∀ s ∈ test.ShortTexts, s = "")
    (hin : filterTabTests.included state minFailure minFlake 0 = true) :
    ∀ (rest : List Test), test ∈ rest → ∀ acc : List TestResult,
      filterTabTests.loop timeString testGroup state minFailure minFlake jobName rest acc
        = none := by
  intro rest
  induction rest with
  | nil => intro h; exact absurd h (List.not_mem_nil _)
  | cons t rest ih =>
    intro hmem acc
    rw [filterTabTests.loop]
    rcases List.mem_cons.1 hmem with h | h
    · subst h
      have hr : test.RenderStatuses timeString testGroup.Timestamps = some ("", 0, -1) :=
        Test.renderLoop_all_empty timeString test testGroup.Timestamps _ 0 _ hall
      rw [hr]
      simp only [hin, if_true]
      cases normalizedTestName test.Name with
      | none => rfl
      | some testName =>
        have hres : filterTabTests.result testGroup jobName test testName "" (-1) = none := by
          have h3 : goIndex testGroup.Changelists (-1) = none := by simp [goIndex]
          simp only [filterTabTests.result, h3, Option.bind_eq_bind, bind, Option.bind]
          cases goIndex testGroup.Timestamps 0 with
          | none => rfl
          | some latest =>
            cases goIndex testGroup.Timestamps ((testGroup.Timestamps.length : Int) - 1) with
            | none => rfl
            | some first => rfl
        simp only [hres]
    · cases t.RenderStatuses timeString testGroup.Timestamps with
      | none => rfl
      | some res =>
        obtain ⟨errMessage, failures, firstFailure⟩ := res
        simp only []
        split
        · cases normalizedTestName t.Name with
          | none => rfl
          | some testName =>
            simp only []
            cases filterTabTests.result testGroup jobName t testName errMessage firstFailure with
            | none => rfl
            | some r => exact ih h _
        · exact ih h _

/-- C25 on the code: when a threshold is 0 (or less) in the state it applies to, a test that
has no failing run is included with the first-failure index `-1`, and reading
`Changelists[-1]` panics: `filterTabTests` does not return on any group that has such a
test. -/
theorem filterTabTests_panics_at_threshold_zero (timeString : Int → String)
    (testGroup : TestGroup) (state : String) (minFailure minFlake : Int) (test : Test)
    (hmem : test ∈ testGroup.Tests) (hall : ∀ s ∈ test.ShortTexts, s = "")
    (hzero : (state = FAILING_STATUS ∧ minFailure ≤ 0)
      ∨ (state = FLAKY_STATUS ∧ minFlake ≤ 0)) :
    filterTabTests timeString testGroup state minFailure minFlake = none := by
  have hin : filterTabTests.included state minFailure minFlake 0 = true := by
    simp only [filterTabTests.included, Bool.or_eq_true, Bool.and_eq_true, decide_eq_true_eq,
      ge_iff_le]
    rcases hzero with ⟨h1, h2⟩ | ⟨h1, h2⟩
    · exact Or.inl ⟨h2, h1⟩
    · exact Or.inr ⟨h2, h1⟩
  exact filterTabTests.loop_none timeString testGroup state minFailure minFlake _ test hall hin
    testGroup.Tests hmem []

set_option maxRecDepth 100000 in
/-- C25 at an aligned group of one run whose test has no failing run, with the thresholds 0
and 0 that the validation of the Dashboard admits: `filterTabTests` panics under `FAILING`,
and under `FLAKY` as well. -/
theorem filterTabTests_panics_at_threshold_zero_witness :
    (noFailureGroup.aligned ∧ (0 : Int) ≥ 0
        ∧ (∀ test ∈ noFailureGroup.Tests, ∀ s ∈ test.ShortTexts, s = ""))
      ∧ filterTabTests sampleTime noFailureGroup FAILING_STATUS 0 0 = none
      ∧ filterTabTests sampleTime noFailureGroup FLAKY_STATUS 0 0 = none :=
  ⟨⟨⟨by decide, by decide, by decide⟩, by decide, by decide⟩,
    filterTabTests_panics_at_threshold_zero sampleTime noFailureGroup FAILING_STATUS 0 0
      { Name := "kubetest.Up", ShortTexts := [""], Messages := [""] } (by decide) (by decide)
      (Or.inl ⟨rfl, by decide⟩),
    by decide⟩

/-! ## The board hash and the issue template -/

theorem strings.containsLoop_single (a : Char) :
    ∀ s : List Char, strings.containsLoop [a] s = false → a ∉ s := by
  intro s
  induction s with
  | nil => intro _; exact List.not_mem_nil _
  | cons c cs ih =>
    intro h
    simp only [strings.containsLoop, List.isPrefixOf, Bool.or_eq_false_iff, Bool.and_eq_false_imp,
      beq_iff_eq] at h
    intro hm
    rcases List.mem_cons.1 hm with e | e
    · have h1 := h.1 e
      cases cs <;> simp [List.isPrefixOf] at h1
    · exact ih h.2 e

theorem strings.splitLoop_no_sep (a : Char) :
    ∀ (s cur : List Char), a ∉ s →
      strings.splitLoop [a] 0 cur s = [⟨cur.reverse ++ s⟩] := by
  intro s
  induction s with
  | nil => intro cur _; simp [strings.splitLoop]
  | cons c cs ih =>
    intro cur h
    have hc : ¬ (a = c) := fun e => h (e ▸ List.mem_cons_self _ _)
    have hp : List.isPrefixOf [a] (c :: cs) = false := by
      simp [List.isPrefixOf, hc]
    rw [strings.splitLoop, hp]
    simp only [Bool.false_eq_true, if_false]
    rw [ih (c :: cur) (fun hm => h (List.mem_cons_of_mem _ hm))]
    simp

theorem strings.splitLoop_first_sep (a : Char) :
    ∀ (s cur b : List Char), a ∉ s →
      strings.splitLoop [a] 0 cur (s ++ a :: b)
        = ⟨cur.reverse ++ s⟩ :: strings.splitLoop [a] 0 [] b := by
  intro s
  induction s with
  | nil =>
    intro cur b _
    have hp : List.isPrefixOf [a] (a :: b) = true := by
      cases b <;> simp [List.isPrefixOf]
    rw [List.nil_append, strings.splitLoop, hp]
    simp
  | cons c cs ih =>
    intro cur b h
    have hc : ¬ (a = c) := fun e => h (e ▸ List.mem_cons_self _ _)
    have hp : List.isPrefixOf [a] (c :: (cs ++ a :: b)) = false := by
      simp [List.isPrefixOf, hc]
    rw [List.cons_append, strings.splitLoop, hp]
    simp only [Bool.false_eq_true, if_false]
    rw [ih (c :: cur) b (fun hm => h (List.mem_cons_of_mem _ hm))]
    simp

/-- The split on `"#"` of two strings without `#` joined by `#`. -/
theorem strings.Split_hash (x y : String) (hx : strings.Contains x "#" = false)
    (hy : strings.Contains y "#" = false) :
    strings.Split (x ++ "#" ++ y) "#" = [x, y] := by
  have h : ("#" : String).data ≠ [] := by decide
  have hd : (x ++ "#" ++ y).data = x.data ++ '#' :: y.data := by
    simp [String.data_append]
  have hx' := strings.containsLoop_single '#' x.data hx
  have hy' := strings.containsLoop_single '#' y.data hy
  have hs : ("#" : String).data = ['#'] := rfl
  simp only [strings.Split, h, if_false, hd, hs]
  rw [strings.splitLoop_first_sep '#' x.data [] y.data hx',
    strings.splitLoop_no_sep '#' y.data [] hy']
  simp

/-- C26: when the dashboard name and the tab name contain no `#`, the `BoardHash` of the tab
that `FetchTabTests` returns splits on `#` into exactly the dashboard name and the tab name;
the issue template of `updateGitHubPanel` is then built without an index out of range, with
the dashboard name as `BoardName` and the tab name as `TabName`. -/
theorem BoardHash_splits_into_board_and_tab (timeString : Int → String)
    (fetchTestGroup : String → Except String TestGroup) (t : TestGrid)
    (summary : DashboardSummary) (dashboardTab : DashboardTab) (minFailure minFlake : Int)
    (tab : DashboardTab)
    (hT : summary.DashboardTab = some dashboardTab)
    (hd : strings.Contains summary.DashboardName "#" = false)
    (ht : strings.Contains dashboardTab.TabName "#" = false)
    (h : t.FetchTabTests timeString fetchTestGroup summary minFailure minFlake
      = some (.ok tab)) :
    strings.Split tab.BoardHash "#" = [summary.DashboardName, dashboardTab.TabName]
      ∧ ∀ (timeClean : Int → String) (currentTest : TestResult),
          ∃ issue, updateGitHubPanel.issue timeClean tab currentTest = some issue
            ∧ issue.BoardName = summary.DashboardName
            ∧ issue.TabName = dashboardTab.TabName := by
  have hB : tab.BoardHash = summary.DashboardName ++ "#" ++ dashboardTab.TabName := by
    unfold TestGrid.FetchTabTests at h
    rw [hT] at h
    simp only [] at h
    cases hG : fetchTestGroup dashboardTab.TabURL with
    | error err => rw [hG] at h; simp at h
    | ok testGroup =>
      rw [hG] at h
      simp only [] at h
      cases hR : filterTabTests timeString testGroup summary.OverallState minFailure minFlake with
      | none => rw [hR] at h; exact Option.noConfusion h
      | some testRuns =>
        rw [hR] at h
        simp only [Option.some.injEq, Except.ok.injEq] at h
        subst h
        rfl
  have hS := strings.Split_hash summary.DashboardName dashboardTab.TabName hd ht
  rw [← hB] at hS
  refine ⟨hS, ?_⟩
  intro timeClean currentTest
  have h0 : goIndex [summary.DashboardName, dashboardTab.TabName] (0 : Int)
      = some summary.DashboardName := rfl
  have h1 : goIndex [summary.DashboardName, dashboardTab.TabName] (1 : Int)
      = some dashboardTab.TabName := rfl
  simp only [updateGitHubPanel.issue, hS, h0, h1, Option.bind_eq_bind, Option.some_bind, bind,
    Option.bind]
  exact ⟨_, rfl, rfl, rfl⟩

set_option maxRecDepth 100000 in
/-- C26 at the run of `Test_FetchTable`: the board hash
`sig-release-blocking#cikubernetesbuild` gives the board `sig-release-blocking` and the tab
`cikubernetesbuild`. -/
theorem BoardHash_splits_into_board_and_tab_witness :
    (sampleSummary.DashboardTab
          = some { TabName := "cikubernetesbuild", TabURL := "http://127.0.0.1" }
        ∧ strings.Contains sampleSummary.DashboardName "#" = false
        ∧ strings.Contains "cikubernetesbuild" "#" = false
        ∧ TestGrid.FetchTabTests sampleTime (fun _ => .ok sampleGroup) (NewTestGrid URL)
            sampleSummary 1 1 = some (.ok sampleTab))
      ∧ strings.Split sampleTab.BoardHash "#" = ["sig-release-blocking", "cikubernetesbuild"] :=
  ⟨⟨rfl, by decide, by decide, rfl⟩,
    (BoardHash_splits_into_board_and_tab sampleTime (fun _ => .ok sampleGroup) (NewTestGrid URL)
      sampleSummary { TabName := "cikubernetesbuild", TabURL := "http://127.0.0.1" } 1 1
      sampleTab rfl (by decide) (by decide) rfl).1⟩

/-! ## The build-log scraper: a page without the sentinel -/

theorem html.Node.visits_length :
    ∀ (node : html.Node) (parent : Option String),
      (html.Node.visits parent node).length = html.Node.count node := by
  intro node
  induction node with
  | nil => intro parent; rfl
  | mk kind dataAtom data attr firstChild nextSibling ih1 ih2 =>
    intro parent
    simp only [html.Node.visits, html.Node.count, List.length_cons, List.length_append, ih1,
      ih2]
    omega

/-- C27: for every document (a tree under a document node, as `html.Parse` returns it) in
which no text node has exactly the content `expand_less`, `extractBuildLogs` returns a
`BuildLog` with the empty error text; the traversal returns and is the sequence of the visits
of the nodes in depth-first order, one visit for each node of the tree; after every initial
part of that sequence the counter is 0 and nothing has been captured. -/
theorem no_sentinel_gives_empty_error_text (dataAtom : Nat) (data : String)
    (attr : List html.Attribute) (firstChild nextSibling : html.Node)
    (hno : ∀ v ∈ html.Node.documentVisits
        (.mk html.NodeType.DocumentNode dataAtom data attr firstChild nextSibling),
      v.isSentinel = false) :
    prow.extractBuildLogs
        (.ok (.mk html.NodeType.DocumentNode dataAtom data attr firstChild nextSibling))
        = some (.ok { Error := "" })
      ∧ prow.extractBuildLogs.crawler
          (.mk html.NodeType.DocumentNode dataAtom data attr firstChild nextSibling) (0, "")
          = some (0, "")
      ∧ (∀ st, prow.extractBuildLogs.crawler
            (.mk html.NodeType.DocumentNode dataAtom data attr firstChild nextSibling) st
          = prow.extractBuildLogs.visitAll
              (html.Node.documentVisits
                (.mk html.NodeType.DocumentNode dataAtom data attr firstChild nextSibling)) st)
      ∧ (html.Node.documentVisits
            (.mk html.NodeType.DocumentNode dataAtom data attr firstChild nextSibling)).length
          = html.Node.documentCount
              (.mk html.NodeType.DocumentNode dataAtom data attr firstChild nextSibling)
      ∧ (∀ pre post,
          html.Node.documentVisits
              (.mk html.NodeType.DocumentNode dataAtom data attr firstChild nextSibling)
            = pre ++ post →
          prow.extractBuildLogs.visitAll pre (0, "") = some (0, "")) := by
  have hroot : ∀ st : Int × String,
      prow.extractBuildLogs.visit none html.NodeType.DocumentNode data st = some st := by
    intro st
    simp [prow.extractBuildLogs.visit]
  have htotal : ∃ result, prow.extractBuildLogs.crawler
      (.mk html.NodeType.DocumentNode dataAtom data attr firstChild nextSibling) (0, "")
        = some result := by
    rw [prow.extractBuildLogs.crawler, hroot]
    exact prow.extractBuildLogs.crawlerLoop_total firstChild data (0, "")
  obtain ⟨result, hres⟩ := htotal
  have hall := hres
  rw [prow.extractBuildLogs.crawler_eq_visitAll] at hall
  have hzero := prow.extractBuildLogs.visitAll_before_first_sentinel _ "" result hall hno
  subst hzero
  refine ⟨?_, hres, ?_, ?_, ?_⟩
  · simp only [prow.extractBuildLogs, hres]
  · intro st
    exact prow.extractBuildLogs.crawler_eq_visitAll _ _ _ _ _ _ st
  · simp only [html.Node.documentVisits, html.Node.documentCount, List.length_cons,
      html.Node.visits_length]
    omega
  · intro pre post hsplit
    rw [hsplit, prow.extractBuildLogs.visitAll_append] at hall
    cases hp : prow.extractBuildLogs.visitAll pre (0, "") with
    | none => rw [hp] at hall; exact Option.noConfusion hall
    | some st1 =>
      have e := prow.extractBuildLogs.visitAll_before_first_sentinel pre "" st1 hp
        (fun v hv => hno v (by rw [hsplit]; exact List.mem_append_left _ hv))
      rw [e]

set_option maxRecDepth 100000 in
/-- C27 at a page with two lines of text in `span` elements and no sentinel: its 8 nodes are
visited, and the error text is empty. -/
theorem no_sentinel_gives_empty_error_text_witness :
    (∀ v ∈ html.Node.documentVisits plainDoc, v.isSentinel = false)
      ∧ (html.Node.documentVisits plainDoc).map (fun v => v.2.2)
          = ["", "html", "head", "body", "span", "first line of the log", "span",
              "second line of the log"]
      ∧ prow.extractBuildLogs (.ok plainDoc) = some (.ok { Error := "" }) :=
  ⟨by decide, by decide,
    (no_sentinel_gives_empty_error_text 0 "" []
      (html.element "html" 0 [] (html.element "head" 0 [] .nil
        (html.element "body" 0 []
          (html.element "span" 0 [] (html.text "first line of the log" .nil) <|
            html.element "span" 0 [] (html.text "second line of the log" .nil) .nil) .nil))
        .nil) .nil (by decide)).1⟩
end SignalHound
